import Mathlib

/-!
# HPMicro GPIO and pin-control drivers

A shallow embedding of `drivers/gpio/gpio-hpmicro.c`,
`drivers/pinctrl/hpmicro/hpmicro_pinctrl.c` and
`include/dt-bindings/pinctrl/pinctrl-hpmicro.h`.

Machine integers are natural numbers with explicit truncation to 32 bits.
A port is its register block together with the log of every load, store and
handler call the driver performed, so that statements about "exactly one
write" or about the order of accesses can be made on the log, and statements
about register contents on the register block.
-/

namespace HPMicro

/-! ## Machine words -/

/-- Truncation to a 32-bit `unsigned int` / `u32`. -/
def u32 (x : Nat) : Nat := x % 2 ^ 32

/-- Modelled from the spec: truncation to the kernel type `u16`, the type of the
field `ngpio` of `struct gpio_chip` (`linux/gpio/driver.h`, which is not
among the sources). -/
def u16 (x : Nat) : Nat := x % 2 ^ 16

/-- C `~x` on a 32-bit unsigned value. -/
def not32 (x : Nat) : Nat := 2 ^ 32 - 1 - x % 2 ^ 32

/-- C `~x` on an `unsigned long` of `L` bits. -/
def notL (L x : Nat) : Nat := 2 ^ L - 1 - x % 2 ^ L

/-- Conversion of a 32-bit pattern to `int` (two's complement). -/
def to_int (x : Nat) : Int :=
  if x % 2 ^ 32 < 2 ^ 31 then ((x % 2 ^ 32 : Nat) : Int) else ((x % 2 ^ 32 : Nat) : Int) - 2 ^ 32

/-- Conversion of an `int` holding the 32-bit pattern `x` to an `unsigned long`
of `L` bits (`32 ≤ L`): the sign bit is extended. -/
def int_to_ulong (L x : Nat) : Nat :=
  if x % 2 ^ 32 < 2 ^ 31 then x % 2 ^ 32 else x % 2 ^ 32 + (2 ^ L - 2 ^ 32)

/-- Modelled from the spec: the kernel macro `BIT(n)` of `linux/bits.h`, which is
not among the sources: the single bit `1UL << n`, as a 32-bit value. -/
def BIT (n : Nat) : Nat := u32 (1 <<< n)

/-! ## Register offsets of `gpio-hpmicro.c` -/

def HPM_DI_OFFSET : Nat := 0x00
def HPM_DO_OFFSET : Nat := 0x100
def HPM_SET_OFFSET : Nat := 0x104
def HPM_CLR_OFFSET : Nat := 0x108
def HPM_DIR_OUT_OFFSET : Nat := 0x204
def HPM_DIR_CLR_OFFSET : Nat := 0x208
def HPM_TOGGLE_OFFSET : Nat := 0x10C
def HPM_IF_OFFSET : Nat := 0x300
def HPM_INT_POLARITY_VAL : Nat := 0x500
def HPM_INT_POLARITY_SET : Nat := 0x504
def HPM_INT_POLARITY_CLR : Nat := 0x508
def HPM_INIT_TYPE_LEVEL_SET_OFFSET : Nat := 0x604
def HPM_INIT_TYPE_LEVEL_CLR_OFFSET : Nat := 0x608
def HPM_IRQ_ENABLE_OFFSET : Nat := 0x404
def HPM_IRQ_DISABLE_OFFSET : Nat := 0x408

def HPM_MAX_PORTS : Nat := 8
def HPM_MAX_PORT_PINX : Nat := 32

/-! ## Trigger kinds

The `IRQ_TYPE_*` constants come from `include/linux/irq.h`, which is not among
the sources. -/

/-- Modelled from the spec: `IRQ_TYPE_NONE` of `linux/irq.h` (no trigger). -/
def IRQ_TYPE_NONE : Nat := 0
/-- Modelled from the spec: `IRQ_TYPE_EDGE_RISING` of `linux/irq.h`, value 1. -/
def IRQ_TYPE_EDGE_RISING : Nat := 1
/-- Modelled from the spec: `IRQ_TYPE_EDGE_FALLING` of `linux/irq.h`, value 2. -/
def IRQ_TYPE_EDGE_FALLING : Nat := 2
/-- Modelled from the spec: `IRQ_TYPE_EDGE_BOTH` of `linux/irq.h`, rising or falling, value 3. -/
def IRQ_TYPE_EDGE_BOTH : Nat := IRQ_TYPE_EDGE_FALLING ||| IRQ_TYPE_EDGE_RISING
/-- Modelled from the spec: `IRQ_TYPE_LEVEL_HIGH` of `linux/irq.h`, value 4. -/
def IRQ_TYPE_LEVEL_HIGH : Nat := 4
/-- Modelled from the spec: `IRQ_TYPE_LEVEL_LOW` of `linux/irq.h`, value 8. -/
def IRQ_TYPE_LEVEL_LOW : Nat := 8
/-- Modelled from the spec: `IRQ_TYPE_LEVEL_MASK` of `linux/irq.h`, the two level kinds. -/
def IRQ_TYPE_LEVEL_MASK : Nat := IRQ_TYPE_LEVEL_LOW ||| IRQ_TYPE_LEVEL_HIGH
/-- Modelled from the spec: `IRQ_TYPE_SENSE_MASK` of `linux/irq.h`, the four sense bits. -/
def IRQ_TYPE_SENSE_MASK : Nat := 0x0000000f

/-- The flow handlers a line can be dispatched with (`handle_bad_irq` is what
`hpm_gpio_probe` installs as `girq->handler`). -/
inductive flow_handler where
  | handle_bad_irq
  | handle_level_irq
  | handle_edge_irq
  deriving DecidableEq, Repr

/-! ## One port: registers and access log -/

/-- What the driver did, in program order. -/
inductive Event where
  | rd (off : Nat)
  | wr (off : Nat) (val : Nat)
  | handle (irq : Nat)
  deriving DecidableEq, Repr

/-- The register block of one port: input value, output latch, output enable,
interrupt flags, interrupt enable, interrupt polarity, interrupt type
(1 = edge, 0 = level). -/
structure PortRegs where
  di : Nat
  dout : Nat
  oe : Nat
  ifl : Nat
  ie : Nat
  pl : Nat
  tp : Nat
  deriving DecidableEq, Repr

/-- Effect of a 32-bit store at offset `off`: a `*_SET` register ORs the value
into its field, a `*_CLR` register clears the bits given, the toggle register
flips them, the output value register is overwritten, and the interrupt flag
register is write-1-to-clear. Stores elsewhere have no effect. -/
def PortRegs.store (r : PortRegs) (off v : Nat) : PortRegs :=
  if off = HPM_DO_OFFSET then { r with dout := u32 v }
  else if off = HPM_SET_OFFSET then { r with dout := r.dout ||| u32 v }
  else if off = HPM_CLR_OFFSET then { r with dout := r.dout &&& not32 v }
  else if off = HPM_TOGGLE_OFFSET then { r with dout := r.dout ^^^ u32 v }
  else if off = HPM_DIR_OUT_OFFSET then { r with oe := r.oe ||| u32 v }
  else if off = HPM_DIR_CLR_OFFSET then { r with oe := r.oe &&& not32 v }
  else if off = HPM_IF_OFFSET then { r with ifl := r.ifl &&& not32 v }
  else if off = HPM_IRQ_ENABLE_OFFSET then { r with ie := r.ie ||| u32 v }
  else if off = HPM_IRQ_DISABLE_OFFSET then { r with ie := r.ie &&& not32 v }
  else if off = HPM_INT_POLARITY_SET then { r with pl := r.pl ||| u32 v }
  else if off = HPM_INT_POLARITY_CLR then { r with pl := r.pl &&& not32 v }
  else if off = HPM_INIT_TYPE_LEVEL_SET_OFFSET then { r with tp := r.tp ||| u32 v }
  else if off = HPM_INIT_TYPE_LEVEL_CLR_OFFSET then { r with tp := r.tp &&& not32 v }
  else r

/-- Value of a 32-bit load at offset `off`. -/
def PortRegs.load (r : PortRegs) (off : Nat) : Nat :=
  if off = HPM_DI_OFFSET then u32 r.di
  else if off = HPM_DO_OFFSET then u32 r.dout
  else if off = HPM_IF_OFFSET then u32 r.ifl
  else if off = HPM_INT_POLARITY_VAL then u32 r.pl
  else 0

/-- The part of `struct hpm_gpio_port` the operations use: the register block
behind `port->base`, `chip.ngpio`, and the access log. -/
structure hpm_gpio_port where
  hw : PortRegs
  ngpio : Nat
  log : List Event
  deriving DecidableEq, Repr

/-- `*(unsigned int *)(port->base + off)` as an rvalue. -/
def load32 (off : Nat) (port : hpm_gpio_port) : Nat × hpm_gpio_port :=
  (port.hw.load off, { port with log := port.log ++ [Event.rd off] })

/-- `*(unsigned int *)(port->base + off) = val`. -/
def store32 (off val : Nat) (port : hpm_gpio_port) : hpm_gpio_port :=
  { port with hw := port.hw.store off (u32 val), log := port.log ++ [Event.wr off (u32 val)] }

/-! ## GPIO line operations -/

/-- `hpm_gpio_input`: the function returns the value of the assignment
expression, that is the mask it stored, converted to `int`. -/
def hpm_gpio_input (offset : Nat) (port : hpm_gpio_port) : Int × hpm_gpio_port :=
  let status := to_int (u32 (1 <<< offset))
  (status, store32 HPM_DIR_CLR_OFFSET (1 <<< offset) port)

/-- `hpm_gpio_get`. -/
def hpm_gpio_get (offset : Nat) (port : hpm_gpio_port) : Int × hpm_gpio_port :=
  let r := load32 HPM_DI_OFFSET port
  let value := r.1 &&& u32 (1 <<< offset)
  (if value = 0 then 0 else 1, r.2)

/-- `hpm_gpio_get_multiple`, for an `unsigned long` of `L` bits; the result is
the return value and the new `*bits`. -/
def hpm_gpio_get_multiple (L : Nat) (mask bits : Nat) (port : hpm_gpio_port) :
    Int × Nat × hpm_gpio_port :=
  let r := load32 HPM_DI_OFFSET port
  let value := int_to_ulong L r.1
  let bits1 := bits &&& notL L mask
  let bits2 := bits1 ||| (value &&& mask)
  (0, bits2, r.2)

/-- `hpm_gpio_dir_out`. -/
def hpm_gpio_dir_out (offset : Nat) (_value : Int) (port : hpm_gpio_port) : Int × hpm_gpio_port :=
  let bit := u32 (1 <<< offset)
  (0, store32 HPM_DIR_OUT_OFFSET bit port)

/-- `hpm_gpio_set`. -/
def hpm_gpio_set (offset : Nat) (value : Int) (port : hpm_gpio_port) : hpm_gpio_port :=
  let bit := u32 (1 <<< offset)
  if value ≠ 0 then store32 HPM_SET_OFFSET bit port
  else store32 HPM_CLR_OFFSET bit port

/-- `hpm_gpio_set_multiple`. -/
def hpm_gpio_set_multiple (mask bits : Nat) (port : hpm_gpio_port) : hpm_gpio_port :=
  store32 HPM_SET_OFFSET (bits &&& mask) port

/-! ## Interrupt path -/

/-- `hpm_toggle_trigger`. -/
def hpm_toggle_trigger (offs : Nat) (port : hpm_gpio_port) : hpm_gpio_port :=
  let r := load32 HPM_INT_POLARITY_VAL port
  let pol := r.1
  let port := store32 HPM_INIT_TYPE_LEVEL_SET_OFFSET (1 <<< offs) r.2
  if pol &&& u32 (1 <<< offs) ≠ 0 then store32 HPM_INT_POLARITY_CLR (1 <<< offs) port
  else store32 HPM_INT_POLARITY_SET (1 <<< offs) port

/-- The interrupt-core lookups `hpm_do_irq` makes: `irq_find_mapping` on the
port's domain (hardware line to virtual interrupt, 0 when unmapped) and
`irq_get_trigger_type`. -/
structure irq_core where
  irq_find_mapping : Nat → Nat
  irq_get_trigger_type : Nat → Nat

/-- `generic_handle_irq(irq)`: the call is recorded; the handler it runs is
outside the driver. -/
def generic_handle_irq (irq : Nat) (port : hpm_gpio_port) : hpm_gpio_port :=
  { port with log := port.log ++ [Event.handle irq] }

/-- Modelled from the spec: `find_next_bit` of the kernel bitmap library, which
is not among the sources, searching `n` positions from `start`: the first
position whose bit is set, or `start + n` when there is none. -/
def find_next_bit_aux (word : Nat) : Nat → Nat → Nat
  | 0, start => start
  | n + 1, start => if word.testBit start then start else find_next_bit_aux word n (start + 1)

/-- Modelled from the spec: `find_next_bit(addr, size, start)`: the index of the
first set bit at or after `start`, or `size` when there is none. -/
def find_next_bit (word size start : Nat) : Nat :=
  if start < size then find_next_bit_aux word (size - start) start else size

/-- The body of the `for_each_set_bit` loop of `hpm_do_irq`. -/
def hpm_do_irq_body (core : irq_core) (hwirq : Nat) (port : hpm_gpio_port) : hpm_gpio_port :=
  let gpio_irq := core.irq_find_mapping hwirq
  let irq_type := core.irq_get_trigger_type gpio_irq
  let port := generic_handle_irq gpio_irq port
  let port := store32 HPM_IF_OFFSET (1 <<< hwirq) port
  if irq_type &&& IRQ_TYPE_SENSE_MASK = IRQ_TYPE_EDGE_BOTH then hpm_toggle_trigger hwirq port
  else port

/-- The loop `for_each_set_bit(hwirq, &irq_status, size)`, that is
`for (hwirq = find_next_bit(.., 0); hwirq < size; hwirq = find_next_bit(.., hwirq + 1))`,
entered with the current `hwirq`; `fuel` bounds the number of iterations. -/
def hpm_do_irq_loop (core : irq_core) (irq_status size : Nat) :
    Nat → Nat → hpm_gpio_port → hpm_gpio_port
  | 0, _, port => port
  | fuel + 1, hwirq, port =>
    if hwirq < size then
      hpm_do_irq_loop core irq_status size fuel (find_next_bit irq_status size (hwirq + 1))
        (hpm_do_irq_body core hwirq port)
    else port

/-- `hpm_do_irq`: the snapshot is read once into the local `irq_status`, the
loop runs over the snapshot, and the snapshot is returned. The loop makes at
most `ngpio` iterations, which is the fuel given. -/
def hpm_do_irq (core : irq_core) (port : hpm_gpio_port) : Nat × hpm_gpio_port :=
  let r := load32 HPM_IF_OFFSET port
  let irq_status := r.1
  (irq_status,
    hpm_do_irq_loop core irq_status port.ngpio port.ngpio
      (find_next_bit irq_status port.ngpio 0) r.2)

/-- `hpm_gpio_irq_enable` for the line `hwirq`. -/
def hpm_gpio_irq_enable (hwirq : Nat) (port : hpm_gpio_port) : hpm_gpio_port :=
  store32 HPM_IRQ_ENABLE_OFFSET (BIT hwirq) port

/-- `hpm_gpio_irq_disable` for the line `hwirq`. -/
def hpm_gpio_irq_disable (hwirq : Nat) (port : hpm_gpio_port) : hpm_gpio_port :=
  store32 HPM_IRQ_DISABLE_OFFSET (BIT hwirq) port

/-- The register stores of the `switch (type)` of `hpm_gpio_irq_set_type`;
a value that matches no case label stores nothing. -/
def hpm_gpio_irq_set_type_regs (bit type : Nat) (port : hpm_gpio_port) : hpm_gpio_port :=
  if type = IRQ_TYPE_EDGE_BOTH then
    store32 HPM_INT_POLARITY_SET (BIT bit) (store32 HPM_INIT_TYPE_LEVEL_SET_OFFSET (BIT bit) port)
  else if type = IRQ_TYPE_EDGE_RISING then
    store32 HPM_INT_POLARITY_CLR (BIT bit) (store32 HPM_INIT_TYPE_LEVEL_SET_OFFSET (BIT bit) port)
  else if type = IRQ_TYPE_EDGE_FALLING then
    store32 HPM_INT_POLARITY_SET (BIT bit) (store32 HPM_INIT_TYPE_LEVEL_SET_OFFSET (BIT bit) port)
  else if type = IRQ_TYPE_LEVEL_HIGH then
    store32 HPM_INT_POLARITY_CLR (BIT bit) (store32 HPM_INIT_TYPE_LEVEL_CLR_OFFSET (BIT bit) port)
  else if type = IRQ_TYPE_LEVEL_LOW then
    store32 HPM_INT_POLARITY_SET (BIT bit) (store32 HPM_INIT_TYPE_LEVEL_CLR_OFFSET (BIT bit) port)
  else port

/-- The flow handler `hpm_gpio_irq_set_type` installs with
`irq_set_handler_locked`, or `none` when it installs none. -/
def hpm_gpio_irq_set_type_handler (type : Nat) : Option flow_handler :=
  if type &&& IRQ_TYPE_LEVEL_MASK ≠ 0 then some flow_handler.handle_level_irq
  else if type &&& IRQ_TYPE_EDGE_BOTH ≠ 0 then some flow_handler.handle_edge_irq
  else none

/-- `hpm_gpio_irq_set_type` for the line `bit`: return value, the handler
installed (if any), and the port. -/
def hpm_gpio_irq_set_type (bit type : Nat) (port : hpm_gpio_port) :
    Int × Option flow_handler × hpm_gpio_port :=
  (0, hpm_gpio_irq_set_type_handler type, hpm_gpio_irq_set_type_regs bit type port)

/-! ## A line under edge-both emulation

The edge detector and the servicing of its firings around the driver, as the
specification describes them. -/

/-- The edge detector of line `bit` at a physical transition (`rising` or
falling): the input bit follows the line, and the line fires, setting its
pending bit, when it is edge-typed and the transition matches its polarity
bit (0 = rising, 1 = falling). -/
def edge_transition (bit : Nat) (rising : Bool) (r : PortRegs) : PortRegs :=
  let r1 := { r with di := if rising then r.di ||| 2 ^ bit else r.di &&& not32 (2 ^ bit) }
  if r.tp.testBit bit && (r.pl.testBit bit != rising) then { r1 with ifl := r1.ifl ||| 2 ^ bit }
  else r1

/-- One physical transition of line `bit`, serviced before the next one: when
an interrupt is pending after the transition the parent interrupt runs
`hpm_do_irq` (through `hpm_gpio_irq`). -/
def transition_and_service (core : irq_core) (bit : Nat) (rising : Bool)
    (port : hpm_gpio_port) : hpm_gpio_port :=
  let port1 := { port with hw := edge_transition bit rising port.hw }
  if port1.hw.load HPM_IF_OFFSET ≠ 0 then (hpm_do_irq core port1).2 else port1

/-- `n` consecutive alternating transitions of line `bit`, which is at `level`
before the first of them, each serviced before the next. -/
def run_transitions (core : irq_core) (bit : Nat) : Nat → Bool → hpm_gpio_port → hpm_gpio_port
  | 0, _, port => port
  | n + 1, level, port =>
    run_transitions core bit n (!level) (transition_and_service core bit (!level) port)

/-- The line `bit` of `port` is configured with `hpm_gpio_irq_set_type` for
edge_both and then makes `n` alternating transitions starting from `level`. -/
def edge_both_episode (core : irq_core) (bit n : Nat) (level : Bool) (port : hpm_gpio_port) :
    hpm_gpio_port :=
  run_transitions core bit n level (hpm_gpio_irq_set_type bit IRQ_TYPE_EDGE_BOTH port).2.2

/-! ## Observations on a log -/

/-- The interrupts passed to `generic_handle_irq`, in call order. -/
def handled : List Event → List Nat
  | [] => []
  | Event.handle irq :: es => irq :: handled es
  | Event.rd _ :: es => handled es
  | Event.wr _ _ :: es => handled es

/-- The values stored at offset `off`, in program order. -/
def stores_to (off : Nat) : List Event → List Nat
  | [] => []
  | Event.wr o v :: es => if o = off then v :: stores_to off es else stores_to off es
  | Event.rd _ :: es => stores_to off es
  | Event.handle _ :: es => stores_to off es

/-- The number of loads from offset `off`. -/
def loads_from (off : Nat) : List Event → Nat
  | [] => 0
  | Event.rd o :: es => if o = off then loads_from off es + 1 else loads_from off es
  | Event.wr _ _ :: es => loads_from off es
  | Event.handle _ :: es => loads_from off es

/-- The indices `i` with `start ≤ i < size` whose bit is set in `word`, ascending. -/
def set_bits_from (word size start : Nat) : List Nat :=
  (List.range' start (size - start)).filter (fun i => word.testBit i)

/-- An interrupt core that maps line `i` to the virtual interrupt `base + i` and
reports the trigger kind `kind` for every interrupt. -/
def core_of (base kind : Nat) : irq_core :=
  { irq_find_mapping := fun i => base + i, irq_get_trigger_type := fun _ => kind }

/-- A bank whose input register shows, on the lines configured as outputs, the
output latch, and on the other lines what it showed before. -/
def input_mirrors_output (port : hpm_gpio_port) : hpm_gpio_port :=
  { port with
    hw := { port.hw with
      di := (port.hw.di &&& not32 port.hw.oe) ||| (port.hw.dout &&& port.hw.oe) } }

/-- A port given by its input, output-latch, pending, polarity and type register
contents and its line count, with the direction and enable registers clear
and an empty log. -/
def port_of (di dout ifl pl tp ngpio : Nat) : hpm_gpio_port :=
  { hw := { di := di, dout := dout, oe := 0, ifl := ifl, ie := 0, pl := pl, tp := tp },
    ngpio := ngpio, log := [] }

/-! ## Pin multiplexing: `pinctrl-hpmicro.h` and `hpmicro_pinctrl.c` -/

/-- Modelled from the spec: the kernel macro `GENMASK(h, l)` of `linux/bits.h`,
which is not among the sources: the contiguous mask of the bits `l` to `h`. -/
def GENMASK (h l : Nat) : Nat := 2 ^ (h + 1) - 2 ^ l

/-- The macro `GPIOMUX(index, pe, ps, od)`. -/
def GPIOMUX (index pe ps od : Nat) : Nat :=
  (index &&& 0xFFF) ||| ((pe &&& 0x01) <<< 20) ||| ((ps &&& 0x01) <<< 21) ||| ((od &&& 0x01) <<< 18)

/-- The macro `ALTSELECT(index, alt)`. -/
def ALTSELECT (index alt : Nat) : Nat := (index &&& 0xFFF) ||| ((alt &&& 0x1F) <<< 25)

def PIN_INDEX_PA (x : Nat) : Nat := x
def PIN_INDEX_PB (x : Nat) : Nat := x + 32
def PIN_INDEX_PC (x : Nat) : Nat := x + 32 * 2
def PIN_INDEX_PD (x : Nat) : Nat := x + 32 * 3
def PIN_INDEX_PE (x : Nat) : Nat := x + 32 * 4
def PIN_INDEX_PF (x : Nat) : Nat := x + 32 * 5
def PIN_INDEX_PX (x : Nat) : Nat := x + 32 * 6
def PIN_INDEX_PY (x : Nat) : Nat := x + 32 * 7
def PIN_INDEX_PZ (x : Nat) : Nat := x + 32 * 8

def PAD_OPEN_DRAIN : Nat := BIT 8
def PAD_SLEW_RATE : Nat := BIT 6
def PAD_PRS_MASK : Nat := GENMASK 21 20
def PAD_PRS_OFF : Nat := 20
def PAD_KE_MASK : Nat := BIT 16
def PAD_KE_OFF : Nat := 16
def PAD_DS_MASK : Nat := GENMASK 2 0
def PAD_DS_OFF : Nat := 0
def PAD_INPUT_SCHMITT_ENABLE : Nat := BIT 24
def PAD_BIAS_ENABLE : Nat := BIT 17
def PAD_BIAS_PULL_UP : Nat := BIT 18
def PAD_BIAS_MASK : Nat := PAD_BIAS_ENABLE ||| PAD_BIAS_PULL_UP
def PAD_SLEW_RATE_ADDITION_MASK : Nat := GENMASK 5 4
def PAD_SLEW_RATE_ADDITION_OFF : Nat := 4

def NR_GPIOS : Nat := 32 * 6
def HPM_IOC_FUNC_OFFSET : Nat := 0
def HPM_IOC_PAD_OFFSET : Nat := 4

/-- Modelled from the spec: the error `InvalidDescription`, `EINVAL` of the
kernel's errno headers (not among the sources). -/
def EINVAL : Int := 22

/-- Modelled from the spec: the error `Unsupported`, `ENOTSUPP` of the kernel's
errno headers (not among the sources). -/
def ENOTSUPP : Int := 524

/-- `hpmicro_pinmux_to_gpio`. -/
def hpmicro_pinmux_to_gpio (v : Nat) : Nat := v &&& 0xFFF

/-- `hpmicro_pinmux_to_func`. -/
def hpmicro_pinmux_to_func (v : Nat) : Nat := (v >>> 25) &&& 0x1F

/-- What the pin controller did, in program order: taking and releasing
`sfp->lock`, and the loads and stores at byte offsets from `sfp->base`. -/
inductive IocEvent where
  | lock
  | unlock
  | rd (addr : Nat)
  | wr (addr : Nat) (val : Nat)
  deriving DecidableEq, Repr

/-- The part of `struct hpmicro_pinctrl` the operations use: the register
window behind `sfp->base`, indexed by byte offset, and the access log. -/
structure hpmicro_pinctrl where
  regs : Nat → Nat
  log : List IocEvent

/-- The byte offset `off + 8 * pin` of a pin's register, computed in
`unsigned int`. -/
def ioc_addr (off pin : Nat) : Nat := u32 (off + 8 * pin)

/-- `hpmicro_padctl_get`. -/
def hpmicro_padctl_get (sfp : hpmicro_pinctrl) (pin : Nat) : Nat :=
  u32 (sfp.regs (ioc_addr HPM_IOC_PAD_OFFSET pin))

/-- `hpmicro_func_get`. -/
def hpmicro_func_get (sfp : hpmicro_pinctrl) (pin : Nat) : Nat :=
  u32 (sfp.regs (ioc_addr HPM_IOC_FUNC_OFFSET pin))

/-- A 32-bit store at byte offset `addr`. -/
def ioc_store (addr value : Nat) (sfp : hpmicro_pinctrl) : hpmicro_pinctrl :=
  { regs := fun a => if a = addr then u32 value else sfp.regs a,
    log := sfp.log ++ [IocEvent.wr addr (u32 value)] }

/-- A logged 32-bit load at byte offset `addr`. -/
def ioc_load (addr : Nat) (sfp : hpmicro_pinctrl) : Nat × hpmicro_pinctrl :=
  (u32 (sfp.regs addr), { sfp with log := sfp.log ++ [IocEvent.rd addr] })

/-- `raw_spin_lock_irqsave(&sfp->lock, flags)`. -/
def raw_spin_lock_irqsave (sfp : hpmicro_pinctrl) : hpmicro_pinctrl :=
  { sfp with log := sfp.log ++ [IocEvent.lock] }

/-- `raw_spin_unlock_irqrestore(&sfp->lock, flags)`. -/
def raw_spin_unlock_irqrestore (sfp : hpmicro_pinctrl) : hpmicro_pinctrl :=
  { sfp with log := sfp.log ++ [IocEvent.unlock] }

/-- `hpmicro_padctl_set`. -/
def hpmicro_padctl_set (pin value : Nat) (sfp : hpmicro_pinctrl) : hpmicro_pinctrl :=
  ioc_store (ioc_addr HPM_IOC_PAD_OFFSET pin) value sfp

/-- `hpmicro_func_set`. -/
def hpmicro_func_set (pin value : Nat) (sfp : hpmicro_pinctrl) : hpmicro_pinctrl :=
  ioc_store (ioc_addr HPM_IOC_FUNC_OFFSET pin) value sfp

/-- `hpmicro_padctl_rmw`. -/
def hpmicro_padctl_rmw (pin mask value : Nat) (sfp : hpmicro_pinctrl) : hpmicro_pinctrl :=
  let sfp := raw_spin_lock_irqsave sfp
  let r := ioc_load (ioc_addr HPM_IOC_PAD_OFFSET pin) sfp
  let temp := r.1
  let temp := temp &&& not32 mask
  let temp := temp ||| u32 value
  let sfp := ioc_store (ioc_addr HPM_IOC_PAD_OFFSET pin) temp r.2
  raw_spin_unlock_irqrestore sfp

/-- The part of `struct group_desc` the driver uses: `grp.pins` (with
`grp.npins` its length) and `data`, the `pinmux` array of the group. -/
structure group_desc where
  pins : List Nat
  data : List Nat
  deriving DecidableEq, Repr

/-- The body of the loop of `hpmicro_set_mux` for the array element `v`. -/
def hpmicro_set_mux_body (v : Nat) (sfp : hpmicro_pinctrl) : hpmicro_pinctrl :=
  let gpio := hpmicro_pinmux_to_gpio v
  let func := hpmicro_pinmux_to_func v
  let sfp := raw_spin_lock_irqsave sfp
  let sfp := hpmicro_func_set gpio func sfp
  raw_spin_unlock_irqrestore sfp

/-- The loop of `hpmicro_set_mux`: `count` iterations remain and the next one
reads `pinmux[i]`. A read outside the array has no defined result. -/
def hpmicro_set_mux_loop (pinmux : List Nat) :
    Nat → Nat → hpmicro_pinctrl → Option hpmicro_pinctrl
  | 0, _, sfp => some sfp
  | count + 1, i, sfp =>
    match pinmux.get? i with
    | none => none
    | some v => hpmicro_set_mux_loop pinmux count (i + 1) (hpmicro_set_mux_body v sfp)

/-- `hpmicro_set_mux`; `groups` is the group table of the pin controller that
`pinctrl_generic_get_group` looks `gsel` up in. The result is the return
value and the controller, or `none` when the loop reads outside `pinmux`. -/
def hpmicro_set_mux (groups : List group_desc) (_fsel gsel : Nat) (sfp : hpmicro_pinctrl) :
    Option (Int × hpmicro_pinctrl) :=
  match groups.get? gsel with
  | none => some (-EINVAL, sfp)
  | some group =>
    match hpmicro_set_mux_loop group.data group.pins.length 0 sfp with
    | none => none
    | some sfp => some (0, sfp)

/-! ## Pad configuration -/

/-- Modelled from the spec: the closed parameter set of section 6, that is the
members of `enum pin_config_param` (`pinconf-generic.h`, not among the
sources) the driver has a case for and its two custom parameters;
`PIN_CONFIG_OTHER` stands for every other parameter value. -/
inductive pin_config_param where
  | PIN_CONFIG_BIAS_DISABLE
  | PIN_CONFIG_BIAS_PULL_DOWN
  | PIN_CONFIG_BIAS_PULL_UP
  | PIN_CONFIG_DRIVE_OPEN_DRAIN
  | PIN_CONFIG_INPUT_SCHMITT_ENABLE
  | PIN_CONFIG_OUTPUT_IMPEDANCE_OHMS
  | PIN_CONFIG_SLEW_RATE
  | PIN_CONFIG_HPMICRO_INTER_RESISTANCE_STRENGTH
  | PIN_CONFIG_HPMICRO_INTER_KEEPER_CAP
  | PIN_CONFIG_OTHER (code : Nat)
  deriving DecidableEq, Repr

/-- Modelled from the spec: a packed configuration word of `pinconf-generic.h`
(not among the sources), kept as the pair the specification's
`set(pin, [(param, value), …])` names: what `pinconf_to_config_param` and
`pinconf_to_config_argument` extract and `pinconf_to_config_packed` builds. -/
structure pin_config where
  param : pin_config_param
  arg : Nat
  deriving DecidableEq, Repr

/-- C conversion of a 32-bit value to `bool`. -/
def to_bool (x : Nat) : Bool := decide (x ≠ 0)

/-- `hpmicro_pinconf_get`. `enabled0` is the indeterminate value the local
`enabled` holds before the switch. The result is the return value and the
new `*config`. -/
def hpmicro_pinconf_get (sfp : hpmicro_pinctrl) (pin : Nat) (config : pin_config)
    (enabled0 : Bool) : Int × pin_config :=
  let param := config.param
  let value := hpmicro_padctl_get sfp pin
  let finish (enabled : Bool) (arg : Nat) : Int × pin_config :=
    (if enabled then 0 else -EINVAL, { param := param, arg := u32 arg })
  match param with
  | pin_config_param.PIN_CONFIG_HPMICRO_INTER_RESISTANCE_STRENGTH =>
    finish true ((value &&& PAD_PRS_MASK) >>> PAD_PRS_OFF)
  | pin_config_param.PIN_CONFIG_HPMICRO_INTER_KEEPER_CAP =>
    finish true ((value &&& PAD_KE_MASK) >>> PAD_KE_OFF)
  | pin_config_param.PIN_CONFIG_OUTPUT_IMPEDANCE_OHMS =>
    finish true ((value &&& PAD_DS_MASK) >>> PAD_DS_OFF)
  | pin_config_param.PIN_CONFIG_DRIVE_OPEN_DRAIN =>
    finish (to_bool (value &&& PAD_OPEN_DRAIN)) 1
  | pin_config_param.PIN_CONFIG_BIAS_DISABLE =>
    finish (!to_bool (value &&& PAD_BIAS_ENABLE)) 0
  | pin_config_param.PIN_CONFIG_BIAS_PULL_DOWN =>
    finish
      (if to_bool (value &&& PAD_BIAS_ENABLE) && !to_bool (value &&& PAD_BIAS_PULL_UP)
        then true else enabled0) 1
  | pin_config_param.PIN_CONFIG_BIAS_PULL_UP =>
    finish (to_bool (value &&& PAD_BIAS_PULL_UP)) 1
  | pin_config_param.PIN_CONFIG_INPUT_SCHMITT_ENABLE =>
    finish (to_bool (value &&& PAD_INPUT_SCHMITT_ENABLE))
      (if to_bool (value &&& PAD_INPUT_SCHMITT_ENABLE) then 1 else 0)
  | pin_config_param.PIN_CONFIG_SLEW_RATE =>
    finish (to_bool (value &&& PAD_SLEW_RATE))
      ((value &&& PAD_SLEW_RATE_ADDITION_MASK) >>> PAD_SLEW_RATE_ADDITION_OFF)
  | pin_config_param.PIN_CONFIG_OTHER _ => (-ENOTSUPP, config)

/-- `hpmicro_pinconf_set`: the list is `config[0 .. num_configs - 1]`. -/
def hpmicro_pinconf_set (pin : Nat) : List pin_config → hpmicro_pinctrl → Int × hpmicro_pinctrl
  | [], sfp => (0, sfp)
  | config :: rest, sfp =>
    let value := u32 config.arg
    match config.param with
    | pin_config_param.PIN_CONFIG_HPMICRO_INTER_RESISTANCE_STRENGTH =>
      hpmicro_pinconf_set pin rest
        (hpmicro_padctl_rmw pin PAD_PRS_MASK (u32 (value <<< PAD_PRS_OFF)) sfp)
    | pin_config_param.PIN_CONFIG_HPMICRO_INTER_KEEPER_CAP =>
      hpmicro_pinconf_set pin rest
        (hpmicro_padctl_rmw pin PAD_KE_MASK (u32 (value <<< PAD_KE_OFF)) sfp)
    | pin_config_param.PIN_CONFIG_OUTPUT_IMPEDANCE_OHMS =>
      hpmicro_pinconf_set pin rest
        (hpmicro_padctl_rmw pin PAD_DS_MASK (u32 (value <<< PAD_DS_OFF)) sfp)
    | pin_config_param.PIN_CONFIG_DRIVE_OPEN_DRAIN =>
      hpmicro_pinconf_set pin rest (hpmicro_padctl_rmw pin PAD_OPEN_DRAIN PAD_OPEN_DRAIN sfp)
    | pin_config_param.PIN_CONFIG_BIAS_DISABLE =>
      hpmicro_pinconf_set pin rest (hpmicro_padctl_rmw pin PAD_BIAS_ENABLE 0 sfp)
    | pin_config_param.PIN_CONFIG_BIAS_PULL_DOWN =>
      hpmicro_pinconf_set pin rest
        (hpmicro_padctl_rmw pin PAD_BIAS_ENABLE PAD_BIAS_ENABLE
          (hpmicro_padctl_rmw pin PAD_BIAS_PULL_UP 0 sfp))
    | pin_config_param.PIN_CONFIG_BIAS_PULL_UP =>
      hpmicro_pinconf_set pin rest
        (hpmicro_padctl_rmw pin PAD_BIAS_ENABLE PAD_BIAS_ENABLE
          (hpmicro_padctl_rmw pin PAD_BIAS_PULL_UP PAD_BIAS_PULL_UP sfp))
    | pin_config_param.PIN_CONFIG_INPUT_SCHMITT_ENABLE =>
      hpmicro_pinconf_set pin rest
        (hpmicro_padctl_rmw pin PAD_INPUT_SCHMITT_ENABLE PAD_INPUT_SCHMITT_ENABLE sfp)
    | pin_config_param.PIN_CONFIG_SLEW_RATE =>
      hpmicro_pinconf_set pin rest
        (hpmicro_padctl_rmw pin PAD_SLEW_RATE_ADDITION_MASK
          (u32 (value <<< PAD_SLEW_RATE_ADDITION_OFF)) sfp)
    | pin_config_param.PIN_CONFIG_OTHER _ => (-ENOTSUPP, sfp)

/-- The loop of `hpmicro_pinconf_group_set` over `group->grp.pins`: the result
of each `hpmicro_pinconf_set` call is discarded. -/
def hpmicro_pinconf_group_set_loop (configs : List pin_config) :
    List Nat → hpmicro_pinctrl → hpmicro_pinctrl
  | [], sfp => sfp
  | pin :: pins, sfp =>
    hpmicro_pinconf_group_set_loop configs pins (hpmicro_pinconf_set pin configs sfp).2

/-- `hpmicro_pinconf_group_set`; `groups` is the group table that
`pinctrl_generic_get_group` looks `gsel` up in. -/
def hpmicro_pinconf_group_set (groups : List group_desc) (gsel : Nat)
    (configs : List pin_config) (sfp : hpmicro_pinctrl) : Int × hpmicro_pinctrl :=
  match groups.get? gsel with
  | none => (-EINVAL, sfp)
  | some group => (0, hpmicro_pinconf_group_set_loop configs group.pins sfp)

/-- A parameter `hpmicro_pinconf_set` has a case for: one of the nine of the
closed set. -/
def pin_config_param.supported : pin_config_param → Bool
  | pin_config_param.PIN_CONFIG_OTHER _ => false
  | _ => true

/-! ## Construction of the group maps: `hpmicro_dt_node_to_map` -/

/-- Modelled from the spec: the error `ResourceExhausted`, `ENOMEM` of the
kernel's errno headers (not among the sources). -/
def ENOMEM : Int := 12

/-- One available child of the container node, as the function sees it: the
two element counts `of_property_count_u32_elems` returns (negative when the
property is absent or unreadable), the cells of the two properties, and the
outcome of each helper call made for the child. -/
structure group_node where
  npinmux : Int
  npins : Int
  pinmux : List Nat
  pins : List Nat
  grpname_ok : Bool
  pins_alloc_ok : Bool
  pinmux_alloc_ok : Bool
  read_ret : Int
  add_group_ret : Int
  parse_ret : Int
  num_configs : Nat
  deriving DecidableEq, Repr

/-- The outcome of the calls made once per container node: the two table
allocations and `pinmux_generic_add_function`. -/
structure dt_env where
  pgnames_ok : Bool
  map_ok : Bool
  add_function_ret : Int
  deriving DecidableEq, Repr

/-- The locals of the second pass: `nmaps`, `ngroups`, the indices of `map`
written so far (in order), and the groups added to the controller. -/
structure dt_pass_state where
  nmaps : Nat
  ngroups : Nat
  map_writes : List Nat
  groups : List group_desc
  deriving DecidableEq, Repr

/-- The first loop of `hpmicro_dt_node_to_map`: it rejects a child with both
lists set or both counts zero and otherwise counts maps and groups. -/
def hpmicro_dt_node_to_map_count : List group_node → Nat → Nat → Except Int (Nat × Nat)
  | [], nmaps, ngroups => Except.ok (nmaps, ngroups)
  | child :: rest, nmaps, ngroups =>
    if child.npinmux > 0 ∧ child.npins > 0 then Except.error (-EINVAL)
    else if child.npinmux = 0 ∧ child.npins = 0 then Except.error (-EINVAL)
    else
      hpmicro_dt_node_to_map_count rest (if child.npinmux > 0 then nmaps + 2 else nmaps + 1)
        (ngroups + 1)

/-- The tail of the second loop's body, from `pinctrl_generic_add_group` on,
for a child whose pins and pinmux arrays have been filled. -/
def hpmicro_dt_node_to_map_add (child : group_node) (pins pinmux : List Nat)
    (st : dt_pass_state) : Except Int dt_pass_state :=
  if child.add_group_ret < 0 then Except.error child.add_group_ret
  else
    let st := { st with groups := st.groups ++ [{ pins := pins, data := pinmux }],
                        map_writes := st.map_writes ++ [st.nmaps] }
    if child.parse_ret ≠ 0 then Except.error child.parse_ret
    else if child.num_configs = 0 then Except.ok st
    else Except.ok { st with nmaps := st.nmaps + 1 }

/-- The body of the second loop of `hpmicro_dt_node_to_map` for one child; an
error is the `ret` with which the function leaves through `put_child`. -/
def hpmicro_dt_node_to_map_child (child : group_node) (st : dt_pass_state) :
    Except Int dt_pass_state :=
  if !child.grpname_ok then Except.error (-ENOMEM)
  else
    let st := { st with ngroups := st.ngroups + 1 }
    if child.npinmux > 0 then
      if !child.pins_alloc_ok then Except.error (-ENOMEM)
      else if !child.pinmux_alloc_ok then Except.error (-ENOMEM)
      else if child.read_ret ≠ 0 then Except.error child.read_ret
      else
        hpmicro_dt_node_to_map_add child (child.pinmux.map hpmicro_pinmux_to_gpio) child.pinmux
          { st with map_writes := st.map_writes ++ [st.nmaps], nmaps := st.nmaps + 1 }
    else if child.npins > 0 then
      if !child.pins_alloc_ok then Except.error (-ENOMEM)
      else if child.read_ret ≠ 0 then Except.error child.read_ret
      else hpmicro_dt_node_to_map_add child child.pins [] st
    else Except.error (-EINVAL)

/-- The second loop of `hpmicro_dt_node_to_map`. -/
def hpmicro_dt_node_to_map_fill : List group_node → dt_pass_state → Except Int dt_pass_state
  | [], st => Except.ok st
  | child :: rest, st =>
    match hpmicro_dt_node_to_map_child child st with
    | Except.error ret => Except.error ret
    | Except.ok st => hpmicro_dt_node_to_map_fill rest st

/-- `hpmicro_dt_node_to_map` on the available children of the node: the return
value and, when it is 0, what is handed back through `*maps` and `*num_maps`
(the map array as the second pass left it, `nmaps` entries of it in use). -/
def hpmicro_dt_node_to_map (env : dt_env) (children : List group_node) :
    Int × Option dt_pass_state :=
  match hpmicro_dt_node_to_map_count children 0 0 with
  | Except.error ret => (ret, none)
  | Except.ok _ =>
    if !env.pgnames_ok then (-ENOMEM, none)
    else if !env.map_ok then (-ENOMEM, none)
    else
      match hpmicro_dt_node_to_map_fill children
          { nmaps := 0, ngroups := 0, map_writes := [], groups := [] } with
      | Except.error ret => (ret, none)
      | Except.ok st =>
        if env.add_function_ret < 0 then (env.add_function_ret, none)
        else (0, some st)

/-- A child with both a non-empty pinmux list and a non-empty pins list. -/
def group_node.both (c : group_node) : Bool := decide (c.npinmux > 0) && decide (c.npins > 0)

/-- A child with neither list: each count is zero or an error. -/
def group_node.neither (c : group_node) : Bool := decide (c.npinmux ≤ 0) && decide (c.npins ≤ 0)

/-- A child whose two counts are both exactly zero. -/
def group_node.both_empty (c : group_node) : Bool :=
  decide (c.npinmux = 0) && decide (c.npins = 0)

/-- Every helper call made for the child succeeds. -/
def group_node.calls_succeed (c : group_node) : Bool :=
  c.grpname_ok && c.pins_alloc_ok && c.pinmux_alloc_ok && decide (c.read_ret = 0) &&
    decide (0 ≤ c.add_group_ret) && decide (c.parse_ret = 0)

/-- A child described by its two counts alone, with empty cell lists, no
configuration entries and every helper call succeeding. -/
def group_node_of (npinmux npins : Int) : group_node :=
  { npinmux := npinmux, npins := npins, pinmux := [], pins := [], grpname_ok := true,
    pins_alloc_ok := true, pinmux_alloc_ok := true, read_ret := 0, add_group_ret := 0,
    parse_ret := 0, num_configs := 0 }

/-! ## Enumeration of the ports: `hpm_gpio_probe` -/

/-- One child node of the GPIO controller, as `hpm_gpio_probe` sees it: the
`reg` and `ngpios` properties (`none` when `of_property_read_u32` fails),
whether `of_platform_device_create` and the allocation of the port succeed,
and the interrupt `irq_of_parse_and_map` returns (0 for none). -/
structure port_node where
  reg : Option Nat
  ngpios : Option Nat
  new_dev_ok : Bool
  port_data_ok : Bool
  irq : Nat
  deriving DecidableEq, Repr

/-- A port `hpm_gpio_probe` has set up: the index at which its chip is stored
in `gpio->chip`, its register offset from `gpio->base`, `chip->ngpio` (a
`u16`), and `irq_num` (0 when the port has no interrupt). -/
structure probed_port where
  port_index : Nat
  base : Nat
  ngpio : Nat
  irq_num : Nat
  deriving DecidableEq, Repr

/-- The loop of `hpm_gpio_probe` over the child nodes. `status0` is the
indeterminate value of the local `status`, which the loop tests after
`devm_gpiochip_add_data` without having assigned it. The assignment
`chip->ngpio = ngpio` converts the `unsigned int` to the `u16` field. The
result is the return value and the ports set up, in order. -/
def hpm_gpio_probe_loop (status0 : Int) : List port_node → List probed_port →
    Int × List probed_port
  | [], ports => (0, ports)
  | child :: rest, ports =>
    match child.reg with
    | none => hpm_gpio_probe_loop status0 rest ports
    | some idx =>
      if idx ≥ HPM_MAX_PORTS then hpm_gpio_probe_loop status0 rest ports
      else
        let ngpio :=
          match child.ngpios with
          | none => 32
          | some n => if idx ≥ HPM_MAX_PORT_PINX then 32 else n
        if !child.new_dev_ok then (-ENOMEM, ports)
        else if !child.port_data_ok then (-ENOMEM, ports)
        else
          let port : probed_port :=
            { port_index := idx, base := idx * 0x10, ngpio := u16 ngpio,
              irq_num := child.irq }
          if child.irq > 0 then
            if status0 < 0 then (status0, ports ++ [port])
            else hpm_gpio_probe_loop status0 rest (ports ++ [port])
          else hpm_gpio_probe_loop status0 rest (ports ++ [port])

/-- `hpm_gpio_probe`: `n_ports` is the `n-ports` property (0 when absent),
`gpio_ok` and `chip_ok` tell whether the two allocations before the loop
succeed. -/
def hpm_gpio_probe (gpio_ok chip_ok : Bool) (_n_ports : Nat) (status0 : Int)
    (children : List port_node) : Int × List probed_port :=
  if !gpio_ok then (-ENOMEM, [])
  else if !chip_ok then (-ENOMEM, [])
  else hpm_gpio_probe_loop status0 children []

/-- The bits of the pad register that belong to a parameter: drive strength
bits 2:0, slew addition bits 5:4, open drain bit 8, keeper bit 16, bias
enable and pull-up bits 17 and 18 for the three bias parameters, resistance
strength bits 21:20, schmitt bit 24. -/
def pad_field : pin_config_param → Nat
  | pin_config_param.PIN_CONFIG_OUTPUT_IMPEDANCE_OHMS => PAD_DS_MASK
  | pin_config_param.PIN_CONFIG_SLEW_RATE => PAD_SLEW_RATE_ADDITION_MASK
  | pin_config_param.PIN_CONFIG_DRIVE_OPEN_DRAIN => PAD_OPEN_DRAIN
  | pin_config_param.PIN_CONFIG_HPMICRO_INTER_KEEPER_CAP => PAD_KE_MASK
  | pin_config_param.PIN_CONFIG_BIAS_DISABLE => PAD_BIAS_MASK
  | pin_config_param.PIN_CONFIG_BIAS_PULL_DOWN => PAD_BIAS_MASK
  | pin_config_param.PIN_CONFIG_BIAS_PULL_UP => PAD_BIAS_MASK
  | pin_config_param.PIN_CONFIG_HPMICRO_INTER_RESISTANCE_STRENGTH => PAD_PRS_MASK
  | pin_config_param.PIN_CONFIG_INPUT_SCHMITT_ENABLE => PAD_INPUT_SCHMITT_ENABLE
  | pin_config_param.PIN_CONFIG_OTHER _ => 0

/-- The argument fits the field of the parameter: at most 7 for drive
strength, 3 for slew addition and resistance strength, 1 for the keeper; the
other parameters do not use their argument. -/
def arg_fits : pin_config_param → Nat → Bool
  | pin_config_param.PIN_CONFIG_OUTPUT_IMPEDANCE_OHMS, v => decide (v ≤ 7)
  | pin_config_param.PIN_CONFIG_SLEW_RATE, v => decide (v ≤ 3)
  | pin_config_param.PIN_CONFIG_HPMICRO_INTER_RESISTANCE_STRENGTH, v => decide (v ≤ 3)
  | pin_config_param.PIN_CONFIG_HPMICRO_INTER_KEEPER_CAP, v => decide (v ≤ 1)
  | _, _ => true

/-- The indices of `map` accessed by the tail of the second loop's body, from
`pinctrl_generic_add_group` on, also when the body then leaves with an error:
once the group is added, `map[nmaps]` is handed to
`pinconf_generic_parse_dt_config` and completed. -/
def hpmicro_dt_node_to_map_add_writes (child : group_node) (st : dt_pass_state) : List Nat :=
  if child.add_group_ret < 0 then [] else [st.nmaps]

/-- The indices of `map` accessed by the body of the second loop of
`hpmicro_dt_node_to_map` for one child, in order, also when the body leaves
with an error: the mux entry `map[nmaps]` of a pinmux child, then the config
entry. -/
def hpmicro_dt_node_to_map_child_writes (child : group_node) (st : dt_pass_state) : List Nat :=
  if !child.grpname_ok then []
  else if child.npinmux > 0 then
    if !child.pins_alloc_ok then []
    else if !child.pinmux_alloc_ok then []
    else if child.read_ret ≠ 0 then []
    else st.nmaps :: hpmicro_dt_node_to_map_add_writes child { st with nmaps := st.nmaps + 1 }
  else if child.npins > 0 then
    if !child.pins_alloc_ok then []
    else if child.read_ret ≠ 0 then []
    else hpmicro_dt_node_to_map_add_writes child st
  else []

/-- The indices of `map` accessed by the second loop of
`hpmicro_dt_node_to_map`, in order, up to and including the child at which
the loop leaves with an error, if there is one. -/
def hpmicro_dt_node_to_map_writes : List group_node → dt_pass_state → List Nat
  | [], _ => []
  | child :: rest, st =>
    hpmicro_dt_node_to_map_child_writes child st ++
      (match hpmicro_dt_node_to_map_child child st with
       | Except.error _ => []
       | Except.ok st1 => hpmicro_dt_node_to_map_writes rest st1)

/-- The number of `map` entries the first loop of `hpmicro_dt_node_to_map`
counts for one child: 2 for a child with a pinmux list, 1 otherwise. -/
def group_node.map_entries (c : group_node) : Nat := if c.npinmux > 0 then 2 else 1

/-- Modelled from the spec: `struct pinctrl_pin_desc` of `linux/pinctrl/pinctrl.h`
(not among the sources), of which the table sets the pin number and the
name. -/
structure pinctrl_pin_desc where
  number : Nat
  name : String
  deriving DecidableEq, Repr

/-- Modelled from the spec: the kernel macro `PINCTRL_PIN(a, b)` of
`linux/pinctrl/pinctrl.h` (not among the sources), the descriptor with the
number `a` and the name `b`. -/
def PINCTRL_PIN (a : Nat) (b : String) : pinctrl_pin_desc := { number := a, name := b }

/-- The table `hpmicro_pins`, entry by entry as the source lists it. -/
def hpmicro_pins : List pinctrl_pin_desc :=
  [PINCTRL_PIN (PIN_INDEX_PA 0) "PA0",
   PINCTRL_PIN (PIN_INDEX_PA 1) "PA1",
   PINCTRL_PIN (PIN_INDEX_PA 2) "PA2",
   PINCTRL_PIN (PIN_INDEX_PA 3) "PA3",
   PINCTRL_PIN (PIN_INDEX_PA 4) "PA4",
   PINCTRL_PIN (PIN_INDEX_PA 5) "PA5",
   PINCTRL_PIN (PIN_INDEX_PA 6) "PA6",
   PINCTRL_PIN (PIN_INDEX_PA 7) "PA7",
   PINCTRL_PIN (PIN_INDEX_PA 8) "PA8",
   PINCTRL_PIN (PIN_INDEX_PA 9) "PA9",
   PINCTRL_PIN (PIN_INDEX_PA 10) "PA10",
   PINCTRL_PIN (PIN_INDEX_PA 11) "PA1",
   PINCTRL_PIN (PIN_INDEX_PA 12) "PA12",
   PINCTRL_PIN (PIN_INDEX_PA 13) "PA13",
   PINCTRL_PIN (PIN_INDEX_PA 14) "PA14",
   PINCTRL_PIN (PIN_INDEX_PA 15) "PA15",
   PINCTRL_PIN (PIN_INDEX_PA 16) "PA16",
   PINCTRL_PIN (PIN_INDEX_PA 17) "PA17",
   PINCTRL_PIN (PIN_INDEX_PA 18) "PA18",
   PINCTRL_PIN (PIN_INDEX_PA 19) "PA19",
   PINCTRL_PIN (PIN_INDEX_PA 20) "PA20",
   PINCTRL_PIN (PIN_INDEX_PA 21) "PA21",
   PINCTRL_PIN (PIN_INDEX_PA 22) "PA22",
   PINCTRL_PIN (PIN_INDEX_PA 23) "PA23",
   PINCTRL_PIN (PIN_INDEX_PA 24) "PA24",
   PINCTRL_PIN (PIN_INDEX_PA 25) "PA25",
   PINCTRL_PIN (PIN_INDEX_PA 26) "PA26",
   PINCTRL_PIN (PIN_INDEX_PA 27) "PA27",
   PINCTRL_PIN (PIN_INDEX_PA 28) "PA28",
   PINCTRL_PIN (PIN_INDEX_PA 29) "PA29",
   PINCTRL_PIN (PIN_INDEX_PA 30) "PA30",
   PINCTRL_PIN (PIN_INDEX_PA 31) "PA31",
   PINCTRL_PIN (PIN_INDEX_PB 0) "PB0",
   PINCTRL_PIN (PIN_INDEX_PB 1) "PB1",
   PINCTRL_PIN (PIN_INDEX_PB 2) "PB2",
   PINCTRL_PIN (PIN_INDEX_PB 3) "PB3",
   PINCTRL_PIN (PIN_INDEX_PB 4) "PB4",
   PINCTRL_PIN (PIN_INDEX_PB 5) "PB5",
   PINCTRL_PIN (PIN_INDEX_PB 6) "PB6",
   PINCTRL_PIN (PIN_INDEX_PB 7) "PB7",
   PINCTRL_PIN (PIN_INDEX_PB 8) "PB8",
   PINCTRL_PIN (PIN_INDEX_PB 9) "PB9",
   PINCTRL_PIN (PIN_INDEX_PB 10) "PB10",
   PINCTRL_PIN (PIN_INDEX_PB 11) "PB11",
   PINCTRL_PIN (PIN_INDEX_PB 12) "PB12",
   PINCTRL_PIN (PIN_INDEX_PB 13) "PB13",
   PINCTRL_PIN (PIN_INDEX_PB 14) "PB14",
   PINCTRL_PIN (PIN_INDEX_PB 15) "PB15",
   PINCTRL_PIN (PIN_INDEX_PB 16) "PB16",
   PINCTRL_PIN (PIN_INDEX_PB 17) "PB17",
   PINCTRL_PIN (PIN_INDEX_PB 18) "PB18",
   PINCTRL_PIN (PIN_INDEX_PB 19) "PB19",
   PINCTRL_PIN (PIN_INDEX_PB 20) "PB20",
   PINCTRL_PIN (PIN_INDEX_PB 21) "PB21",
   PINCTRL_PIN (PIN_INDEX_PB 22) "PB22",
   PINCTRL_PIN (PIN_INDEX_PB 23) "PB23",
   PINCTRL_PIN (PIN_INDEX_PB 24) "PB24",
   PINCTRL_PIN (PIN_INDEX_PB 25) "PB25",
   PINCTRL_PIN (PIN_INDEX_PB 26) "PB26",
   PINCTRL_PIN (PIN_INDEX_PB 27) "PB27",
   PINCTRL_PIN (PIN_INDEX_PB 28) "PB28",
   PINCTRL_PIN (PIN_INDEX_PB 29) "PB29",
   PINCTRL_PIN (PIN_INDEX_PB 30) "PB30",
   PINCTRL_PIN (PIN_INDEX_PB 31) "PB31",
   PINCTRL_PIN (PIN_INDEX_PC 0) "PC0",
   PINCTRL_PIN (PIN_INDEX_PC 1) "PC1",
   PINCTRL_PIN (PIN_INDEX_PC 2) "PC2",
   PINCTRL_PIN (PIN_INDEX_PC 3) "PC3",
   PINCTRL_PIN (PIN_INDEX_PC 4) "PC4",
   PINCTRL_PIN (PIN_INDEX_PC 5) "PC5",
   PINCTRL_PIN (PIN_INDEX_PC 6) "PC6",
   PINCTRL_PIN (PIN_INDEX_PC 7) "PC7",
   PINCTRL_PIN (PIN_INDEX_PC 8) "PC8",
   PINCTRL_PIN (PIN_INDEX_PC 9) "PC9",
   PINCTRL_PIN (PIN_INDEX_PC 10) "PC10",
   PINCTRL_PIN (PIN_INDEX_PC 11) "PC11",
   PINCTRL_PIN (PIN_INDEX_PC 12) "PC12",
   PINCTRL_PIN (PIN_INDEX_PC 13) "PC13",
   PINCTRL_PIN (PIN_INDEX_PC 14) "PC14",
   PINCTRL_PIN (PIN_INDEX_PC 15) "PC15",
   PINCTRL_PIN (PIN_INDEX_PC 16) "PC16",
   PINCTRL_PIN (PIN_INDEX_PC 17) "PC17",
   PINCTRL_PIN (PIN_INDEX_PC 18) "PC18",
   PINCTRL_PIN (PIN_INDEX_PC 19) "PC19",
   PINCTRL_PIN (PIN_INDEX_PC 20) "PC20",
   PINCTRL_PIN (PIN_INDEX_PC 21) "PC21",
   PINCTRL_PIN (PIN_INDEX_PC 22) "PC22",
   PINCTRL_PIN (PIN_INDEX_PC 23) "PC23",
   PINCTRL_PIN (PIN_INDEX_PC 24) "PC24",
   PINCTRL_PIN (PIN_INDEX_PC 25) "PC25",
   PINCTRL_PIN (PIN_INDEX_PC 26) "PC26",
   PINCTRL_PIN (PIN_INDEX_PC 27) "PC27",
   PINCTRL_PIN (PIN_INDEX_PC 28) "PC28",
   PINCTRL_PIN (PIN_INDEX_PC 29) "PC29",
   PINCTRL_PIN (PIN_INDEX_PC 30) "PC30",
   PINCTRL_PIN (PIN_INDEX_PC 31) "PC31",
   PINCTRL_PIN (PIN_INDEX_PD 0) "PD0",
   PINCTRL_PIN (PIN_INDEX_PD 1) "PD1",
   PINCTRL_PIN (PIN_INDEX_PD 2) "PD2",
   PINCTRL_PIN (PIN_INDEX_PD 3) "PD3",
   PINCTRL_PIN (PIN_INDEX_PD 4) "PD4",
   PINCTRL_PIN (PIN_INDEX_PD 5) "PD5",
   PINCTRL_PIN (PIN_INDEX_PD 6) "PD6",
   PINCTRL_PIN (PIN_INDEX_PD 7) "PD7",
   PINCTRL_PIN (PIN_INDEX_PD 8) "PD8",
   PINCTRL_PIN (PIN_INDEX_PD 9) "PD9",
   PINCTRL_PIN (PIN_INDEX_PD 10) "PD10",
   PINCTRL_PIN (PIN_INDEX_PD 11) "PD11",
   PINCTRL_PIN (PIN_INDEX_PD 12) "PD12",
   PINCTRL_PIN (PIN_INDEX_PD 13) "PD13",
   PINCTRL_PIN (PIN_INDEX_PD 14) "PD14",
   PINCTRL_PIN (PIN_INDEX_PD 15) "PD15",
   PINCTRL_PIN (PIN_INDEX_PD 16) "PD16",
   PINCTRL_PIN (PIN_INDEX_PD 17) "PD17",
   PINCTRL_PIN (PIN_INDEX_PD 18) "PD18",
   PINCTRL_PIN (PIN_INDEX_PD 19) "PD19",
   PINCTRL_PIN (PIN_INDEX_PD 20) "PD20",
   PINCTRL_PIN (PIN_INDEX_PD 21) "PD21",
   PINCTRL_PIN (PIN_INDEX_PD 22) "PD22",
   PINCTRL_PIN (PIN_INDEX_PD 23) "PD23",
   PINCTRL_PIN (PIN_INDEX_PD 24) "PD24",
   PINCTRL_PIN (PIN_INDEX_PD 25) "PD25",
   PINCTRL_PIN (PIN_INDEX_PD 26) "PD26",
   PINCTRL_PIN (PIN_INDEX_PD 27) "PD27",
   PINCTRL_PIN (PIN_INDEX_PD 28) "PD28",
   PINCTRL_PIN (PIN_INDEX_PD 29) "PD29",
   PINCTRL_PIN (PIN_INDEX_PD 30) "PD30",
   PINCTRL_PIN (PIN_INDEX_PD 31) "PD31",
   PINCTRL_PIN (PIN_INDEX_PE 0) "PE0",
   PINCTRL_PIN (PIN_INDEX_PE 1) "PE1",
   PINCTRL_PIN (PIN_INDEX_PE 2) "PE2",
   PINCTRL_PIN (PIN_INDEX_PE 3) "PE3",
   PINCTRL_PIN (PIN_INDEX_PE 4) "PE4",
   PINCTRL_PIN (PIN_INDEX_PE 5) "PE5",
   PINCTRL_PIN (PIN_INDEX_PE 6) "PE6",
   PINCTRL_PIN (PIN_INDEX_PE 7) "PE7",
   PINCTRL_PIN (PIN_INDEX_PE 8) "PE8",
   PINCTRL_PIN (PIN_INDEX_PE 9) "PE9",
   PINCTRL_PIN (PIN_INDEX_PE 10) "PE10",
   PINCTRL_PIN (PIN_INDEX_PE 11) "PE11",
   PINCTRL_PIN (PIN_INDEX_PE 12) "PE12",
   PINCTRL_PIN (PIN_INDEX_PE 13) "PE13",
   PINCTRL_PIN (PIN_INDEX_PE 14) "PE14",
   PINCTRL_PIN (PIN_INDEX_PE 15) "PE15",
   PINCTRL_PIN (PIN_INDEX_PE 16) "PE16",
   PINCTRL_PIN (PIN_INDEX_PE 17) "PE17",
   PINCTRL_PIN (PIN_INDEX_PE 18) "PE18",
   PINCTRL_PIN (PIN_INDEX_PE 19) "PE19",
   PINCTRL_PIN (PIN_INDEX_PE 20) "PE20",
   PINCTRL_PIN (PIN_INDEX_PE 21) "PE21",
   PINCTRL_PIN (PIN_INDEX_PE 22) "PE22",
   PINCTRL_PIN (PIN_INDEX_PE 23) "PE23",
   PINCTRL_PIN (PIN_INDEX_PE 24) "PE24",
   PINCTRL_PIN (PIN_INDEX_PE 25) "PE25",
   PINCTRL_PIN (PIN_INDEX_PE 26) "PE26",
   PINCTRL_PIN (PIN_INDEX_PE 27) "PE27",
   PINCTRL_PIN (PIN_INDEX_PE 28) "PE28",
   PINCTRL_PIN (PIN_INDEX_PE 29) "PE29",
   PINCTRL_PIN (PIN_INDEX_PE 30) "PE30",
   PINCTRL_PIN (PIN_INDEX_PE 31) "PE31",
   PINCTRL_PIN (PIN_INDEX_PF 0) "PF0",
   PINCTRL_PIN (PIN_INDEX_PF 1) "PF1",
   PINCTRL_PIN (PIN_INDEX_PF 2) "PF2",
   PINCTRL_PIN (PIN_INDEX_PF 3) "PF3",
   PINCTRL_PIN (PIN_INDEX_PF 4) "PF4",
   PINCTRL_PIN (PIN_INDEX_PF 5) "PF5",
   PINCTRL_PIN (PIN_INDEX_PF 6) "PF6",
   PINCTRL_PIN (PIN_INDEX_PF 7) "PF7",
   PINCTRL_PIN (PIN_INDEX_PF 8) "PF8",
   PINCTRL_PIN (PIN_INDEX_PF 9) "PF9",
   PINCTRL_PIN (PIN_INDEX_PF 10) "PF10",
   PINCTRL_PIN (PIN_INDEX_PF 11) "PF11",
   PINCTRL_PIN (PIN_INDEX_PF 12) "PF12",
   PINCTRL_PIN (PIN_INDEX_PF 13) "PF13",
   PINCTRL_PIN (PIN_INDEX_PF 14) "PF14",
   PINCTRL_PIN (PIN_INDEX_PF 15) "PF15",
   PINCTRL_PIN (PIN_INDEX_PF 16) "PF16",
   PINCTRL_PIN (PIN_INDEX_PF 17) "PF17",
   PINCTRL_PIN (PIN_INDEX_PF 18) "PF18",
   PINCTRL_PIN (PIN_INDEX_PF 19) "PF19",
   PINCTRL_PIN (PIN_INDEX_PF 20) "PF20",
   PINCTRL_PIN (PIN_INDEX_PF 21) "PF21",
   PINCTRL_PIN (PIN_INDEX_PF 22) "PF22",
   PINCTRL_PIN (PIN_INDEX_PF 23) "PF23",
   PINCTRL_PIN (PIN_INDEX_PF 24) "PF24",
   PINCTRL_PIN (PIN_INDEX_PF 25) "PF25",
   PINCTRL_PIN (PIN_INDEX_PF 26) "PF26",
   PINCTRL_PIN (PIN_INDEX_PF 27) "PF27",
   PINCTRL_PIN (PIN_INDEX_PF 28) "PF28",
   PINCTRL_PIN (PIN_INDEX_PF 29) "PF29",
   PINCTRL_PIN (PIN_INDEX_PF 30) "PF30",
   PINCTRL_PIN (PIN_INDEX_PF 31) "PF31",
   PINCTRL_PIN (PIN_INDEX_PX 0) "PX0",
   PINCTRL_PIN (PIN_INDEX_PX 1) "PX1",
   PINCTRL_PIN (PIN_INDEX_PX 2) "PX2",
   PINCTRL_PIN (PIN_INDEX_PX 3) "PX3",
   PINCTRL_PIN (PIN_INDEX_PX 4) "PX4",
   PINCTRL_PIN (PIN_INDEX_PX 5) "PX5",
   PINCTRL_PIN (PIN_INDEX_PX 6) "PX6",
   PINCTRL_PIN (PIN_INDEX_PX 7) "PX7",
   PINCTRL_PIN (PIN_INDEX_PX 8) "PX8",
   PINCTRL_PIN (PIN_INDEX_PX 9) "PX9",
   PINCTRL_PIN (PIN_INDEX_PX 10) "PX10",
   PINCTRL_PIN (PIN_INDEX_PX 11) "PX11",
   PINCTRL_PIN (PIN_INDEX_PX 12) "PX12",
   PINCTRL_PIN (PIN_INDEX_PX 13) "PX13",
   PINCTRL_PIN (PIN_INDEX_PX 14) "PX14",
   PINCTRL_PIN (PIN_INDEX_PX 15) "PX15",
   PINCTRL_PIN (PIN_INDEX_PX 16) "PX16",
   PINCTRL_PIN (PIN_INDEX_PX 17) "PX17",
   PINCTRL_PIN (PIN_INDEX_PX 18) "PX18",
   PINCTRL_PIN (PIN_INDEX_PX 19) "PX19",
   PINCTRL_PIN (PIN_INDEX_PX 20) "PX20",
   PINCTRL_PIN (PIN_INDEX_PX 21) "PX21",
   PINCTRL_PIN (PIN_INDEX_PX 22) "PX22",
   PINCTRL_PIN (PIN_INDEX_PX 23) "PX23",
   PINCTRL_PIN (PIN_INDEX_PX 24) "PX24",
   PINCTRL_PIN (PIN_INDEX_PX 25) "PX25",
   PINCTRL_PIN (PIN_INDEX_PX 26) "PX26",
   PINCTRL_PIN (PIN_INDEX_PX 27) "PX27",
   PINCTRL_PIN (PIN_INDEX_PX 28) "PX28",
   PINCTRL_PIN (PIN_INDEX_PX 29) "PX29",
   PINCTRL_PIN (PIN_INDEX_PX 30) "PX30",
   PINCTRL_PIN (PIN_INDEX_PX 31) "PX31",
   PINCTRL_PIN (PIN_INDEX_PY 0) "PY0",
   PINCTRL_PIN (PIN_INDEX_PY 1) "PY1",
   PINCTRL_PIN (PIN_INDEX_PY 2) "PY2",
   PINCTRL_PIN (PIN_INDEX_PY 3) "PY3",
   PINCTRL_PIN (PIN_INDEX_PY 4) "PY4",
   PINCTRL_PIN (PIN_INDEX_PY 5) "PY5",
   PINCTRL_PIN (PIN_INDEX_PY 6) "PY6",
   PINCTRL_PIN (PIN_INDEX_PY 7) "PY7",
   PINCTRL_PIN (PIN_INDEX_PY 8) "PY8",
   PINCTRL_PIN (PIN_INDEX_PY 9) "PY9",
   PINCTRL_PIN (PIN_INDEX_PY 10) "PY10",
   PINCTRL_PIN (PIN_INDEX_PY 11) "PY11",
   PINCTRL_PIN (PIN_INDEX_PY 12) "PY12",
   PINCTRL_PIN (PIN_INDEX_PY 13) "PY13",
   PINCTRL_PIN (PIN_INDEX_PY 14) "PY14",
   PINCTRL_PIN (PIN_INDEX_PY 15) "PY15",
   PINCTRL_PIN (PIN_INDEX_PY 16) "PY16",
   PINCTRL_PIN (PIN_INDEX_PY 17) "PY17",
   PINCTRL_PIN (PIN_INDEX_PY 18) "PY18",
   PINCTRL_PIN (PIN_INDEX_PY 19) "PY19",
   PINCTRL_PIN (PIN_INDEX_PY 20) "PY20",
   PINCTRL_PIN (PIN_INDEX_PY 21) "PY21",
   PINCTRL_PIN (PIN_INDEX_PY 22) "PY22",
   PINCTRL_PIN (PIN_INDEX_PY 23) "PY23",
   PINCTRL_PIN (PIN_INDEX_PY 24) "PY24",
   PINCTRL_PIN (PIN_INDEX_PY 25) "PY25",
   PINCTRL_PIN (PIN_INDEX_PY 26) "PY26",
   PINCTRL_PIN (PIN_INDEX_PY 27) "PY27",
   PINCTRL_PIN (PIN_INDEX_PY 28) "PY28",
   PINCTRL_PIN (PIN_INDEX_PY 29) "PY29",
   PINCTRL_PIN (PIN_INDEX_PY 30) "PY30",
   PINCTRL_PIN (PIN_INDEX_PY 31) "PY31",
   PINCTRL_PIN (PIN_INDEX_PZ 0) "PZ0",
   PINCTRL_PIN (PIN_INDEX_PZ 1) "PZ1",
   PINCTRL_PIN (PIN_INDEX_PZ 2) "PZ2",
   PINCTRL_PIN (PIN_INDEX_PZ 3) "PZ3",
   PINCTRL_PIN (PIN_INDEX_PZ 4) "PZ4",
   PINCTRL_PIN (PIN_INDEX_PZ 5) "PZ5",
   PINCTRL_PIN (PIN_INDEX_PZ 6) "PZ6",
   PINCTRL_PIN (PIN_INDEX_PZ 7) "PZ7",
   PINCTRL_PIN (PIN_INDEX_PZ 8) "PZ8",
   PINCTRL_PIN (PIN_INDEX_PZ 9) "PZ9",
   PINCTRL_PIN (PIN_INDEX_PZ 10) "PZ10",
   PINCTRL_PIN (PIN_INDEX_PZ 11) "PZ11",
   PINCTRL_PIN (PIN_INDEX_PZ 12) "PZ12",
   PINCTRL_PIN (PIN_INDEX_PZ 13) "PZ13",
   PINCTRL_PIN (PIN_INDEX_PZ 14) "PZ14",
   PINCTRL_PIN (PIN_INDEX_PZ 15) "PZ15",
   PINCTRL_PIN (PIN_INDEX_PZ 16) "PZ16",
   PINCTRL_PIN (PIN_INDEX_PZ 17) "PZ17",
   PINCTRL_PIN (PIN_INDEX_PZ 18) "PZ18",
   PINCTRL_PIN (PIN_INDEX_PZ 19) "PZ19",
   PINCTRL_PIN (PIN_INDEX_PZ 20) "PZ20",
   PINCTRL_PIN (PIN_INDEX_PZ 21) "PZ21",
   PINCTRL_PIN (PIN_INDEX_PZ 22) "PZ22",
   PINCTRL_PIN (PIN_INDEX_PZ 23) "PZ23",
   PINCTRL_PIN (PIN_INDEX_PZ 24) "PZ24",
   PINCTRL_PIN (PIN_INDEX_PZ 25) "PZ25",
   PINCTRL_PIN (PIN_INDEX_PZ 26) "PZ26",
   PINCTRL_PIN (PIN_INDEX_PZ 27) "PZ27",
   PINCTRL_PIN (PIN_INDEX_PZ 28) "PZ28",
   PINCTRL_PIN (PIN_INDEX_PZ 29) "PZ29",
   PINCTRL_PIN (PIN_INDEX_PZ 30) "PZ30",
   PINCTRL_PIN (PIN_INDEX_PZ 31) "PZ31"]

/-- The port letters in the order of the flattened pin space, as the
specification lists them. -/
def spec_port_letters : List String := ["A", "B", "C", "D", "E", "F", "X", "Y", "Z"]

/-- The name the specification gives the pin `k`: `P`, the letter of the port
`k / 32`, and `k % 32` in decimal. -/
def spec_pin_name (k : Nat) : String :=
  "P" ++ spec_port_letters.getD (k / 32) "?" ++ toString (k % 32)

/-- A pin controller whose registers all hold `v`, with an empty log. -/
def pinctrl_of (v : Nat) : hpmicro_pinctrl := { regs := fun _ => v, log := [] }

/-! ## Bit-level facts about the machine-word operations -/

theorem testBit_u32 (x i : Nat) : (u32 x).testBit i = (decide (i < 32) && x.testBit i) :=
  Nat.testBit_mod_two_pow x 32 i

theorem testBit_notL (L x i : Nat) :
    (notL L x).testBit i = (decide (i < L) && !x.testBit i) := by
  have h : x % 2 ^ L < 2 ^ L := Nat.mod_lt _ (Nat.two_pow_pos L)
  have e : notL L x = 2 ^ L - (x % 2 ^ L + 1) := by unfold notL; omega
  rw [e, Nat.testBit_two_pow_sub_succ h, Nat.testBit_mod_two_pow]
  by_cases hi : i < L <;> simp [hi]

theorem testBit_not32 (x i : Nat) :
    (not32 x).testBit i = (decide (i < 32) && !x.testBit i) :=
  testBit_notL 32 x i

theorem u32_lt (x : Nat) : u32 x < 2 ^ 32 := Nat.mod_lt _ (by decide)

theorem u32_of_lt {x : Nat} (h : x < 2 ^ 32) : u32 x = x := Nat.mod_eq_of_lt h

theorem u32_u32 (x : Nat) : u32 (u32 x) = u32 x := u32_of_lt (u32_lt x)

theorem u32_one_shiftLeft {o : Nat} (h : o < 32) : u32 (1 <<< o) = 2 ^ o := by
  rw [Nat.one_shiftLeft]
  exact u32_of_lt (Nat.pow_lt_pow_right (by decide) h)

theorem BIT_eq {o : Nat} (h : o < 32) : BIT o = 2 ^ o := u32_one_shiftLeft h

theorem testBit_lt_of_lt {x n i : Nat} (hx : x < 2 ^ n) (h : x.testBit i = true) : i < n := by
  by_contra hn
  have hle : n ≤ i := Nat.le_of_not_lt hn
  have : x < 2 ^ i := Nat.lt_of_lt_of_le hx (Nat.pow_le_pow_right (by decide) hle)
  rw [Nat.testBit_lt_two_pow this] at h
  exact Bool.noConfusion h

theorem testBit_int_to_ulong (L x i : Nat) (hL : 32 ≤ L) (hi : i < 32) :
    (int_to_ulong L x).testBit i = x.testBit i := by
  have hx : x % 2 ^ 32 < 2 ^ 32 := Nat.mod_lt _ (by decide)
  unfold int_to_ulong
  have hm : (x % 2 ^ 32).testBit i = x.testBit i := by
    rw [Nat.testBit_mod_two_pow]; simp [hi]
  split
  · exact hm
  · have e : 2 ^ L - 2 ^ 32 = 2 ^ 32 * (2 ^ (L - 32) - 1) := by
      have : 2 ^ L = 2 ^ 32 * 2 ^ (L - 32) := by
        rw [← Nat.pow_add]; congr 1; omega
      rw [this, Nat.mul_sub, Nat.mul_one]
    rw [e, Nat.add_comm, Nat.testBit_mul_pow_two_add _ hx, if_pos hi]
    exact hm

/-! ## GPIO line operations -/

/-- C1: for an `unsigned long` of `L ≥ 32` bits, every 32-bit `mask`, every
`bits` and every input-register value, `hpm_gpio_get_multiple` returns 0 and
leaves `bits = (bits AND NOT mask) OR (d AND mask)` where `d` is the value
loaded from the input register: every bit outside `mask` is the caller's bit,
every bit inside `mask` is the bit of the input register; the register is
loaded once and nothing is stored. -/
theorem hpm_gpio_get_multiple_spec (L mask bits : Nat) (port : hpm_gpio_port)
    (hL : 32 ≤ L) (hmask : mask < 2 ^ 32) (hbits : bits < 2 ^ L) :
    (hpm_gpio_get_multiple L mask bits port).1 = 0 ∧
    (hpm_gpio_get_multiple L mask bits port).2.1
      = (bits &&& notL L mask) ||| (port.hw.load HPM_DI_OFFSET &&& mask) ∧
    (∀ i, (hpm_gpio_get_multiple L mask bits port).2.1.testBit i
      = if mask.testBit i then port.hw.di.testBit i else bits.testBit i) ∧
    (hpm_gpio_get_multiple L mask bits port).2.2.hw = port.hw ∧
    (hpm_gpio_get_multiple L mask bits port).2.2.log = port.log ++ [Event.rd HPM_DI_OFFSET] := by
  have key : ∀ i, ((bits &&& notL L mask) |||
      (int_to_ulong L (port.hw.load HPM_DI_OFFSET) &&& mask)).testBit i
      = if mask.testBit i then port.hw.di.testBit i else bits.testBit i := by
    intro i
    rw [Nat.testBit_or, Nat.testBit_and, Nat.testBit_and, testBit_notL]
    by_cases hm : mask.testBit i = true
    · have hi : i < 32 := testBit_lt_of_lt hmask hm
      rw [testBit_int_to_ulong L _ i hL hi]
      simp [hm, PortRegs.load, HPM_DI_OFFSET, testBit_u32, hi]
    · have hm2 : mask.testBit i = false := by simpa using hm
      by_cases hb : bits.testBit i = true
      · have hi : i < L := testBit_lt_of_lt hbits hb
        simp [hm2, hb, hi]
      · have hb2 : bits.testBit i = false := by simpa using hb
        simp [hm2, hb2]
  refine ⟨rfl, ?_, key, rfl, rfl⟩
  apply Nat.eq_of_testBit_eq
  intro i
  show ((bits &&& notL L mask) |||
      (int_to_ulong L (port.hw.load HPM_DI_OFFSET) &&& mask)).testBit i = _
  rw [key i, Nat.testBit_or, Nat.testBit_and, Nat.testBit_and, testBit_notL]
  by_cases hm : mask.testBit i = true
  · have hi : i < 32 := testBit_lt_of_lt hmask hm
    simp [hm, PortRegs.load, HPM_DI_OFFSET, testBit_u32, hi]
  · have hm2 : mask.testBit i = false := by simpa using hm
    by_cases hb : bits.testBit i = true
    · have hi : i < L := testBit_lt_of_lt hbits hb
      simp [hm2, hb, hi]
    · have hb2 : bits.testBit i = false := by simpa using hb
      simp [hm2, hb2]

/-- C1 at `L = 32`, `mask = 0x0F`, `bits = 0xAA`, input register `0x55`:
the new `bits` is `0xA5`. -/
theorem hpm_gpio_get_multiple_spec_witness :
    (hpm_gpio_get_multiple 32 0x0F 0xAA (port_of 0x55 0 0 0 0 32)).2.1 = 0xA5 :=
  (hpm_gpio_get_multiple_spec 32 0x0F 0xAA (port_of 0x55 0 0 0 0 32)
    (by decide) (by decide) (by decide)).2.1.trans (by decide)

theorem testBit_or_two_pow (x b j : Nat) :
    (x ||| 2 ^ b).testBit j = (x.testBit j || decide (b = j)) := by
  rw [Nat.testBit_or, Nat.testBit_two_pow]

theorem testBit_and_not32_two_pow (x b j : Nat) (hj : j < 32) :
    (x &&& not32 (2 ^ b)).testBit j = (x.testBit j && !decide (b = j)) := by
  rw [Nat.testBit_and, testBit_not32, Nat.testBit_two_pow]
  simp [hj]

/-- C2: for a line `offset < 32`, `hpm_gpio_set` performs exactly one register
store, of the single bit `2 ^ offset`, to the set register when the value is
non-zero and to the clear register when it is zero; with set stores ORing into
the output latch and clear stores clearing in it, `write(line, 1)` followed by
`write(line, 0)` leaves the line's own output bit 0, every other line's output
bit as it was, and every other register as it was. -/
theorem hpm_gpio_set_spec (offset : Nat) (v : Int) (port : hpm_gpio_port) (h : offset < 32) :
    (hpm_gpio_set offset v port).log
      = port.log ++ [Event.wr (if v ≠ 0 then HPM_SET_OFFSET else HPM_CLR_OFFSET) (2 ^ offset)] ∧
    (hpm_gpio_set offset 0 (hpm_gpio_set offset 1 port)).hw.dout.testBit offset = false ∧
    (∀ j, j < 32 → j ≠ offset →
      (hpm_gpio_set offset 0 (hpm_gpio_set offset 1 port)).hw.dout.testBit j
        = port.hw.dout.testBit j) ∧
    (hpm_gpio_set offset 0 (hpm_gpio_set offset 1 port)).hw
      = { port.hw with dout := (port.hw.dout ||| 2 ^ offset) &&& not32 (2 ^ offset) } := by
  have hb : u32 (1 <<< offset) = 2 ^ offset := u32_one_shiftLeft h
  have hlt : (2 : Nat) ^ offset < 2 ^ 32 := Nat.pow_lt_pow_right (by decide) h
  have hhw : (hpm_gpio_set offset 0 (hpm_gpio_set offset 1 port)).hw
      = { port.hw with dout := (port.hw.dout ||| 2 ^ offset) &&& not32 (2 ^ offset) } := by
    simp [hpm_gpio_set, store32, hb, u32_of_lt hlt, PortRegs.store, HPM_SET_OFFSET,
      HPM_CLR_OFFSET, HPM_DO_OFFSET]
  refine ⟨?_, ?_, ?_, hhw⟩
  · by_cases hv : v = 0
    · simp [hpm_gpio_set, hv, store32, hb, u32_of_lt hlt]
    · simp [hpm_gpio_set, hv, store32, hb, u32_of_lt hlt]
  · rw [hhw]
    show ((port.hw.dout ||| 2 ^ offset) &&& not32 (2 ^ offset)).testBit offset = false
    rw [testBit_and_not32_two_pow _ _ _ h]
    simp
  · intro j hj hne
    rw [hhw]
    show ((port.hw.dout ||| 2 ^ offset) &&& not32 (2 ^ offset)).testBit j = _
    rw [testBit_and_not32_two_pow _ _ _ hj, testBit_or_two_pow]
    have : ¬ offset = j := fun e => hne e.symm
    simp [this]

/-- C2 at line 3 on a port whose output latch holds `0xF0`: one store of
`0x8` to the set register. -/
theorem hpm_gpio_set_spec_witness :
    (hpm_gpio_set 3 1 (port_of 0 0xF0 0 0 0 32)).log = [Event.wr 0x104 8] :=
  (hpm_gpio_set_spec 3 1 (port_of 0 0xF0 0 0 0 32) (by decide)).1.trans (by decide)

/-! ## Trigger programming -/

theorem set_type_regs_edge_set (bit : Nat) (port : hpm_gpio_port) (h : bit < 32) :
    (store32 HPM_INT_POLARITY_SET (BIT bit)
      (store32 HPM_INIT_TYPE_LEVEL_SET_OFFSET (BIT bit) port)).hw
      = { port.hw with pl := port.hw.pl ||| 2 ^ bit, tp := port.hw.tp ||| 2 ^ bit } := by
  have hlt : (2 : Nat) ^ bit < 2 ^ 32 := Nat.pow_lt_pow_right (by decide) h
  simp [store32, BIT_eq h, u32_of_lt hlt, PortRegs.store, HPM_INT_POLARITY_SET,
    HPM_INIT_TYPE_LEVEL_SET_OFFSET, HPM_DO_OFFSET, HPM_SET_OFFSET, HPM_CLR_OFFSET,
    HPM_TOGGLE_OFFSET, HPM_DIR_OUT_OFFSET, HPM_DIR_CLR_OFFSET, HPM_IF_OFFSET,
    HPM_IRQ_ENABLE_OFFSET, HPM_IRQ_DISABLE_OFFSET, HPM_INT_POLARITY_CLR]

theorem set_type_regs_edge_clr (bit : Nat) (port : hpm_gpio_port) (h : bit < 32) :
    (store32 HPM_INT_POLARITY_CLR (BIT bit)
      (store32 HPM_INIT_TYPE_LEVEL_SET_OFFSET (BIT bit) port)).hw
      = { port.hw with pl := port.hw.pl &&& not32 (2 ^ bit), tp := port.hw.tp ||| 2 ^ bit } := by
  have hlt : (2 : Nat) ^ bit < 2 ^ 32 := Nat.pow_lt_pow_right (by decide) h
  simp [store32, BIT_eq h, u32_of_lt hlt, PortRegs.store, HPM_INT_POLARITY_SET,
    HPM_INIT_TYPE_LEVEL_SET_OFFSET, HPM_DO_OFFSET, HPM_SET_OFFSET, HPM_CLR_OFFSET,
    HPM_TOGGLE_OFFSET, HPM_DIR_OUT_OFFSET, HPM_DIR_CLR_OFFSET, HPM_IF_OFFSET,
    HPM_IRQ_ENABLE_OFFSET, HPM_IRQ_DISABLE_OFFSET, HPM_INT_POLARITY_CLR]

theorem set_type_regs_level_set (bit : Nat) (port : hpm_gpio_port) (h : bit < 32) :
    (store32 HPM_INT_POLARITY_SET (BIT bit)
      (store32 HPM_INIT_TYPE_LEVEL_CLR_OFFSET (BIT bit) port)).hw
      = { port.hw with pl := port.hw.pl ||| 2 ^ bit, tp := port.hw.tp &&& not32 (2 ^ bit) } := by
  have hlt : (2 : Nat) ^ bit < 2 ^ 32 := Nat.pow_lt_pow_right (by decide) h
  simp [store32, BIT_eq h, u32_of_lt hlt, PortRegs.store, HPM_INT_POLARITY_SET,
    HPM_INIT_TYPE_LEVEL_SET_OFFSET, HPM_INIT_TYPE_LEVEL_CLR_OFFSET, HPM_DO_OFFSET,
    HPM_SET_OFFSET, HPM_CLR_OFFSET,
    HPM_TOGGLE_OFFSET, HPM_DIR_OUT_OFFSET, HPM_DIR_CLR_OFFSET, HPM_IF_OFFSET,
    HPM_IRQ_ENABLE_OFFSET, HPM_IRQ_DISABLE_OFFSET, HPM_INT_POLARITY_CLR]

theorem set_type_regs_level_clr (bit : Nat) (port : hpm_gpio_port) (h : bit < 32) :
    (store32 HPM_INT_POLARITY_CLR (BIT bit)
      (store32 HPM_INIT_TYPE_LEVEL_CLR_OFFSET (BIT bit) port)).hw
      = { port.hw with pl := port.hw.pl &&& not32 (2 ^ bit),
                       tp := port.hw.tp &&& not32 (2 ^ bit) } := by
  have hlt : (2 : Nat) ^ bit < 2 ^ 32 := Nat.pow_lt_pow_right (by decide) h
  simp [store32, BIT_eq h, u32_of_lt hlt, PortRegs.store, HPM_INT_POLARITY_SET,
    HPM_INIT_TYPE_LEVEL_SET_OFFSET, HPM_INIT_TYPE_LEVEL_CLR_OFFSET, HPM_DO_OFFSET,
    HPM_SET_OFFSET, HPM_CLR_OFFSET,
    HPM_TOGGLE_OFFSET, HPM_DIR_OUT_OFFSET, HPM_DIR_CLR_OFFSET, HPM_IF_OFFSET,
    HPM_IRQ_ENABLE_OFFSET, HPM_IRQ_DISABLE_OFFSET, HPM_INT_POLARITY_CLR]

/-- C3: for a line `bit < 32` and each of the five trigger kinds,
`hpm_gpio_irq_set_type` returns 0; afterwards the line's type (selector) bit
is 1 (edge) exactly for edge_rising, edge_falling and edge_both and 0 (level)
for level_high and level_low; the line's polarity bit is 0 for edge_rising and
level_high and 1 for edge_falling, edge_both and level_low; the type and
polarity bits of every other line are unchanged; and the handler installed is
the level handler for the two level kinds and the edge handler for the three
edge kinds. -/
theorem hpm_gpio_irq_set_type_spec (bit type : Nat) (port : hpm_gpio_port) (hbit : bit < 32)
    (htype : type = IRQ_TYPE_EDGE_RISING ∨ type = IRQ_TYPE_EDGE_FALLING ∨
      type = IRQ_TYPE_EDGE_BOTH ∨ type = IRQ_TYPE_LEVEL_HIGH ∨ type = IRQ_TYPE_LEVEL_LOW) :
    (hpm_gpio_irq_set_type bit type port).1 = 0 ∧
    (hpm_gpio_irq_set_type bit type port).2.2.hw.tp.testBit bit
      = decide (type = IRQ_TYPE_EDGE_RISING ∨ type = IRQ_TYPE_EDGE_FALLING ∨
          type = IRQ_TYPE_EDGE_BOTH) ∧
    (hpm_gpio_irq_set_type bit type port).2.2.hw.pl.testBit bit
      = decide (type = IRQ_TYPE_EDGE_FALLING ∨ type = IRQ_TYPE_EDGE_BOTH ∨
          type = IRQ_TYPE_LEVEL_LOW) ∧
    (∀ j, j < 32 → j ≠ bit →
      (hpm_gpio_irq_set_type bit type port).2.2.hw.tp.testBit j = port.hw.tp.testBit j ∧
      (hpm_gpio_irq_set_type bit type port).2.2.hw.pl.testBit j = port.hw.pl.testBit j) ∧
    (hpm_gpio_irq_set_type bit type port).2.1
      = some (if type = IRQ_TYPE_LEVEL_HIGH ∨ type = IRQ_TYPE_LEVEL_LOW
              then flow_handler.handle_level_irq else flow_handler.handle_edge_irq) := by
  have hor : ∀ x j, j ≠ bit → (x ||| 2 ^ bit).testBit j = x.testBit j := by
    intro x j hne
    have : ¬ bit = j := fun e => hne e.symm
    rw [testBit_or_two_pow]; simp [this]
  have hand : ∀ x j, j < 32 → j ≠ bit → (x &&& not32 (2 ^ bit)).testBit j = x.testBit j := by
    intro x j hj hne
    have : ¬ bit = j := fun e => hne e.symm
    rw [testBit_and_not32_two_pow _ _ _ hj]; simp [this]
  have hor1 : ∀ x, (x ||| 2 ^ bit).testBit bit = true := by
    intro x; rw [testBit_or_two_pow]; simp
  have hand0 : ∀ x, (x &&& not32 (2 ^ bit)).testBit bit = false := by
    intro x; rw [testBit_and_not32_two_pow _ _ _ hbit]; simp
  have hh : ∀ t, (hpm_gpio_irq_set_type bit t port).2.1 = hpm_gpio_irq_set_type_handler t :=
    fun _ => rfl
  rcases htype with h | h | h | h | h <;> subst h
  · refine ⟨rfl, ?_, ?_, ?_, (hh _).trans (by decide)⟩
    · show (store32 HPM_INT_POLARITY_CLR (BIT bit)
        (store32 HPM_INIT_TYPE_LEVEL_SET_OFFSET (BIT bit) port)).hw.tp.testBit bit = _
      rw [set_type_regs_edge_clr bit port hbit]
      simp
    · show (store32 HPM_INT_POLARITY_CLR (BIT bit)
        (store32 HPM_INIT_TYPE_LEVEL_SET_OFFSET (BIT bit) port)).hw.pl.testBit bit = _
      rw [set_type_regs_edge_clr bit port hbit]
      simpa [IRQ_TYPE_EDGE_RISING, IRQ_TYPE_EDGE_FALLING, IRQ_TYPE_EDGE_BOTH,
        IRQ_TYPE_LEVEL_LOW] using hand0 _
    · intro j hj hne
      show (store32 HPM_INT_POLARITY_CLR (BIT bit)
        (store32 HPM_INIT_TYPE_LEVEL_SET_OFFSET (BIT bit) port)).hw.tp.testBit j = _ ∧
        (store32 HPM_INT_POLARITY_CLR (BIT bit)
        (store32 HPM_INIT_TYPE_LEVEL_SET_OFFSET (BIT bit) port)).hw.pl.testBit j = _
      rw [set_type_regs_edge_clr bit port hbit]
      exact ⟨hor _ j hne, hand _ j hj hne⟩
  · refine ⟨rfl, ?_, ?_, ?_, (hh _).trans (by decide)⟩
    · show (store32 HPM_INT_POLARITY_SET (BIT bit)
        (store32 HPM_INIT_TYPE_LEVEL_SET_OFFSET (BIT bit) port)).hw.tp.testBit bit = _
      rw [set_type_regs_edge_set bit port hbit]
      simp
    · show (store32 HPM_INT_POLARITY_SET (BIT bit)
        (store32 HPM_INIT_TYPE_LEVEL_SET_OFFSET (BIT bit) port)).hw.pl.testBit bit = _
      rw [set_type_regs_edge_set bit port hbit]
      simp
    · intro j _ hne
      show (store32 HPM_INT_POLARITY_SET (BIT bit)
        (store32 HPM_INIT_TYPE_LEVEL_SET_OFFSET (BIT bit) port)).hw.tp.testBit j = _ ∧
        (store32 HPM_INT_POLARITY_SET (BIT bit)
        (store32 HPM_INIT_TYPE_LEVEL_SET_OFFSET (BIT bit) port)).hw.pl.testBit j = _
      rw [set_type_regs_edge_set bit port hbit]
      exact ⟨hor _ j hne, hor _ j hne⟩
  · refine ⟨rfl, ?_, ?_, ?_, (hh _).trans (by decide)⟩
    · show (store32 HPM_INT_POLARITY_SET (BIT bit)
        (store32 HPM_INIT_TYPE_LEVEL_SET_OFFSET (BIT bit) port)).hw.tp.testBit bit = _
      rw [set_type_regs_edge_set bit port hbit]
      simp
    · show (store32 HPM_INT_POLARITY_SET (BIT bit)
        (store32 HPM_INIT_TYPE_LEVEL_SET_OFFSET (BIT bit) port)).hw.pl.testBit bit = _
      rw [set_type_regs_edge_set bit port hbit]
      simp
    · intro j _ hne
      show (store32 HPM_INT_POLARITY_SET (BIT bit)
        (store32 HPM_INIT_TYPE_LEVEL_SET_OFFSET (BIT bit) port)).hw.tp.testBit j = _ ∧
        (store32 HPM_INT_POLARITY_SET (BIT bit)
        (store32 HPM_INIT_TYPE_LEVEL_SET_OFFSET (BIT bit) port)).hw.pl.testBit j = _
      rw [set_type_regs_edge_set bit port hbit]
      exact ⟨hor _ j hne, hor _ j hne⟩
  · refine ⟨rfl, ?_, ?_, ?_, (hh _).trans (by decide)⟩
    · show (store32 HPM_INT_POLARITY_CLR (BIT bit)
        (store32 HPM_INIT_TYPE_LEVEL_CLR_OFFSET (BIT bit) port)).hw.tp.testBit bit = _
      rw [set_type_regs_level_clr bit port hbit]
      simpa [IRQ_TYPE_EDGE_RISING, IRQ_TYPE_EDGE_FALLING, IRQ_TYPE_EDGE_BOTH,
        IRQ_TYPE_LEVEL_HIGH] using hand0 _
    · show (store32 HPM_INT_POLARITY_CLR (BIT bit)
        (store32 HPM_INIT_TYPE_LEVEL_CLR_OFFSET (BIT bit) port)).hw.pl.testBit bit = _
      rw [set_type_regs_level_clr bit port hbit]
      simpa [IRQ_TYPE_EDGE_RISING, IRQ_TYPE_EDGE_FALLING, IRQ_TYPE_EDGE_BOTH,
        IRQ_TYPE_LEVEL_HIGH, IRQ_TYPE_LEVEL_LOW] using hand0 _
    · intro j hj hne
      show (store32 HPM_INT_POLARITY_CLR (BIT bit)
        (store32 HPM_INIT_TYPE_LEVEL_CLR_OFFSET (BIT bit) port)).hw.tp.testBit j = _ ∧
        (store32 HPM_INT_POLARITY_CLR (BIT bit)
        (store32 HPM_INIT_TYPE_LEVEL_CLR_OFFSET (BIT bit) port)).hw.pl.testBit j = _
      rw [set_type_regs_level_clr bit port hbit]
      exact ⟨hand _ j hj hne, hand _ j hj hne⟩
  · refine ⟨rfl, ?_, ?_, ?_, (hh _).trans (by decide)⟩
    · show (store32 HPM_INT_POLARITY_SET (BIT bit)
        (store32 HPM_INIT_TYPE_LEVEL_CLR_OFFSET (BIT bit) port)).hw.tp.testBit bit = _
      rw [set_type_regs_level_set bit port hbit]
      simpa [IRQ_TYPE_EDGE_RISING, IRQ_TYPE_EDGE_FALLING, IRQ_TYPE_EDGE_BOTH,
        IRQ_TYPE_LEVEL_LOW] using hand0 _
    · show (store32 HPM_INT_POLARITY_SET (BIT bit)
        (store32 HPM_INIT_TYPE_LEVEL_CLR_OFFSET (BIT bit) port)).hw.pl.testBit bit = _
      rw [set_type_regs_level_set bit port hbit]
      simp
    · intro j hj hne
      show (store32 HPM_INT_POLARITY_SET (BIT bit)
        (store32 HPM_INIT_TYPE_LEVEL_CLR_OFFSET (BIT bit) port)).hw.tp.testBit j = _ ∧
        (store32 HPM_INT_POLARITY_SET (BIT bit)
        (store32 HPM_INIT_TYPE_LEVEL_CLR_OFFSET (BIT bit) port)).hw.pl.testBit j = _
      rw [set_type_regs_level_set bit port hbit]
      exact ⟨hand _ j hj hne, hor _ j hne⟩

/-- C3 at line 5 with kind edge_falling on a port with all registers clear:
the type bit and the polarity bit of line 5 are both set. -/
theorem hpm_gpio_irq_set_type_spec_witness :
    (hpm_gpio_irq_set_type 5 IRQ_TYPE_EDGE_FALLING (port_of 0 0 0 0 0 32)).2.2.hw.tp.testBit 5
      = true ∧
    (hpm_gpio_irq_set_type 5 IRQ_TYPE_EDGE_FALLING (port_of 0 0 0 0 0 32)).2.2.hw.pl.testBit 5
      = true :=
  ⟨(hpm_gpio_irq_set_type_spec 5 IRQ_TYPE_EDGE_FALLING (port_of 0 0 0 0 0 32) (by decide)
      (by decide)).2.1.trans (by decide),
   (hpm_gpio_irq_set_type_spec 5 IRQ_TYPE_EDGE_FALLING (port_of 0 0 0 0 0 32) (by decide)
      (by decide)).2.2.1.trans (by decide)⟩

theorem lor_eq_zero_iff (x y : Nat) : x ||| y = 0 ↔ x = 0 ∧ y = 0 := by
  constructor
  · intro h
    have hb : ∀ i, (x.testBit i || y.testBit i) = false := by
      intro i
      rw [← Nat.testBit_or, h, Nat.zero_testBit]
    constructor
    · apply Nat.eq_of_testBit_eq
      intro i
      have := hb i
      rw [Nat.zero_testBit]
      cases hx : x.testBit i
      · rfl
      · rw [hx] at this; exact Bool.noConfusion this
    · apply Nat.eq_of_testBit_eq
      intro i
      have := hb i
      rw [Nat.zero_testBit]
      cases hy : y.testBit i
      · rfl
      · rw [hy, Bool.or_true] at this; exact Bool.noConfusion this
  · rintro ⟨rfl, rfl⟩
    rfl

theorem sense_bits_split (t : Nat) :
    t &&& IRQ_TYPE_SENSE_MASK = 0 ↔
      t &&& IRQ_TYPE_LEVEL_MASK = 0 ∧ t &&& IRQ_TYPE_EDGE_BOTH = 0 := by
  have e : IRQ_TYPE_SENSE_MASK = IRQ_TYPE_LEVEL_MASK ||| IRQ_TYPE_EDGE_BOTH := by decide
  rw [e, Nat.and_or_distrib_left, lor_eq_zero_iff]

/-- C4, the claim fails: the type value 5 (edge_rising together with
level_high) is none of the five trigger kinds, yet `hpm_gpio_irq_set_type`
returns 0 for it and installs the level handler on the line. -/
theorem hpm_gpio_irq_set_type_invalid_counterexample :
    (5 ≠ IRQ_TYPE_EDGE_RISING ∧ 5 ≠ IRQ_TYPE_EDGE_FALLING ∧ 5 ≠ IRQ_TYPE_EDGE_BOTH ∧
      5 ≠ IRQ_TYPE_LEVEL_HIGH ∧ 5 ≠ IRQ_TYPE_LEVEL_LOW) ∧
    (hpm_gpio_irq_set_type 3 5 (port_of 0 0 0 0 0 32)).1 = 0 ∧
    (hpm_gpio_irq_set_type 3 5 (port_of 0 0 0 0 0 32)).2.1
      = some flow_handler.handle_level_irq := by
  decide

/-- C4 as amended: for every type value that is none of the five trigger
kinds, `hpm_gpio_irq_set_type` stores to no register (the port, log included,
is unchanged) and returns 0; it leaves the line's handler alone exactly when
none of the four sense bits of the value is set, installs the level handler
when a level bit is set, and the edge handler when only edge bits are set. -/
theorem hpm_gpio_irq_set_type_invalid (bit type : Nat) (port : hpm_gpio_port)
    (h1 : type ≠ IRQ_TYPE_EDGE_RISING) (h2 : type ≠ IRQ_TYPE_EDGE_FALLING)
    (h3 : type ≠ IRQ_TYPE_EDGE_BOTH) (h4 : type ≠ IRQ_TYPE_LEVEL_HIGH)
    (h5 : type ≠ IRQ_TYPE_LEVEL_LOW) :
    (hpm_gpio_irq_set_type bit type port).1 = 0 ∧
    (hpm_gpio_irq_set_type bit type port).2.2 = port ∧
    ((hpm_gpio_irq_set_type bit type port).2.1 = none ↔ type &&& IRQ_TYPE_SENSE_MASK = 0) ∧
    (type &&& IRQ_TYPE_LEVEL_MASK ≠ 0 →
      (hpm_gpio_irq_set_type bit type port).2.1 = some flow_handler.handle_level_irq) ∧
    (type &&& IRQ_TYPE_LEVEL_MASK = 0 → type &&& IRQ_TYPE_EDGE_BOTH ≠ 0 →
      (hpm_gpio_irq_set_type bit type port).2.1 = some flow_handler.handle_edge_irq) := by
  refine ⟨rfl, ?_, ?_, ?_, ?_⟩
  · show hpm_gpio_irq_set_type_regs bit type port = port
    simp [hpm_gpio_irq_set_type_regs, h1, h2, h3, h4, h5]
  · show hpm_gpio_irq_set_type_handler type = none ↔ _
    rw [sense_bits_split]
    unfold hpm_gpio_irq_set_type_handler
    by_cases hl : type &&& IRQ_TYPE_LEVEL_MASK = 0
    · by_cases he : type &&& IRQ_TYPE_EDGE_BOTH = 0
      · simp [hl, he]
      · simp [hl, he]
    · simp [hl]
  · intro hl
    show hpm_gpio_irq_set_type_handler type = _
    simp [hpm_gpio_irq_set_type_handler, hl]
  · intro hl he
    show hpm_gpio_irq_set_type_handler type = _
    simp [hpm_gpio_irq_set_type_handler, hl, he]

/-- C4 as amended, at the type value 0 (no trigger): nothing is stored, the
result is 0 and no handler is installed. -/
theorem hpm_gpio_irq_set_type_invalid_witness :
    (hpm_gpio_irq_set_type 3 IRQ_TYPE_NONE (port_of 0 0 0 0 0 32)).1 = 0 ∧
    (hpm_gpio_irq_set_type 3 IRQ_TYPE_NONE (port_of 0 0 0 0 0 32)).2.2 = port_of 0 0 0 0 0 32 :=
  ⟨(hpm_gpio_irq_set_type_invalid 3 IRQ_TYPE_NONE (port_of 0 0 0 0 0 32)
      (by decide) (by decide) (by decide) (by decide) (by decide)).1,
   (hpm_gpio_irq_set_type_invalid 3 IRQ_TYPE_NONE (port_of 0 0 0 0 0 32)
      (by decide) (by decide) (by decide) (by decide) (by decide)).2.1⟩

/-! ## The service loop -/

theorem handled_append (a b : List Event) : handled (a ++ b) = handled a ++ handled b := by
  induction a with
  | nil => rfl
  | cons e es ih => cases e <;> simp [handled, ih]

theorem stores_to_append (off : Nat) (a b : List Event) :
    stores_to off (a ++ b) = stores_to off a ++ stores_to off b := by
  induction a with
  | nil => rfl
  | cons e es ih =>
    cases e with
    | rd o => simp [stores_to, ih]
    | wr o v => by_cases h : o = off <;> simp [stores_to, ih, h]
    | handle i => simp [stores_to, ih]

theorem loads_from_append (off : Nat) (a b : List Event) :
    loads_from off (a ++ b) = loads_from off a + loads_from off b := by
  induction a with
  | nil => simp [loads_from]
  | cons e es ih =>
    cases e with
    | rd o =>
      by_cases h : o = off
      · simp [loads_from, ih, h]; omega
      · simp [loads_from, ih, h]
    | wr o v => simp [loads_from, ih]
    | handle i => simp [loads_from, ih]

theorem find_next_bit_aux_filter (w : Nat) : ∀ n start : Nat,
    (List.range' start n).filter (fun i => w.testBit i)
      = if find_next_bit_aux w n start < start + n then
          find_next_bit_aux w n start ::
            set_bits_from w (start + n) (find_next_bit_aux w n start + 1)
        else [] := by
  intro n
  induction n with
  | zero => intro start; simp [find_next_bit_aux]
  | succ n ih =>
    intro start
    rw [List.range'_succ]
    by_cases hb : w.testBit start = true
    · have e : start + (n + 1) - (start + 1) = n := by omega
      simp [find_next_bit_aux, hb, List.filter_cons, set_bits_from, e]
    · have hb2 : w.testBit start = false := by simpa using hb
      have e : start + 1 + n = start + (n + 1) := by omega
      simp only [find_next_bit_aux, hb2, List.filter_cons, Bool.false_eq_true, if_false]
      rw [ih (start + 1), e]

theorem find_next_bit_aux_ge (w : Nat) : ∀ n start : Nat, start ≤ find_next_bit_aux w n start := by
  intro n
  induction n with
  | zero => intro start; exact Nat.le_refl _
  | succ n ih =>
    intro start
    unfold find_next_bit_aux
    split
    · exact Nat.le_refl _
    · exact Nat.le_trans (Nat.le_succ _) (ih (start + 1))

theorem find_next_bit_ge (w size start : Nat) (h : start ≤ size) :
    start ≤ find_next_bit w size start := by
  unfold find_next_bit
  split
  · exact find_next_bit_aux_ge w _ _
  · exact h

/-- The lines the loop still has to serve when it is entered with `hwirq`. -/
theorem set_bits_from_find_next_bit (w size start : Nat) :
    (if find_next_bit w size start < size then
        find_next_bit w size start :: set_bits_from w size (find_next_bit w size start + 1)
      else [])
      = set_bits_from w size start := by
  unfold find_next_bit
  by_cases h : start < size
  · have e : start + (size - start) = size := by omega
    have := find_next_bit_aux_filter w (size - start) start
    rw [e] at this
    simp only [h, if_true]
    exact this.symm
  · have e : size - start = 0 := by omega
    simp [h, set_bits_from, e]

theorem hpm_do_irq_loop_eq_foldl (core : irq_core) (w size : Nat) :
    ∀ (fuel hwirq : Nat) (port : hpm_gpio_port), size ≤ fuel + hwirq →
      hpm_do_irq_loop core w size fuel hwirq port
        = List.foldl (fun p i => hpm_do_irq_body core i p) port
            (if hwirq < size then hwirq :: set_bits_from w size (hwirq + 1) else []) := by
  intro fuel
  induction fuel with
  | zero =>
    intro hwirq port h
    have : ¬ hwirq < size := by omega
    simp [hpm_do_irq_loop, this]
  | succ fuel ih =>
    intro hwirq port h
    by_cases hlt : hwirq < size
    · have hge := find_next_bit_ge w size (hwirq + 1) hlt
      have hfuel : size ≤ fuel + find_next_bit w size (hwirq + 1) := by omega
      simp only [hpm_do_irq_loop, hlt, if_true]
      rw [ih _ _ hfuel, set_bits_from_find_next_bit]
      rfl
    · simp [hpm_do_irq_loop, hlt]

theorem hpm_do_irq_eq_foldl (core : irq_core) (port : hpm_gpio_port) :
    (hpm_do_irq core port).2
      = List.foldl (fun p i => hpm_do_irq_body core i p) (load32 HPM_IF_OFFSET port).2
          ((List.range port.ngpio).filter (fun i => (u32 port.hw.ifl).testBit i)) := by
  have h := hpm_do_irq_loop_eq_foldl core (u32 port.hw.ifl) port.ngpio port.ngpio
    (find_next_bit (u32 port.hw.ifl) port.ngpio 0) (load32 HPM_IF_OFFSET port).2 (by omega)
  rw [set_bits_from_find_next_bit] at h
  rw [List.range_eq_range']
  simpa [set_bits_from] using h

theorem hpm_toggle_trigger_log (offs : Nat) (port : hpm_gpio_port) :
    ∃ off, (off = HPM_INT_POLARITY_CLR ∨ off = HPM_INT_POLARITY_SET) ∧
      (hpm_toggle_trigger offs port).log = port.log ++
        [Event.rd HPM_INT_POLARITY_VAL,
         Event.wr HPM_INIT_TYPE_LEVEL_SET_OFFSET (u32 (1 <<< offs)),
         Event.wr off (u32 (1 <<< offs))] := by
  dsimp only [hpm_toggle_trigger]
  split
  · exact ⟨HPM_INT_POLARITY_CLR, Or.inl rfl, by simp [store32, load32]⟩
  · exact ⟨HPM_INT_POLARITY_SET, Or.inr rfl, by simp [store32, load32]⟩

theorem hpm_do_irq_body_log (core : irq_core) (i : Nat) (port : hpm_gpio_port) :
    ∃ evs, (hpm_do_irq_body core i port).log = port.log ++ evs ∧
      handled evs = [core.irq_find_mapping i] ∧
      stores_to HPM_IF_OFFSET evs = [u32 (1 <<< i)] ∧
      loads_from HPM_IF_OFFSET evs = 0 := by
  unfold hpm_do_irq_body
  by_cases hb : core.irq_get_trigger_type (core.irq_find_mapping i) &&& IRQ_TYPE_SENSE_MASK
      = IRQ_TYPE_EDGE_BOTH
  · simp only [hb, if_true]
    obtain ⟨off, hoff, hlog⟩ := hpm_toggle_trigger_log i
      (store32 HPM_IF_OFFSET (1 <<< i) (generic_handle_irq (core.irq_find_mapping i) port))
    refine ⟨[Event.handle (core.irq_find_mapping i), Event.wr HPM_IF_OFFSET (u32 (1 <<< i)),
        Event.rd HPM_INT_POLARITY_VAL,
        Event.wr HPM_INIT_TYPE_LEVEL_SET_OFFSET (u32 (1 <<< i)),
        Event.wr off (u32 (1 <<< i))], ?_, rfl, ?_, ?_⟩
    · rw [hlog]
      simp [store32, generic_handle_irq]
    · rcases hoff with h | h <;> subst h <;>
        simp [stores_to, HPM_IF_OFFSET, HPM_INT_POLARITY_CLR, HPM_INT_POLARITY_SET,
          HPM_INIT_TYPE_LEVEL_SET_OFFSET]
    · simp [loads_from, HPM_IF_OFFSET, HPM_INT_POLARITY_VAL]
  · refine ⟨[Event.handle (core.irq_find_mapping i), Event.wr HPM_IF_OFFSET (u32 (1 <<< i))],
      ?_, rfl, ?_, ?_⟩
    · simp only [hb, if_false]
      simp [store32, generic_handle_irq]
    · simp [stores_to]
    · simp [loads_from]

theorem hpm_do_irq_foldl_log (core : irq_core) :
    ∀ (l : List Nat) (port : hpm_gpio_port),
      ∃ evs, (List.foldl (fun p i => hpm_do_irq_body core i p) port l).log = port.log ++ evs ∧
        handled evs = l.map core.irq_find_mapping ∧
        stores_to HPM_IF_OFFSET evs = l.map (fun i => u32 (1 <<< i)) ∧
        loads_from HPM_IF_OFFSET evs = 0 := by
  intro l
  induction l with
  | nil => intro port; exact ⟨[], by simp, rfl, rfl, rfl⟩
  | cons i l ih =>
    intro port
    obtain ⟨e1, h1, a1, b1, c1⟩ := hpm_do_irq_body_log core i port
    obtain ⟨e2, h2, a2, b2, c2⟩ := ih (hpm_do_irq_body core i port)
    refine ⟨e1 ++ e2, ?_, ?_, ?_, ?_⟩
    · rw [List.foldl_cons, h2, h1, List.append_assoc]
    · rw [handled_append, a1, a2]; rfl
    · rw [stores_to_append, b1, b2]; rfl
    · rw [loads_from_append, c1, c2]

theorem hpm_do_irq_body_ifl (core : irq_core) (i : Nat) (port : hpm_gpio_port) :
    (hpm_do_irq_body core i port).hw.ifl = port.hw.ifl &&& not32 (u32 (1 <<< i)) := by
  dsimp only [hpm_do_irq_body]
  split
  · dsimp only [hpm_toggle_trigger]
    split <;>
      simp [store32, load32, generic_handle_irq, PortRegs.store, u32_u32, HPM_IF_OFFSET,
        HPM_INT_POLARITY_CLR, HPM_INT_POLARITY_SET, HPM_INIT_TYPE_LEVEL_SET_OFFSET,
        HPM_DO_OFFSET, HPM_SET_OFFSET, HPM_CLR_OFFSET, HPM_TOGGLE_OFFSET, HPM_DIR_OUT_OFFSET,
        HPM_DIR_CLR_OFFSET, HPM_IRQ_ENABLE_OFFSET, HPM_IRQ_DISABLE_OFFSET]
  · simp [store32, generic_handle_irq, PortRegs.store, u32_u32, HPM_IF_OFFSET,
      HPM_DO_OFFSET, HPM_SET_OFFSET, HPM_CLR_OFFSET, HPM_TOGGLE_OFFSET, HPM_DIR_OUT_OFFSET,
      HPM_DIR_CLR_OFFSET]

theorem hpm_do_irq_foldl_ifl (core : irq_core) :
    ∀ (l : List Nat) (port : hpm_gpio_port) (j : Nat), (∀ i ∈ l, i < 32) → j < 32 →
      (List.foldl (fun p i => hpm_do_irq_body core i p) port l).hw.ifl.testBit j
        = (port.hw.ifl.testBit j && !decide (j ∈ l)) := by
  intro l
  induction l with
  | nil => intro port j _ _; simp
  | cons i l ih =>
    intro port j hl hj
    have hi : i < 32 := hl i (List.mem_cons_self i l)
    rw [List.foldl_cons, ih _ j (fun k hk => hl k (List.mem_cons_of_mem i hk)) hj,
      hpm_do_irq_body_ifl, u32_one_shiftLeft hi, testBit_and_not32_two_pow _ _ _ hj]
    by_cases e : i = j
    · subst e; simp
    · have e2 : ¬ j = i := fun h => e h.symm
      simp [e, e2]

theorem hpm_do_irq_foldl_ifl_le (core : irq_core) :
    ∀ (l : List Nat) (port : hpm_gpio_port) (j : Nat),
      (List.foldl (fun p i => hpm_do_irq_body core i p) port l).hw.ifl.testBit j = true →
        port.hw.ifl.testBit j = true := by
  intro l
  induction l with
  | nil => intro port j h; exact h
  | cons i l ih =>
    intro port j h
    rw [List.foldl_cons] at h
    have := ih _ j h
    rw [hpm_do_irq_body_ifl, Nat.testBit_and] at this
    simp only [Bool.and_eq_true] at this
    exact this.1

theorem count_map_of_inj_at (f : Nat → Nat) (i : Nat) :
    ∀ l : List Nat, (∀ j ∈ l, f j = f i → j = i) → (l.map f).count (f i) = l.count i := by
  intro l
  induction l with
  | nil => intro _; rfl
  | cons a l ih =>
    intro h
    have hl : ∀ j ∈ l, f j = f i → j = i := fun j hj => h j (List.mem_cons_of_mem a hj)
    rw [List.map_cons, List.count_cons, List.count_cons, ih hl]
    by_cases e : a = i
    · subst e; simp
    · have e2 : ¬ f a = f i := fun hf => e (h a (List.mem_cons_self a l) hf)
      simp [e, e2]

theorem pending_filter_congr (w n : Nat) (hn : n ≤ 32) :
    (List.range n).filter (fun i => (u32 w).testBit i)
      = (List.range n).filter (fun i => w.testBit i) := by
  apply List.filter_congr
  intro i hi
  have : i < 32 := Nat.lt_of_lt_of_le (List.mem_range.mp hi) hn
  rw [testBit_u32]
  simp [this]

theorem hpm_do_irq_log (core : irq_core) (port : hpm_gpio_port) (hn : port.ngpio ≤ 32) :
    ∃ evs, (hpm_do_irq core port).2.log = port.log ++ evs ∧
      handled evs
        = ((List.range port.ngpio).filter (fun i => port.hw.ifl.testBit i)).map
            core.irq_find_mapping ∧
      stores_to HPM_IF_OFFSET evs
        = ((List.range port.ngpio).filter (fun i => port.hw.ifl.testBit i)).map
            (fun i => u32 (1 <<< i)) ∧
      loads_from HPM_IF_OFFSET evs = 1 := by
  obtain ⟨evs, h, a, b, c⟩ := hpm_do_irq_foldl_log core
    ((List.range port.ngpio).filter (fun i => (u32 port.hw.ifl).testBit i))
    (load32 HPM_IF_OFFSET port).2
  rw [pending_filter_congr _ _ hn] at h a b
  refine ⟨[Event.rd HPM_IF_OFFSET] ++ evs, ?_, ?_, ?_, ?_⟩
  · rw [hpm_do_irq_eq_foldl, pending_filter_congr _ _ hn, h]
    simp [load32]
  · rw [handled_append, a]; rfl
  · rw [stores_to_append, b]; rfl
  · rw [loads_from_append, c]; simp [loads_from]

/-- C5: in one service episode on a port of `n ≤ 32` lines, `hpm_do_irq`
loads the pending register exactly once (and returns that snapshot), and the
calls of `generic_handle_irq` it makes are exactly, in this order, the
interrupts mapped to the ascending list of the indices `i < n` whose bit is
set in the pending register; when the mapping is one-to-one on the lines of
the port, the handler of a line below `n` is therefore invoked once if its
bit is set and not at all otherwise. -/
theorem hpm_do_irq_handlers (core : irq_core) (port : hpm_gpio_port) (hn : port.ngpio ≤ 32) :
    (hpm_do_irq core port).1 = u32 port.hw.ifl ∧
    loads_from HPM_IF_OFFSET ((hpm_do_irq core port).2.log.drop port.log.length) = 1 ∧
    handled ((hpm_do_irq core port).2.log.drop port.log.length)
      = ((List.range port.ngpio).filter (fun i => port.hw.ifl.testBit i)).map
          core.irq_find_mapping ∧
    ((∀ i j, i < port.ngpio → j < port.ngpio →
        core.irq_find_mapping i = core.irq_find_mapping j → i = j) →
      ∀ i, i < port.ngpio →
        (handled ((hpm_do_irq core port).2.log.drop port.log.length)).count
            (core.irq_find_mapping i)
          = if port.hw.ifl.testBit i = true then 1 else 0) := by
  obtain ⟨evs, h, a, _, c⟩ := hpm_do_irq_log core port hn
  rw [h, List.drop_left]
  refine ⟨?_, c, a, ?_⟩
  · simp [hpm_do_irq, load32, PortRegs.load, HPM_IF_OFFSET, HPM_DI_OFFSET, HPM_DO_OFFSET]
  · intro hinj i hi
    rw [a, count_map_of_inj_at]
    · rw [List.count_eq_of_nodup ((List.nodup_range _).filter _)]
      simp [List.mem_filter, List.mem_range, hi]
    · intro j hj hf
      have hjn : j < port.ngpio := List.mem_range.mp (List.mem_filter.mp hj).1
      exact hinj j i hjn hi hf

/-- C5 at the pending value `0b101` on a port of 32 lines whose line `i` is
mapped to interrupt `64 + i`: the calls are for lines 0 and 2, in that order. -/
theorem hpm_do_irq_handlers_witness :
    handled ((hpm_do_irq (core_of 64 IRQ_TYPE_EDGE_RISING) (port_of 0 0 0b101 0 0 32)).2.log.drop
      (port_of 0 0 0b101 0 0 32).log.length) = [64, 66] :=
  (hpm_do_irq_handlers (core_of 64 IRQ_TYPE_EDGE_RISING) (port_of 0 0 0b101 0 0 32)
    (by decide)).2.2.1.trans (by decide)

theorem hpm_do_irq_ifl (core : irq_core) (port : hpm_gpio_port) (hn : port.ngpio ≤ 32)
    (j : Nat) (hj : j < 32) :
    (hpm_do_irq core port).2.hw.ifl.testBit j
      = (port.hw.ifl.testBit j && decide (port.ngpio ≤ j)) := by
  rw [hpm_do_irq_eq_foldl, pending_filter_congr _ _ hn, hpm_do_irq_foldl_ifl core _ _ j _ hj]
  · show (port.hw.ifl.testBit j && _) = _
    by_cases hb : port.hw.ifl.testBit j = true
    · by_cases hl : j < port.ngpio
      · have : ¬ port.ngpio ≤ j := Nat.not_le.mpr hl
        simp [List.mem_filter, List.mem_range, hb, hl, this]
      · have : port.ngpio ≤ j := Nat.le_of_not_lt hl
        simp [List.mem_filter, List.mem_range, hb, hl, this]
    · have hb2 : port.hw.ifl.testBit j = false := by simpa using hb
      simp [hb2]
  · intro i hi
    exact Nat.lt_of_lt_of_le (List.mem_range.mp (List.mem_filter.mp hi).1) hn

/-- C6, the claim fails: on a port of 16 lines whose pending register reads
`2 ^ 20`, bit 20 of the snapshot is set, yet `hpm_do_irq` stores nothing to
the pending register and the register still reads `2 ^ 20` afterwards. -/
theorem hpm_do_irq_acknowledge_counterexample :
    (port_of 0 0 (2 ^ 20) 0 0 16).hw.ifl.testBit 20 = true ∧
    stores_to HPM_IF_OFFSET
      (hpm_do_irq (core_of 64 IRQ_TYPE_EDGE_RISING) (port_of 0 0 (2 ^ 20) 0 0 16)).2.log = [] ∧
    (hpm_do_irq (core_of 64 IRQ_TYPE_EDGE_RISING) (port_of 0 0 (2 ^ 20) 0 0 16)).2.hw.ifl
      = 2 ^ 20 := by
  decide

/-- C6 as amended: on a port of `n ≤ 32` lines, every pending bit of the
snapshot below `n` is acknowledged, whatever the interrupt core maps the line
to (a line without a mapping included): the stores to the pending register
are exactly the single bits `2 ^ i` for the indices `i < n` set in the
snapshot, ascending; with write-1-to-clear and no new arrivals every pending
bit below `n` reads 0 afterwards, the bits from `n` up keep their value, and
the register reads 0 when the snapshot has no bit at or above `n`. -/
theorem hpm_do_irq_acknowledge (core : irq_core) (port : hpm_gpio_port)
    (hn : port.ngpio ≤ 32) :
    stores_to HPM_IF_OFFSET ((hpm_do_irq core port).2.log.drop port.log.length)
      = ((List.range port.ngpio).filter (fun i => port.hw.ifl.testBit i)).map (fun i => 2 ^ i) ∧
    (∀ i, i < port.ngpio → port.hw.ifl.testBit i = true →
      2 ^ i ∈ stores_to HPM_IF_OFFSET ((hpm_do_irq core port).2.log.drop port.log.length)) ∧
    (∀ i, i < port.ngpio → (hpm_do_irq core port).2.hw.ifl.testBit i = false) ∧
    (∀ i, port.ngpio ≤ i → i < 32 →
      (hpm_do_irq core port).2.hw.ifl.testBit i = port.hw.ifl.testBit i) ∧
    ((∀ i, port.ngpio ≤ i → port.hw.ifl.testBit i = false) →
      (hpm_do_irq core port).2.hw.ifl = 0) := by
  obtain ⟨evs, h, _, b, _⟩ := hpm_do_irq_log core port hn
  have hst : stores_to HPM_IF_OFFSET evs
      = ((List.range port.ngpio).filter (fun i => port.hw.ifl.testBit i)).map
          (fun i => 2 ^ i) := by
    rw [b]
    apply List.map_congr_left
    intro i hi
    have : i < 32 := Nat.lt_of_lt_of_le (List.mem_range.mp (List.mem_filter.mp hi).1) hn
    exact u32_one_shiftLeft this
  rw [h, List.drop_left]
  refine ⟨hst, ?_, ?_, ?_, ?_⟩
  · intro i hi hb
    rw [hst]
    exact List.mem_map.mpr ⟨i, List.mem_filter.mpr ⟨List.mem_range.mpr hi, hb⟩, rfl⟩
  · intro i hi
    have : ¬ port.ngpio ≤ i := Nat.not_le.mpr hi
    rw [hpm_do_irq_ifl core port hn i (Nat.lt_of_lt_of_le hi hn)]
    simp [this]
  · intro i hi h32
    rw [hpm_do_irq_ifl core port hn i h32]
    simp [hi]
  · intro hz
    apply Nat.eq_of_testBit_eq
    intro i
    rw [Nat.zero_testBit]
    by_cases h32 : i < 32
    · rw [hpm_do_irq_ifl core port hn i h32]
      by_cases hi : port.ngpio ≤ i
      · simp [hz i hi]
      · simp [hi]
    · have hi : port.ngpio ≤ i := Nat.le_trans hn (Nat.le_of_not_lt h32)
      cases hb : (hpm_do_irq core port).2.hw.ifl.testBit i
      · rfl
      · rw [hpm_do_irq_eq_foldl] at hb
        have := hpm_do_irq_foldl_ifl_le core _ _ i hb
        have h0 := hz i hi
        rw [show (load32 HPM_IF_OFFSET port).2.hw = port.hw from rfl, h0] at this
        exact Bool.noConfusion this

/-- C6 as amended, at the pending value `0b101` on a port of 16 lines none of
which has a mapping: the single bits 1 and 4 are stored to the pending
register. -/
theorem hpm_do_irq_acknowledge_witness :
    stores_to HPM_IF_OFFSET
      ((hpm_do_irq { irq_find_mapping := fun _ => 0, irq_get_trigger_type := fun _ => 0 }
        (port_of 0 0 0b101 0 0 16)).2.log.drop (port_of 0 0 0b101 0 0 16).log.length)
      = [1, 4] :=
  (hpm_do_irq_acknowledge { irq_find_mapping := fun _ => 0, irq_get_trigger_type := fun _ => 0 }
    (port_of 0 0 0b101 0 0 16) (by decide)).1.trans (by decide)

/-! ## Edge-both emulation -/

theorem and_two_pow_eq_zero_iff (x b : Nat) : x &&& 2 ^ b = 0 ↔ x.testBit b = false := by
  rw [Nat.and_two_pow]
  have hp : 0 < 2 ^ b := Nat.two_pow_pos b
  cases h : x.testBit b
  · simp
  · simp only [Bool.toNat_true, Nat.one_mul]
    constructor
    · intro h0; omega
    · intro h0; exact Bool.noConfusion h0

theorem two_pow_and_not32_self (b : Nat) (hb : b < 32) : 2 ^ b &&& not32 (2 ^ b) = 0 := by
  apply Nat.eq_of_testBit_eq
  intro i
  rw [Nat.testBit_and, testBit_not32, Nat.testBit_two_pow, Nat.zero_testBit]
  by_cases e : b = i
  · subst e; simp [hb]
  · simp [e]

theorem hpm_toggle_trigger_hw (offs : Nat) (port : hpm_gpio_port) (h : offs < 32) :
    (hpm_toggle_trigger offs port).hw
      = { port.hw with
          tp := port.hw.tp ||| 2 ^ offs,
          pl := if port.hw.pl.testBit offs = true then port.hw.pl &&& not32 (2 ^ offs)
                else port.hw.pl ||| 2 ^ offs } := by
  have hlt : (2 : Nat) ^ offs < 2 ^ 32 := Nat.pow_lt_pow_right (by decide) h
  have hb : u32 (1 <<< offs) = 2 ^ offs := u32_one_shiftLeft h
  have hload : (load32 HPM_INT_POLARITY_VAL port).1 = u32 port.hw.pl := by
    simp [load32, PortRegs.load, HPM_INT_POLARITY_VAL, HPM_DI_OFFSET, HPM_DO_OFFSET,
      HPM_IF_OFFSET]
  have hcond : ((load32 HPM_INT_POLARITY_VAL port).1 &&& u32 (1 <<< offs) ≠ 0)
      ↔ port.hw.pl.testBit offs = true := by
    rw [hload, hb, Ne, and_two_pow_eq_zero_iff, testBit_u32]
    simp [h]
  dsimp only [hpm_toggle_trigger]
  by_cases hp : port.hw.pl.testBit offs = true
  · rw [if_pos (hcond.mpr hp), if_pos hp]
    simp [store32, load32, hb, u32_of_lt hlt, PortRegs.store, HPM_INT_POLARITY_CLR,
      HPM_INT_POLARITY_SET, HPM_INIT_TYPE_LEVEL_SET_OFFSET,
      HPM_DO_OFFSET, HPM_SET_OFFSET, HPM_CLR_OFFSET, HPM_TOGGLE_OFFSET, HPM_DIR_OUT_OFFSET,
      HPM_DIR_CLR_OFFSET, HPM_IF_OFFSET, HPM_IRQ_ENABLE_OFFSET, HPM_IRQ_DISABLE_OFFSET]
  · rw [if_neg (fun hc => hp (hcond.mp hc)), if_neg hp]
    simp [store32, load32, hb, u32_of_lt hlt, PortRegs.store, HPM_INT_POLARITY_CLR,
      HPM_INT_POLARITY_SET, HPM_INIT_TYPE_LEVEL_SET_OFFSET,
      HPM_DO_OFFSET, HPM_SET_OFFSET, HPM_CLR_OFFSET, HPM_TOGGLE_OFFSET, HPM_DIR_OUT_OFFSET,
      HPM_DIR_CLR_OFFSET, HPM_IF_OFFSET, HPM_IRQ_ENABLE_OFFSET, HPM_IRQ_DISABLE_OFFSET]

theorem filter_range_two_pow (n bit : Nat) (h : bit < n) :
    (List.range n).filter (fun i => (2 ^ bit).testBit i) = [bit] := by
  induction n with
  | zero => exact absurd h (Nat.not_lt_zero _)
  | succ n ih =>
    rw [List.range_succ, List.filter_append]
    by_cases hb : bit < n
    · have hne : ¬ bit = n := Nat.ne_of_lt hb
      rw [ih hb]
      simp [Nat.testBit_two_pow, hne]
    · have e : bit = n := by omega
      subst e
      have hnil : (List.range bit).filter (fun i => (2 ^ bit).testBit i) = [] := by
        rw [List.filter_eq_nil_iff]
        intro a ha
        have : a < bit := List.mem_range.mp ha
        have hne : ¬ bit = a := by omega
        simp [Nat.testBit_two_pow, hne]
      rw [hnil]
      simp [Nat.testBit_two_pow]

theorem hpm_do_irq_single (core : irq_core) (bit : Nat) (port : hpm_gpio_port)
    (hbit : bit < port.ngpio) (hn : port.ngpio ≤ 32) (hifl : port.hw.ifl = 2 ^ bit) :
    (hpm_do_irq core port).2 = hpm_do_irq_body core bit (load32 HPM_IF_OFFSET port).2 := by
  rw [hpm_do_irq_eq_foldl, pending_filter_congr _ _ hn, hifl, filter_range_two_pow _ _ hbit]
  rfl

theorem hpm_do_irq_body_ngpio (core : irq_core) (i : Nat) (port : hpm_gpio_port) :
    (hpm_do_irq_body core i port).ngpio = port.ngpio := by
  dsimp only [hpm_do_irq_body]
  split
  · dsimp only [hpm_toggle_trigger]
    split <;> rfl
  · rfl

theorem hpm_do_irq_body_edge_both (core : irq_core) (bit : Nat) (port : hpm_gpio_port)
    (hcore : core.irq_get_trigger_type (core.irq_find_mapping bit) &&& IRQ_TYPE_SENSE_MASK
      = IRQ_TYPE_EDGE_BOTH) (h32 : bit < 32) :
    (hpm_do_irq_body core bit port).hw
      = { port.hw with
          ifl := port.hw.ifl &&& not32 (2 ^ bit),
          tp := port.hw.tp ||| 2 ^ bit,
          pl := if port.hw.pl.testBit bit = true then port.hw.pl &&& not32 (2 ^ bit)
                else port.hw.pl ||| 2 ^ bit } := by
  have hlt : (2 : Nat) ^ bit < 2 ^ 32 := Nat.pow_lt_pow_right (by decide) h32
  dsimp only [hpm_do_irq_body]
  rw [if_pos hcore, hpm_toggle_trigger_hw _ _ h32]
  simp [store32, generic_handle_irq, PortRegs.store, u32_one_shiftLeft h32, u32_of_lt hlt,
    HPM_DO_OFFSET, HPM_SET_OFFSET, HPM_CLR_OFFSET, HPM_TOGGLE_OFFSET, HPM_DIR_OUT_OFFSET,
    HPM_DIR_CLR_OFFSET, HPM_IF_OFFSET]

/-- A line whose polarity bit agrees with its level (1 while high, 0 while low)
fires at its next transition, is served once, and agrees again afterwards. -/
theorem transition_and_service_armed (core : irq_core) (bit : Nat) (level : Bool)
    (port : hpm_gpio_port)
    (hcore : core.irq_get_trigger_type (core.irq_find_mapping bit) &&& IRQ_TYPE_SENSE_MASK
      = IRQ_TYPE_EDGE_BOTH)
    (hbit : bit < port.ngpio) (hn : port.ngpio ≤ 32) (hifl : port.hw.ifl = 0)
    (htp : port.hw.tp.testBit bit = true) (hpl : port.hw.pl.testBit bit = level) :
    (transition_and_service core bit (!level) port).ngpio = port.ngpio ∧
    (transition_and_service core bit (!level) port).hw.ifl = 0 ∧
    (transition_and_service core bit (!level) port).hw.tp.testBit bit = true ∧
    (transition_and_service core bit (!level) port).hw.pl.testBit bit = (!level) ∧
    ∃ evs, (transition_and_service core bit (!level) port).log = port.log ++ evs ∧
      handled evs = [core.irq_find_mapping bit] := by
  have h32 : bit < 32 := Nat.lt_of_lt_of_le hbit hn
  have hlt : (2 : Nat) ^ bit < 2 ^ 32 := Nat.pow_lt_pow_right (by decide) h32
  have hne : (2 : Nat) ^ bit ≠ 0 := Nat.ne_of_gt (Nat.two_pow_pos bit)
  have hfire : (port.hw.tp.testBit bit && (port.hw.pl.testBit bit != !level)) = true := by
    rw [htp, hpl]; cases level <;> rfl
  have hif1 : (edge_transition bit (!level) port.hw).ifl = 2 ^ bit := by
    simp only [edge_transition, hfire, if_true, hifl, Nat.zero_or]
  have htp1 : (edge_transition bit (!level) port.hw).tp = port.hw.tp := by
    simp only [edge_transition, hfire, if_true]
  have hpl1 : (edge_transition bit (!level) port.hw).pl = port.hw.pl := by
    simp only [edge_transition, hfire, if_true]
  have hload : PortRegs.load (edge_transition bit (!level) port.hw) HPM_IF_OFFSET ≠ 0 := by
    simp [PortRegs.load, HPM_IF_OFFSET, HPM_DI_OFFSET, HPM_DO_OFFSET, hif1, u32_of_lt hlt]
  have hrun : transition_and_service core bit (!level) port
      = hpm_do_irq_body core bit
          (load32 HPM_IF_OFFSET { port with hw := edge_transition bit (!level) port.hw }).2 := by
    dsimp only [transition_and_service]
    rw [if_pos hload]
    exact hpm_do_irq_single core bit _ hbit hn hif1
  rw [hrun]
  refine ⟨?_, ?_, ?_, ?_, ?_⟩
  · rw [hpm_do_irq_body_ngpio]; rfl
  · rw [hpm_do_irq_body_edge_both core bit _ hcore h32]
    show (edge_transition bit (!level) port.hw).ifl &&& not32 (2 ^ bit) = 0
    rw [hif1, two_pow_and_not32_self bit h32]
  · rw [hpm_do_irq_body_edge_both core bit _ hcore h32]
    show ((edge_transition bit (!level) port.hw).tp ||| 2 ^ bit).testBit bit = true
    rw [testBit_or_two_pow]; simp
  · rw [hpm_do_irq_body_edge_both core bit _ hcore h32]
    show (if (edge_transition bit (!level) port.hw).pl.testBit bit = true
          then (edge_transition bit (!level) port.hw).pl &&& not32 (2 ^ bit)
          else (edge_transition bit (!level) port.hw).pl ||| 2 ^ bit).testBit bit = (!level)
    rw [hpl1, hpl]
    cases level
    · simp [testBit_or_two_pow]
    · simp [testBit_and_not32_two_pow _ _ _ h32]
  · obtain ⟨evs, hlog, hh, _, _⟩ := hpm_do_irq_body_log core bit
      (load32 HPM_IF_OFFSET { port with hw := edge_transition bit (!level) port.hw }).2
    refine ⟨[Event.rd HPM_IF_OFFSET] ++ evs, ?_, ?_⟩
    · rw [hlog]; simp [load32]
    · rw [handled_append, hh]; rfl

/-- An armed line makes `n` alternating transitions: its handler runs `n` times. -/
theorem run_transitions_armed (core : irq_core) (bit : Nat)
    (hcore : core.irq_get_trigger_type (core.irq_find_mapping bit) &&& IRQ_TYPE_SENSE_MASK
      = IRQ_TYPE_EDGE_BOTH) :
    ∀ (n : Nat) (level : Bool) (port : hpm_gpio_port),
      bit < port.ngpio → port.ngpio ≤ 32 → port.hw.ifl = 0 →
      port.hw.tp.testBit bit = true → port.hw.pl.testBit bit = level →
      ∃ evs, (run_transitions core bit n level port).log = port.log ++ evs ∧
        handled evs = List.replicate n (core.irq_find_mapping bit) := by
  intro n
  induction n with
  | zero => intro level port _ _ _ _ _; exact ⟨[], by simp [run_transitions], rfl⟩
  | succ n ih =>
    intro level port hbit hn hifl htp hpl
    obtain ⟨hng, hi, ht, hp, e1, hl1, hh1⟩ :=
      transition_and_service_armed core bit level port hcore hbit hn hifl htp hpl
    obtain ⟨e2, hl2, hh2⟩ := ih (!level) (transition_and_service core bit (!level) port)
      (by rw [hng]; exact hbit) (by rw [hng]; exact hn) hi ht hp
    refine ⟨e1 ++ e2, ?_, ?_⟩
    · show (run_transitions core bit n (!level)
        (transition_and_service core bit (!level) port)).log = _
      rw [hl2, hl1, List.append_assoc]
    · rw [handled_append, hh1, hh2]; rfl

/-- A line that is low while its polarity bit selects falling edges does not
fire at its rising transition: only the input bit changes. -/
theorem transition_and_service_unarmed (core : irq_core) (bit : Nat) (port : hpm_gpio_port)
    (hifl : port.hw.ifl = 0) (hpl : port.hw.pl.testBit bit = true) :
    transition_and_service core bit true port
      = { port with hw := { port.hw with di := port.hw.di ||| 2 ^ bit } } := by
  have hcond : (port.hw.tp.testBit bit && (port.hw.pl.testBit bit != true)) = false := by
    rw [hpl]; simp
  have het : edge_transition bit true port.hw = { port.hw with di := port.hw.di ||| 2 ^ bit } := by
    simp only [edge_transition, hcond, if_true]
    rfl
  dsimp only [transition_and_service]
  rw [het]
  have hload : PortRegs.load { port.hw with di := port.hw.di ||| 2 ^ bit } HPM_IF_OFFSET = 0 := by
    simp [PortRegs.load, HPM_IF_OFFSET, HPM_DI_OFFSET, HPM_DO_OFFSET, hifl, u32]
  rw [if_neg (fun h => h hload)]

theorem hpm_gpio_irq_set_type_edge_both (bit : Nat) (port : hpm_gpio_port) (h32 : bit < 32) :
    (hpm_gpio_irq_set_type bit IRQ_TYPE_EDGE_BOTH port).2.2.ngpio = port.ngpio ∧
    (hpm_gpio_irq_set_type bit IRQ_TYPE_EDGE_BOTH port).2.2.hw
      = { port.hw with pl := port.hw.pl ||| 2 ^ bit, tp := port.hw.tp ||| 2 ^ bit } ∧
    (hpm_gpio_irq_set_type bit IRQ_TYPE_EDGE_BOTH port).2.2.log
      = port.log ++ [Event.wr HPM_INIT_TYPE_LEVEL_SET_OFFSET (2 ^ bit),
          Event.wr HPM_INT_POLARITY_SET (2 ^ bit)] := by
  have hlt : (2 : Nat) ^ bit < 2 ^ 32 := Nat.pow_lt_pow_right (by decide) h32
  have hregs : (hpm_gpio_irq_set_type bit IRQ_TYPE_EDGE_BOTH port).2.2
      = store32 HPM_INT_POLARITY_SET (BIT bit)
          (store32 HPM_INIT_TYPE_LEVEL_SET_OFFSET (BIT bit) port) := rfl
  refine ⟨?_, ?_, ?_⟩
  · rw [hregs]; rfl
  · rw [hregs, set_type_regs_edge_set bit port h32]
  · rw [hregs]
    simp [store32, BIT_eq h32, u32_of_lt hlt]

/-- C7, the claim fails: on a line that is low when it is configured for
edge_both, the first transition (a rising one) does not fire, so after one
transition the handler has not been invoked at all. -/
theorem edge_both_episode_counterexample :
    (handled (edge_both_episode (core_of 64 IRQ_TYPE_EDGE_BOTH) 3 1 false
      (port_of 0 0 0 0 0 32)).log).count 67 = 0 := by
  decide

/-- C7 as amended: a line `bit` of a port of at most 32 lines with no
interrupt pending is configured for edge_both (which the interrupt core
reports as the line's trigger kind from then on) and then makes `n`
alternating transitions, each firing serviced by `hpm_do_irq` before the next
transition. When the line is high at configuration time its handler is
invoked exactly `n` times, and nothing else is handled; when it is low, the
first (rising) transition does not fire and the handler is invoked `n - 1`
times. -/
theorem edge_both_episode_fires (core : irq_core) (bit n : Nat) (level : Bool)
    (port : hpm_gpio_port)
    (hcore : core.irq_get_trigger_type (core.irq_find_mapping bit) &&& IRQ_TYPE_SENSE_MASK
      = IRQ_TYPE_EDGE_BOTH)
    (hbit : bit < port.ngpio) (hn : port.ngpio ≤ 32) (hidle : port.hw.ifl = 0) :
    handled ((edge_both_episode core bit n level port).log.drop port.log.length)
      = List.replicate (if level = true then n else n - 1) (core.irq_find_mapping bit) ∧
    (handled ((edge_both_episode core bit n level port).log.drop port.log.length)).count
        (core.irq_find_mapping bit)
      = if level = true then n else n - 1 := by
  have h32 : bit < 32 := Nat.lt_of_lt_of_le hbit hn
  obtain ⟨hng, hhw, hlog⟩ := hpm_gpio_irq_set_type_edge_both bit port h32
  have hifl : (hpm_gpio_irq_set_type bit IRQ_TYPE_EDGE_BOTH port).2.2.hw.ifl = 0 := by
    rw [hhw]; exact hidle
  have htp : (hpm_gpio_irq_set_type bit IRQ_TYPE_EDGE_BOTH port).2.2.hw.tp.testBit bit
      = true := by
    rw [hhw]
    show (port.hw.tp ||| 2 ^ bit).testBit bit = true
    rw [testBit_or_two_pow]; simp
  have hpl : (hpm_gpio_irq_set_type bit IRQ_TYPE_EDGE_BOTH port).2.2.hw.pl.testBit bit
      = true := by
    rw [hhw]
    show (port.hw.pl ||| 2 ^ bit).testBit bit = true
    rw [testBit_or_two_pow]; simp
  have key : handled ((edge_both_episode core bit n level port).log.drop port.log.length)
      = List.replicate (if level = true then n else n - 1) (core.irq_find_mapping bit) := by
    cases level
    · cases n with
      | zero =>
        show handled ((hpm_gpio_irq_set_type bit IRQ_TYPE_EDGE_BOTH port).2.2.log.drop _) = _
        rw [hlog, List.drop_left]
        rfl
      | succ k =>
        show handled ((run_transitions core bit k true
          (transition_and_service core bit true
            (hpm_gpio_irq_set_type bit IRQ_TYPE_EDGE_BOTH port).2.2)).log.drop _) = _
        rw [transition_and_service_unarmed core bit _ hifl hpl]
        obtain ⟨evs, hl, hh⟩ := run_transitions_armed core bit hcore k true
          { (hpm_gpio_irq_set_type bit IRQ_TYPE_EDGE_BOTH port).2.2 with
            hw := { (hpm_gpio_irq_set_type bit IRQ_TYPE_EDGE_BOTH port).2.2.hw with
              di := (hpm_gpio_irq_set_type bit IRQ_TYPE_EDGE_BOTH port).2.2.hw.di ||| 2 ^ bit } }
          (by rw [← hng] at hbit; exact hbit) (by rw [← hng] at hn; exact hn) hifl htp hpl
        rw [hl]
        show handled (((hpm_gpio_irq_set_type bit IRQ_TYPE_EDGE_BOTH port).2.2.log ++ evs).drop _)
          = _
        rw [hlog, List.append_assoc, List.drop_left, handled_append, hh]
        simp [handled]
    · obtain ⟨evs, hl, hh⟩ := run_transitions_armed core bit hcore n true
        (hpm_gpio_irq_set_type bit IRQ_TYPE_EDGE_BOTH port).2.2
        (by rw [hng]; exact hbit) (by rw [hng]; exact hn) hifl htp hpl
      show handled ((run_transitions core bit n true
        (hpm_gpio_irq_set_type bit IRQ_TYPE_EDGE_BOTH port).2.2).log.drop _) = _
      rw [hl, hlog, List.append_assoc, List.drop_left, handled_append, hh]
      simp [handled]
  exact ⟨key, by rw [key, List.count_replicate_self]⟩

/-- C7 as amended, on line 3 of an idle port of 32 lines that is high when it
is configured: four alternating transitions invoke the handler four times. -/
theorem edge_both_episode_fires_witness :
    (handled ((edge_both_episode (core_of 64 IRQ_TYPE_EDGE_BOTH) 3 4 true
      (port_of 8 0 0 0 0 32)).log.drop (port_of 8 0 0 0 0 32).log.length)).count 67 = 4 :=
  (edge_both_episode_fires (core_of 64 IRQ_TYPE_EDGE_BOTH) 3 4 true (port_of 8 0 0 0 0 32)
    (by decide) (by decide) (by decide) (by decide)).2

/-! ## Mux application -/

theorem hpmicro_set_mux_loop_eq_foldl (pinmux : List Nat) :
    ∀ (count i : Nat) (sfp : hpmicro_pinctrl), i + count = pinmux.length →
      hpmicro_set_mux_loop pinmux count i sfp
        = some (List.foldl (fun s v => hpmicro_set_mux_body v s) sfp (pinmux.drop i)) := by
  intro count
  induction count with
  | zero =>
    intro i sfp h
    have : pinmux.drop i = [] := List.drop_eq_nil_of_le (by omega)
    simp [hpmicro_set_mux_loop, this]
  | succ count ih =>
    intro i sfp h
    have hi : i < pinmux.length := by omega
    have hd : pinmux.drop i = pinmux[i] :: pinmux.drop (i + 1) := List.drop_eq_getElem_cons hi
    have hg : pinmux.get? i = some pinmux[i] := List.get?_eq_get hi
    simp only [hpmicro_set_mux_loop, hg]
    rw [ih (i + 1) _ (by omega), hd, List.foldl_cons]

theorem hpmicro_set_mux_body_regs (v : Nat) (sfp : hpmicro_pinctrl) (a : Nat) :
    (hpmicro_set_mux_body v sfp).regs a
      = if a = ioc_addr HPM_IOC_FUNC_OFFSET (hpmicro_pinmux_to_gpio v)
        then u32 (hpmicro_pinmux_to_func v) else sfp.regs a := rfl

theorem hpmicro_set_mux_foldl_frame (a : Nat) :
    ∀ (l : List Nat) (sfp : hpmicro_pinctrl),
      (∀ w ∈ l, ioc_addr HPM_IOC_FUNC_OFFSET (hpmicro_pinmux_to_gpio w) ≠ a) →
      (List.foldl (fun s v => hpmicro_set_mux_body v s) sfp l).regs a = sfp.regs a := by
  intro l
  induction l with
  | nil => intro sfp _; rfl
  | cons w l ih =>
    intro sfp h
    rw [List.foldl_cons, ih _ (fun x hx => h x (List.mem_cons_of_mem w hx)),
      hpmicro_set_mux_body_regs]
    have : ¬ a = ioc_addr HPM_IOC_FUNC_OFFSET (hpmicro_pinmux_to_gpio w) :=
      fun e => h w (List.mem_cons_self w l) e.symm
    rw [if_neg this]

theorem hpmicro_pinmux_to_gpio_lt (v : Nat) : hpmicro_pinmux_to_gpio v < 4096 :=
  Nat.and_lt_two_pow v (show 0xFFF < 2 ^ 12 by decide)

theorem hpmicro_pinmux_to_func_lt (v : Nat) : hpmicro_pinmux_to_func v < 32 :=
  Nat.and_lt_two_pow _ (show 0x1F < 2 ^ 5 by decide)

theorem func_addr_of_lt {p : Nat} (h : p < 2 ^ 29) : ioc_addr HPM_IOC_FUNC_OFFSET p = 8 * p := by
  unfold ioc_addr HPM_IOC_FUNC_OFFSET u32
  rw [Nat.zero_add]
  exact Nat.mod_eq_of_lt (by omega)

theorem func_addr_ne_pad_addr (g p : Nat) :
    ioc_addr HPM_IOC_FUNC_OFFSET g ≠ ioc_addr HPM_IOC_PAD_OFFSET p := by
  unfold ioc_addr HPM_IOC_FUNC_OFFSET HPM_IOC_PAD_OFFSET u32
  omega

/-- C8: for a group of the table whose `pinmux` data has one entry per pin,
`hpmicro_set_mux` returns 0 and afterwards the mux register of a pin `p`
holds the function code `(v >> 25) AND 0x1F` of the last entry `v` of the
data with `(v AND 0xFFF) = p`, and is unchanged when no entry names `p`; no
pad-config register changes. (`p < 2 ^ 29`: the pins whose register offset
`8 * p` does not wrap in `unsigned int`.) -/
theorem hpmicro_set_mux_spec (groups : List group_desc) (fsel gsel : Nat) (group : group_desc)
    (sfp : hpmicro_pinctrl) (hg : groups.get? gsel = some group)
    (hlen : group.data.length = group.pins.length) :
    ∃ sfp1, hpmicro_set_mux groups fsel gsel sfp = some (0, sfp1) ∧
      (∀ p pre v post, p < 2 ^ 29 → group.data = pre ++ v :: post →
        hpmicro_pinmux_to_gpio v = p → (∀ w ∈ post, hpmicro_pinmux_to_gpio w ≠ p) →
        hpmicro_func_get sfp1 p = hpmicro_pinmux_to_func v) ∧
      (∀ p, p < 2 ^ 29 → (∀ w ∈ group.data, hpmicro_pinmux_to_gpio w ≠ p) →
        hpmicro_func_get sfp1 p = hpmicro_func_get sfp p) ∧
      (∀ p, hpmicro_padctl_get sfp1 p = hpmicro_padctl_get sfp p) := by
  have hloop := hpmicro_set_mux_loop_eq_foldl group.data group.pins.length 0 sfp
    (by rw [Nat.zero_add, hlen])
  rw [List.drop_zero] at hloop
  have hne : ∀ p w, p < 2 ^ 29 → hpmicro_pinmux_to_gpio w ≠ p →
      ioc_addr HPM_IOC_FUNC_OFFSET (hpmicro_pinmux_to_gpio w) ≠ ioc_addr HPM_IOC_FUNC_OFFSET p := by
    intro p w hp hw
    have hw12 := hpmicro_pinmux_to_gpio_lt w
    rw [func_addr_of_lt hp, func_addr_of_lt (Nat.lt_trans hw12 (by decide))]
    omega
  refine ⟨List.foldl (fun s v => hpmicro_set_mux_body v s) sfp group.data, ?_, ?_, ?_, ?_⟩
  · simp only [hpmicro_set_mux, hg, hloop]
  · intro p pre v post hp hd hv hpost
    unfold hpmicro_func_get
    rw [hd, List.foldl_append, List.foldl_cons,
      hpmicro_set_mux_foldl_frame _ post _ (fun w hw => hne p w hp (hpost w hw)),
      hpmicro_set_mux_body_regs, hv, if_pos rfl, u32_u32]
    exact u32_of_lt (Nat.lt_trans (hpmicro_pinmux_to_func_lt v) (by decide))
  · intro p hp hall
    unfold hpmicro_func_get
    rw [hpmicro_set_mux_foldl_frame _ group.data _ (fun w hw => hne p w hp (hall w hw))]
  · intro p
    unfold hpmicro_padctl_get
    rw [hpmicro_set_mux_foldl_frame _ group.data _ (fun w _ => func_addr_ne_pad_addr _ p)]

/-- C8 on the group with pins `[4, 5]` and function codes `[2, 3]`: afterwards
the mux register of pin 4 holds 2 and that of pin 5 holds 3. -/
theorem hpmicro_set_mux_spec_witness :
    ∃ sfp1, hpmicro_set_mux [{ pins := [4, 5], data := [ALTSELECT 4 2, ALTSELECT 5 3] }] 0 0
        (pinctrl_of 0) = some (0, sfp1) ∧
      hpmicro_func_get sfp1 4 = 2 ∧ hpmicro_func_get sfp1 5 = 3 := by
  obtain ⟨sfp1, h, hlast, _, _⟩ := hpmicro_set_mux_spec
    [{ pins := [4, 5], data := [ALTSELECT 4 2, ALTSELECT 5 3] }] 0 0
    { pins := [4, 5], data := [ALTSELECT 4 2, ALTSELECT 5 3] } (pinctrl_of 0) rfl rfl
  exact ⟨sfp1, h,
    hlast 4 [] (ALTSELECT 4 2) [ALTSELECT 5 3] (by decide) rfl (by decide) (by decide),
    hlast 5 [ALTSELECT 4 2] (ALTSELECT 5 3) [] (by decide) rfl (by decide) (by decide)⟩

/-! ## The packed mux word -/

theorem testBit_low_mask (x n i : Nat) :
    (x &&& (2 ^ n - 1)).testBit i = (x.testBit i && decide (i < n)) := by
  rw [Nat.testBit_and, Nat.testBit_two_pow_sub_one]

theorem testBit_ALTSELECT (index alt i : Nat) :
    (ALTSELECT index alt).testBit i
      = ((index.testBit i && decide (i < 12)) ||
          (decide (25 ≤ i) && (alt.testBit (i - 25) && decide (i - 25 < 5)))) := by
  have e12 : (0xFFF : Nat) = 2 ^ 12 - 1 := by decide
  have e5 : (0x1F : Nat) = 2 ^ 5 - 1 := by decide
  unfold ALTSELECT
  rw [e12, e5, Nat.testBit_or, Nat.testBit_shiftLeft, testBit_low_mask, testBit_low_mask]

theorem testBit_eq_false_of_lt {x n i : Nat} (hx : x < 2 ^ n) (hi : n ≤ i) :
    x.testBit i = false := by
  cases h : x.testBit i
  · rfl
  · exact absurd (testBit_lt_of_lt hx h) (Nat.not_lt.mpr hi)

/-- C9: decoding undoes the `ALTSELECT` packing: for every pin index below
4096 and every function code below 32, `hpmicro_pinmux_to_gpio` gives back
the index and `hpmicro_pinmux_to_func` the function code; the packed value
is a 32-bit word with the index in bits 11-0, the function code in bits
29-25 and every other bit clear. -/
theorem ALTSELECT_decode (index alt : Nat) (hi : index < 4096) (ha : alt < 32) :
    hpmicro_pinmux_to_gpio (ALTSELECT index alt) = index ∧
    hpmicro_pinmux_to_func (ALTSELECT index alt) = alt ∧
    ALTSELECT index alt < 2 ^ 32 ∧
    (∀ i, (ALTSELECT index alt).testBit i
      = if i < 12 then index.testBit i
        else if 25 ≤ i ∧ i < 30 then alt.testBit (i - 25) else false) := by
  have e12 : (0xFFF : Nat) = 2 ^ 12 - 1 := by decide
  have e5 : (0x1F : Nat) = 2 ^ 5 - 1 := by decide
  have hi12 : index < 2 ^ 12 := hi
  have ha5 : alt < 2 ^ 5 := ha
  have hbits : ∀ i, (ALTSELECT index alt).testBit i
      = if i < 12 then index.testBit i
        else if 25 ≤ i ∧ i < 30 then alt.testBit (i - 25) else false := by
    intro i
    rw [testBit_ALTSELECT]
    by_cases h1 : i < 12
    · have : ¬ 25 ≤ i := by omega
      simp [h1, this]
    · by_cases h2 : 25 ≤ i
      · by_cases h3 : i < 30
        · have : i - 25 < 5 := by omega
          simp [h1, h2, h3, this]
        · have : ¬ i - 25 < 5 := by omega
          simp [h1, h2, h3, this]
      · simp [h1, h2]
  refine ⟨?_, ?_, ?_, hbits⟩
  · apply Nat.eq_of_testBit_eq
    intro i
    unfold hpmicro_pinmux_to_gpio
    rw [e12, testBit_low_mask, hbits]
    by_cases h1 : i < 12
    · simp [h1]
    · simp [h1, testBit_eq_false_of_lt hi12 (Nat.le_of_not_lt h1)]
  · apply Nat.eq_of_testBit_eq
    intro i
    unfold hpmicro_pinmux_to_func
    rw [e5, testBit_low_mask, Nat.testBit_shiftRight, hbits]
    have h1 : ¬ 25 + i < 12 := by omega
    have h2 : 25 ≤ 25 + i := by omega
    by_cases h3 : i < 5
    · have h4 : 25 + i < 30 := by omega
      simp [h1, h3, h4]
    · have h4 : ¬ 25 + i < 30 := by omega
      simp [h1, h3, h4, testBit_eq_false_of_lt ha5 (Nat.le_of_not_lt h3)]
  · apply Nat.lt_pow_two_of_testBit
    intro i h32
    rw [hbits]
    have h1 : ¬ i < 12 := by omega
    have h2 : ¬ i < 30 := by omega
    simp [h1, h2]

/-- C9 at pin index 37 (`PB5`) and function code 19. -/
theorem ALTSELECT_decode_witness :
    hpmicro_pinmux_to_gpio (ALTSELECT (PIN_INDEX_PB 5) 19) = 37 ∧
    hpmicro_pinmux_to_func (ALTSELECT (PIN_INDEX_PB 5) 19) = 19 :=
  ⟨(ALTSELECT_decode (PIN_INDEX_PB 5) 19 (by decide) (by decide)).1,
   (ALTSELECT_decode (PIN_INDEX_PB 5) 19 (by decide) (by decide)).2.1⟩

/-! ## Pad configuration -/

theorem not32_lt (x : Nat) : not32 x < 2 ^ 32 := by
  unfold not32
  have : 0 < 2 ^ 32 := Nat.two_pow_pos 32
  omega

theorem hpmicro_padctl_rmw_get (pin mask value : Nat) (sfp : hpmicro_pinctrl) :
    hpmicro_padctl_get (hpmicro_padctl_rmw pin mask value sfp) pin
      = (hpmicro_padctl_get sfp pin &&& not32 mask) ||| u32 value := by
  have hlt : (hpmicro_padctl_get sfp pin &&& not32 mask) ||| u32 value < 2 ^ 32 :=
    Nat.or_lt_two_pow (Nat.and_lt_two_pow _ (not32_lt mask)) (u32_lt value)
  have h : hpmicro_padctl_get (hpmicro_padctl_rmw pin mask value sfp) pin
      = u32 (u32 ((hpmicro_padctl_get sfp pin &&& not32 mask) ||| u32 value)) := by
    simp [hpmicro_padctl_get, hpmicro_padctl_rmw, ioc_store, ioc_load,
      raw_spin_lock_irqsave, raw_spin_unlock_irqrestore]
  rw [h, u32_u32, u32_of_lt hlt]

theorem testBit_GENMASK (h l i : Nat) (hl : l ≤ h + 1) :
    (GENMASK h l).testBit i = decide (l ≤ i ∧ i ≤ h) := by
  have e : GENMASK h l = 2 ^ l * (2 ^ (h + 1 - l) - 1) := by
    have : 2 ^ (h + 1) = 2 ^ l * 2 ^ (h + 1 - l) := by
      rw [← Nat.pow_add]; congr 1; omega
    unfold GENMASK
    rw [this, Nat.mul_sub, Nat.mul_one]
  rw [e, Nat.testBit_mul_pow_two, Nat.testBit_two_pow_sub_one]
  by_cases h1 : l ≤ i
  · by_cases h2 : i ≤ h
    · have : i - l < h + 1 - l := by omega
      simp [h1, h2, this]
    · have : ¬ i - l < h + 1 - l := by omega
      simp [h1, h2, this]
  · simp [h1]

/-- Writing `v` into the field `GENMASK h off` of a pad word by read-modify-write
and extracting the field again gives `v`, when `v` fits the field. -/
theorem field_roundtrip (x v h off : Nat) (hoff : off ≤ h + 1) (h32 : h < 32)
    (hv : v < 2 ^ (h + 1 - off)) :
    (((x &&& not32 (GENMASK h off)) ||| u32 (u32 v <<< off)) &&& GENMASK h off) >>> off = v := by
  apply Nat.eq_of_testBit_eq
  intro i
  rw [Nat.testBit_shiftRight, Nat.testBit_and, Nat.testBit_or, Nat.testBit_and, testBit_not32,
    testBit_GENMASK _ _ _ hoff, testBit_u32, Nat.testBit_shiftLeft, testBit_u32]
  have h1 : off ≤ off + i := Nat.le_add_right _ _
  have h2 : off + i - off = i := by omega
  by_cases hi : off + i ≤ h
  · have h3 : off + i < 32 := by omega
    have h4 : i < 32 := by omega
    simp [h1, h2, hi, h3, h4]
  · have h5 : h + 1 - off ≤ i := by omega
    simp [h1, hi, testBit_eq_false_of_lt hv h5]

/-- C10: for output-impedance-ohms with `v` in 0..7, inter-resistance-strength
with `v` in 0..3 and inter-keeper-cap with `v` in 0..1, and every initial pad
register value, `hpmicro_pinconf_set(pin, [(P, v)])` succeeds and a following
`hpmicro_pinconf_get(pin, P)` returns 0 (enabled) with the argument `v`,
whatever argument the queried word carried and whatever the uninitialised
`enabled` held. -/
theorem hpmicro_pinconf_roundtrip_fields (sfp : hpmicro_pinctrl) (pin : Nat)
    (P : pin_config_param) (v a0 : Nat) (e0 : Bool)
    (hP : (P = pin_config_param.PIN_CONFIG_OUTPUT_IMPEDANCE_OHMS ∧ v ≤ 7) ∨
      (P = pin_config_param.PIN_CONFIG_HPMICRO_INTER_RESISTANCE_STRENGTH ∧ v ≤ 3) ∨
      (P = pin_config_param.PIN_CONFIG_HPMICRO_INTER_KEEPER_CAP ∧ v ≤ 1)) :
    (hpmicro_pinconf_set pin [{ param := P, arg := v }] sfp).1 = 0 ∧
    hpmicro_pinconf_get (hpmicro_pinconf_set pin [{ param := P, arg := v }] sfp).2 pin
        { param := P, arg := a0 } e0
      = (0, { param := P, arg := v }) := by
  have hv32 : v < 2 ^ 32 := by
    rcases hP with ⟨_, h⟩ | ⟨_, h⟩ | ⟨_, h⟩ <;> omega
  rcases hP with ⟨rfl, h⟩ | ⟨rfl, h⟩ | ⟨rfl, h⟩
  · refine ⟨rfl, ?_⟩
    have hr := field_roundtrip (hpmicro_padctl_get sfp pin) v 2 0 (by decide) (by decide)
      (by show v < 8; omega)
    simp only [hpmicro_pinconf_set, hpmicro_pinconf_get, hpmicro_padctl_rmw_get, PAD_DS_MASK,
      PAD_DS_OFF, u32_u32]
    rw [hr, u32_of_lt hv32]
    rfl
  · refine ⟨rfl, ?_⟩
    have hr := field_roundtrip (hpmicro_padctl_get sfp pin) v 21 20 (by decide) (by decide)
      (by show v < 4; omega)
    simp only [hpmicro_pinconf_set, hpmicro_pinconf_get, hpmicro_padctl_rmw_get, PAD_PRS_MASK,
      PAD_PRS_OFF, u32_u32]
    rw [hr, u32_of_lt hv32]
    rfl
  · refine ⟨rfl, ?_⟩
    have hk : PAD_KE_MASK = GENMASK 16 16 := by decide
    have hr := field_roundtrip (hpmicro_padctl_get sfp pin) v 16 16 (by decide) (by decide)
      (by show v < 2; omega)
    simp only [hpmicro_pinconf_set, hpmicro_pinconf_get, hpmicro_padctl_rmw_get, hk,
      PAD_KE_OFF, u32_u32]
    rw [hr, u32_of_lt hv32]
    rfl

/-- C10 for inter-resistance-strength 2 on pin 7 of a controller whose
registers all hold `0xFFFFFFFF`. -/
theorem hpmicro_pinconf_roundtrip_fields_witness :
    hpmicro_pinconf_get
        (hpmicro_pinconf_set 7
          [{ param := pin_config_param.PIN_CONFIG_HPMICRO_INTER_RESISTANCE_STRENGTH, arg := 2 }]
          (pinctrl_of 0xFFFFFFFF)).2 7
        { param := pin_config_param.PIN_CONFIG_HPMICRO_INTER_RESISTANCE_STRENGTH, arg := 0 } false
      = (0, { param := pin_config_param.PIN_CONFIG_HPMICRO_INTER_RESISTANCE_STRENGTH, arg := 2 }) :=
  (hpmicro_pinconf_roundtrip_fields (pinctrl_of 0xFFFFFFFF) 7
    pin_config_param.PIN_CONFIG_HPMICRO_INTER_RESISTANCE_STRENGTH 2 0 false
    (Or.inr (Or.inl ⟨rfl, by decide⟩))).2


/-! ## Read-back of the flag fields -/

theorem testBit_rmw (x m w i : Nat) :
    ((x &&& not32 m) ||| u32 w).testBit i
      = ((x.testBit i && (decide (i < 32) && !m.testBit i)) ||
          (decide (i < 32) && w.testBit i)) := by
  rw [Nat.testBit_or, Nat.testBit_and, testBit_not32, testBit_u32]

theorem to_bool_and_BIT (x k : Nat) (hk : k < 32) : to_bool (x &&& BIT k) = x.testBit k := by
  unfold to_bool
  rw [BIT_eq hk]
  cases h : x.testBit k
  · have := (and_two_pow_eq_zero_iff x k).mpr h
    simp [this]
  · have : ¬ x &&& 2 ^ k = 0 := fun h0 => by
      rw [(and_two_pow_eq_zero_iff x k).mp h0] at h
      exact Bool.noConfusion h
    simp [this]

theorem testBit_BIT (k i : Nat) (hk : k < 32) : (BIT k).testBit i = decide (k = i) := by
  rw [BIT_eq hk, Nat.testBit_two_pow]

theorem BIT_lt (k : Nat) : BIT k < 2 ^ 32 := u32_lt _

/-- C11, what the code does: after `hpmicro_pinconf_set(pin, [(slew-rate, v)])`
with `v` in 0..3, `hpmicro_pinconf_get(pin, slew-rate)` returns the argument
`v`, but it reports enabled (returns 0) only when bit 6 of the pad register,
which the set path never writes, was already set; otherwise it returns
`-EINVAL`. -/
theorem hpmicro_pinconf_slew_rate_readback (sfp : hpmicro_pinctrl) (pin v a0 : Nat) (e0 : Bool)
    (hv : v ≤ 3) :
    (hpmicro_pinconf_set pin [{ param := pin_config_param.PIN_CONFIG_SLEW_RATE, arg := v }] sfp).1
      = 0 ∧
    hpmicro_pinconf_get
        (hpmicro_pinconf_set pin
          [{ param := pin_config_param.PIN_CONFIG_SLEW_RATE, arg := v }] sfp).2 pin
        { param := pin_config_param.PIN_CONFIG_SLEW_RATE, arg := a0 } e0
      = (if (hpmicro_padctl_get sfp pin).testBit 6 = true then 0 else -EINVAL,
          { param := pin_config_param.PIN_CONFIG_SLEW_RATE, arg := v }) := by
  have hv32 : v < 2 ^ 32 := by omega
  have hr := field_roundtrip (hpmicro_padctl_get sfp pin) v 5 4 (by decide) (by decide)
    (by show v < 4; omega)
  have hen : to_bool (((hpmicro_padctl_get sfp pin &&& not32 (GENMASK 5 4)) |||
      u32 (u32 v <<< 4)) &&& BIT 6) = (hpmicro_padctl_get sfp pin).testBit 6 := by
    rw [to_bool_and_BIT _ 6 (by decide), testBit_rmw, testBit_GENMASK _ _ _ (by decide),
      Nat.testBit_shiftLeft, testBit_u32]
    have : v.testBit 2 = false := testBit_eq_false_of_lt (show v < 2 ^ 2 by omega) (Nat.le_refl 2)
    simp [this]
  refine ⟨rfl, ?_⟩
  simp only [hpmicro_pinconf_set, hpmicro_pinconf_get, hpmicro_padctl_rmw_get,
    PAD_SLEW_RATE_ADDITION_MASK, PAD_SLEW_RATE_ADDITION_OFF, PAD_SLEW_RATE, u32_u32]
  rw [hr, hen, u32_of_lt hv32]

/-- C11 at the failing input: slew-rate 1 is set on pin 7 of a controller whose
pad registers hold 0; the read-back returns `-EINVAL` (not enabled). -/
theorem hpmicro_pinconf_slew_rate_readback_witness :
    hpmicro_pinconf_get
        (hpmicro_pinconf_set 7
          [{ param := pin_config_param.PIN_CONFIG_SLEW_RATE, arg := 1 }] (pinctrl_of 0)).2 7
        { param := pin_config_param.PIN_CONFIG_SLEW_RATE, arg := 0 } false
      = (-EINVAL, { param := pin_config_param.PIN_CONFIG_SLEW_RATE, arg := 1 }) :=
  (hpmicro_pinconf_slew_rate_readback (pinctrl_of 0) 7 1 0 false (by decide)).2


theorem testBit_rmw_BIT_self (x k : Nat) (hk : k < 32) :
    ((x &&& not32 (BIT k)) ||| u32 (BIT k)).testBit k = true := by
  rw [testBit_rmw, testBit_BIT k k hk]
  simp [hk]

theorem testBit_rmw_BIT_other (x k i : Nat) (hk : k < 32) (hi : i < 32) (hne : k ≠ i) :
    ((x &&& not32 (BIT k)) ||| u32 (BIT k)).testBit i = x.testBit i := by
  rw [testBit_rmw, testBit_BIT k i hk]
  simp [hi, hne]

/-- C12, the claim fails: drive-open-drain is set with the argument 0 on a pad
register holding 0, and the read-back reports enabled with the argument 1,
not 0. -/
theorem hpmicro_pinconf_flag_roundtrip_counterexample :
    hpmicro_pinconf_get
        (hpmicro_pinconf_set 7
          [{ param := pin_config_param.PIN_CONFIG_DRIVE_OPEN_DRAIN, arg := 0 }]
          (pinctrl_of 0)).2 7
        { param := pin_config_param.PIN_CONFIG_DRIVE_OPEN_DRAIN, arg := 0 } false
      = (0, { param := pin_config_param.PIN_CONFIG_DRIVE_OPEN_DRAIN, arg := 1 }) := by
  decide

/-- C12 as amended: for drive-open-drain and input-schmitt-enable, every
initial pad register value and every argument `v`, `hpmicro_pinconf_set`
succeeds and a following `hpmicro_pinconf_get` reports enabled (returns 0)
with the argument 1: the set path ignores its argument and always sets the
bit, so the round trip gives back `v` exactly for `v = 1`. -/
theorem hpmicro_pinconf_flag_roundtrip (sfp : hpmicro_pinctrl) (pin : Nat)
    (P : pin_config_param) (v a0 : Nat) (e0 : Bool)
    (hP : P = pin_config_param.PIN_CONFIG_DRIVE_OPEN_DRAIN ∨
      P = pin_config_param.PIN_CONFIG_INPUT_SCHMITT_ENABLE) :
    (hpmicro_pinconf_set pin [{ param := P, arg := v }] sfp).1 = 0 ∧
    hpmicro_pinconf_get (hpmicro_pinconf_set pin [{ param := P, arg := v }] sfp).2 pin
        { param := P, arg := a0 } e0
      = (0, { param := P, arg := 1 }) := by
  rcases hP with rfl | rfl
  · refine ⟨rfl, ?_⟩
    have hen : to_bool (((hpmicro_padctl_get sfp pin &&& not32 (BIT 8)) ||| u32 (BIT 8))
        &&& BIT 8) = true := by
      rw [to_bool_and_BIT _ 8 (by decide), testBit_rmw_BIT_self _ 8 (by decide)]
    simp only [hpmicro_pinconf_set, hpmicro_pinconf_get, hpmicro_padctl_rmw_get,
      PAD_OPEN_DRAIN, hen]
    rfl
  · refine ⟨rfl, ?_⟩
    have hen : to_bool (((hpmicro_padctl_get sfp pin &&& not32 (BIT 24)) ||| u32 (BIT 24))
        &&& BIT 24) = true := by
      rw [to_bool_and_BIT _ 24 (by decide), testBit_rmw_BIT_self _ 24 (by decide)]
    simp only [hpmicro_pinconf_set, hpmicro_pinconf_get, hpmicro_padctl_rmw_get,
      PAD_INPUT_SCHMITT_ENABLE, hen]
    rfl

/-- C12 as amended, for input-schmitt-enable with the argument 1 on pin 7 of a
controller whose registers hold 0. -/
theorem hpmicro_pinconf_flag_roundtrip_witness :
    hpmicro_pinconf_get
        (hpmicro_pinconf_set 7
          [{ param := pin_config_param.PIN_CONFIG_INPUT_SCHMITT_ENABLE, arg := 1 }]
          (pinctrl_of 0)).2 7
        { param := pin_config_param.PIN_CONFIG_INPUT_SCHMITT_ENABLE, arg := 0 } false
      = (0, { param := pin_config_param.PIN_CONFIG_INPUT_SCHMITT_ENABLE, arg := 1 }) :=
  (hpmicro_pinconf_flag_roundtrip (pinctrl_of 0) 7
    pin_config_param.PIN_CONFIG_INPUT_SCHMITT_ENABLE 1 0 false (Or.inr rfl)).2

/-- C13, what the code does: after `hpmicro_pinconf_set(pin, [(pull-up, v)])`
the pad register has the bias-enable and pull-up bits set, so the pull-down
query of `hpmicro_pinconf_get` does not assign `enabled`, and the result is
decided by the value `e0` the uninitialised variable happens to hold: 0
(enabled) when it is true, `-EINVAL` when it is false. -/
theorem hpmicro_pinconf_pull_down_after_pull_up (sfp : hpmicro_pinctrl) (pin v a0 : Nat)
    (e0 : Bool) :
    hpmicro_pinconf_get
        (hpmicro_pinconf_set pin
          [{ param := pin_config_param.PIN_CONFIG_BIAS_PULL_UP, arg := v }] sfp).2 pin
        { param := pin_config_param.PIN_CONFIG_BIAS_PULL_DOWN, arg := a0 } e0
      = (if e0 = true then 0 else -EINVAL,
          { param := pin_config_param.PIN_CONFIG_BIAS_PULL_DOWN, arg := 1 }) := by
  have hpu : to_bool (((((hpmicro_padctl_get sfp pin &&& not32 (BIT 18)) ||| u32 (BIT 18))
      &&& not32 (BIT 17)) ||| u32 (BIT 17)) &&& BIT 18) = true := by
    rw [to_bool_and_BIT _ 18 (by decide),
      testBit_rmw_BIT_other _ 17 18 (by decide) (by decide) (by decide),
      testBit_rmw_BIT_self _ 18 (by decide)]
  simp only [hpmicro_pinconf_set, hpmicro_pinconf_get, hpmicro_padctl_rmw_get,
    PAD_BIAS_PULL_UP, PAD_BIAS_ENABLE, hpu]
  simp
  rfl

/-- C13 at the failing input: pull-up is set on pin 7 of a controller whose
registers hold 0, the uninitialised `enabled` happens to be true, and the
pull-down query returns 0, that is enabled. -/
theorem hpmicro_pinconf_pull_down_after_pull_up_witness :
    hpmicro_pinconf_get
        (hpmicro_pinconf_set 7
          [{ param := pin_config_param.PIN_CONFIG_BIAS_PULL_UP, arg := 1 }] (pinctrl_of 0)).2 7
        { param := pin_config_param.PIN_CONFIG_BIAS_PULL_DOWN, arg := 0 } true
      = (0, { param := pin_config_param.PIN_CONFIG_BIAS_PULL_DOWN, arg := 1 }) :=
  hpmicro_pinconf_pull_down_after_pull_up (pinctrl_of 0) 7 1 0 true


/-! ## Lists of configurations -/

theorem hpmicro_pinconf_set_cons_supported (pin : Nat) (c : pin_config) (cs : List pin_config)
    (sfp : hpmicro_pinctrl) (hc : c.param.supported = true) :
    hpmicro_pinconf_set pin (c :: cs) sfp
      = hpmicro_pinconf_set pin cs (hpmicro_pinconf_set pin [c] sfp).2 := by
  obtain ⟨param, arg⟩ := c
  cases param <;> first | rfl | exact Bool.noConfusion hc

theorem hpmicro_pinconf_set_cons_unsupported (pin : Nat) (c : pin_config) (cs : List pin_config)
    (sfp : hpmicro_pinctrl) (hc : c.param.supported = false) :
    hpmicro_pinconf_set pin (c :: cs) sfp = (-ENOTSUPP, sfp) := by
  obtain ⟨param, arg⟩ := c
  cases param <;> first | rfl | exact Bool.noConfusion hc

/-- C14: for a configuration list `pre ++ [u] ++ post` in which every
parameter of `pre` is one of the nine supported ones and the parameter of `u`
is not, `hpmicro_pinconf_set` returns `-ENOTSUPP` and leaves the controller
exactly as `hpmicro_pinconf_set(pin, pre)` alone does, which succeeds and
applies the entries of `pre` one after the other in list order; nothing of
`post` is applied. -/
theorem hpmicro_pinconf_set_unsupported (pin : Nat) (pre post : List pin_config) (u : pin_config)
    (sfp : hpmicro_pinctrl) (hpre : ∀ c ∈ pre, c.param.supported = true)
    (hu : u.param.supported = false) :
    hpmicro_pinconf_set pin (pre ++ u :: post) sfp
      = (-ENOTSUPP, (hpmicro_pinconf_set pin pre sfp).2) ∧
    (hpmicro_pinconf_set pin pre sfp).1 = 0 ∧
    (hpmicro_pinconf_set pin pre sfp).2
      = List.foldl (fun s c => (hpmicro_pinconf_set pin [c] s).2) sfp pre := by
  induction pre generalizing sfp with
  | nil =>
    exact ⟨hpmicro_pinconf_set_cons_unsupported pin u post sfp hu, rfl, rfl⟩
  | cons c cs ih =>
    have hc : c.param.supported = true := hpre c (List.mem_cons_self c cs)
    have hcs : ∀ x ∈ cs, x.param.supported = true :=
      fun x hx => hpre x (List.mem_cons_of_mem c hx)
    obtain ⟨h1, h2, h3⟩ := ih (hpmicro_pinconf_set pin [c] sfp).2 hcs
    refine ⟨?_, ?_, ?_⟩
    · rw [List.cons_append, hpmicro_pinconf_set_cons_supported pin c _ sfp hc, h1,
        hpmicro_pinconf_set_cons_supported pin c cs sfp hc]
    · rw [hpmicro_pinconf_set_cons_supported pin c cs sfp hc, h2]
    · rw [hpmicro_pinconf_set_cons_supported pin c cs sfp hc, h3, List.foldl_cons]

/-- C14 on pin 7 with the list drive strength 5, an unsupported parameter,
open drain: the call returns `-ENOTSUPP` and the pad register holds the drive
strength 5 only. -/
theorem hpmicro_pinconf_set_unsupported_witness :
    (hpmicro_pinconf_set 7
        [{ param := pin_config_param.PIN_CONFIG_OUTPUT_IMPEDANCE_OHMS, arg := 5 },
         { param := pin_config_param.PIN_CONFIG_OTHER 9, arg := 1 },
         { param := pin_config_param.PIN_CONFIG_DRIVE_OPEN_DRAIN, arg := 1 }]
        (pinctrl_of 0)).1 = -ENOTSUPP ∧
    hpmicro_padctl_get
      (hpmicro_pinconf_set 7
        [{ param := pin_config_param.PIN_CONFIG_OUTPUT_IMPEDANCE_OHMS, arg := 5 },
         { param := pin_config_param.PIN_CONFIG_OTHER 9, arg := 1 },
         { param := pin_config_param.PIN_CONFIG_DRIVE_OPEN_DRAIN, arg := 1 }]
        (pinctrl_of 0)).2 7 = 5 := by
  have h := (hpmicro_pinconf_set_unsupported 7
    [{ param := pin_config_param.PIN_CONFIG_OUTPUT_IMPEDANCE_OHMS, arg := 5 }]
    [{ param := pin_config_param.PIN_CONFIG_DRIVE_OPEN_DRAIN, arg := 1 }]
    { param := pin_config_param.PIN_CONFIG_OTHER 9, arg := 1 } (pinctrl_of 0)
    (by decide) (by decide)).1
  exact ⟨congrArg Prod.fst h, (congrArg (fun r => hpmicro_padctl_get r.2 7) h).trans (by decide)⟩


/-! ## Fields of the pad register -/

/-- C15, the claim fails: inter-keeper-cap (bit 16) is set with the argument 2
on a pad register holding 0. The argument is shifted but not masked, so the
register afterwards holds `BIT(17)`: the keeper bit is still clear and the
bias-enable bit, which belongs to another field, has changed, so that the
bias-disable query, which reported enabled before, now returns `-EINVAL`. -/
theorem hpmicro_pinconf_set_frame_counterexample :
    hpmicro_padctl_get (pinctrl_of 0) 7 = 0 ∧
    hpmicro_padctl_get
      (hpmicro_pinconf_set 7
        [{ param := pin_config_param.PIN_CONFIG_HPMICRO_INTER_KEEPER_CAP, arg := 2 }]
        (pinctrl_of 0)).2 7 = PAD_BIAS_ENABLE ∧
    (hpmicro_pinconf_get (pinctrl_of 0) 7
      { param := pin_config_param.PIN_CONFIG_BIAS_DISABLE, arg := 0 } false).1 = 0 ∧
    (hpmicro_pinconf_get
      (hpmicro_pinconf_set 7
        [{ param := pin_config_param.PIN_CONFIG_HPMICRO_INTER_KEEPER_CAP, arg := 2 }]
        (pinctrl_of 0)).2 7
      { param := pin_config_param.PIN_CONFIG_BIAS_DISABLE, arg := 0 } false).1 = -EINVAL := by
  decide

/-! ## Group-level configuration -/

/-- C16, what the code does: for every group of the table and every
configuration list, `hpmicro_pinconf_group_set` returns 0: the results of the
`hpmicro_pinconf_set` calls it makes are discarded. -/
theorem hpmicro_pinconf_group_set_returns_zero (groups : List group_desc) (gsel : Nat)
    (group : group_desc) (configs : List pin_config) (sfp : hpmicro_pinctrl)
    (hg : groups.get? gsel = some group) :
    (hpmicro_pinconf_group_set groups gsel configs sfp).1 = 0 := by
  simp only [hpmicro_pinconf_group_set, hg]

/-- C16 at the failing input: on the group with the single pin 4 and a list
holding one unrecognised parameter, `hpmicro_pinconf_group_set` returns 0
although `hpmicro_pinconf_set` returns `-ENOTSUPP` for that list on pin 4. -/
theorem hpmicro_pinconf_group_set_returns_zero_witness :
    (hpmicro_pinconf_group_set [{ pins := [4], data := [] }] 0
      [{ param := pin_config_param.PIN_CONFIG_OTHER 9, arg := 1 }] (pinctrl_of 0)).1 = 0 ∧
    (hpmicro_pinconf_set 4
      [{ param := pin_config_param.PIN_CONFIG_OTHER 9, arg := 1 }] (pinctrl_of 0)).1
      = -ENOTSUPP :=
  ⟨hpmicro_pinconf_group_set_returns_zero [{ pins := [4], data := [] }] 0
      { pins := [4], data := [] } [{ param := pin_config_param.PIN_CONFIG_OTHER 9, arg := 1 }]
      (pinctrl_of 0) rfl,
   by decide⟩


/-! ## Malformed group declarations -/

theorem hpmicro_dt_node_to_map_count_rejects :
    ∀ (children : List group_node) (nmaps ngroups : Nat),
      (∃ c ∈ children, c.both = true ∨ c.both_empty = true) →
      hpmicro_dt_node_to_map_count children nmaps ngroups = Except.error (-EINVAL) := by
  intro children
  induction children with
  | nil => intro _ _ h; obtain ⟨c, hc, _⟩ := h; exact absurd hc (List.not_mem_nil c)
  | cons child rest ih =>
    intro nmaps ngroups h
    unfold hpmicro_dt_node_to_map_count
    by_cases h1 : child.npinmux > 0 ∧ child.npins > 0
    · rw [if_pos h1]
    · rw [if_neg h1]
      by_cases h2 : child.npinmux = 0 ∧ child.npins = 0
      · rw [if_pos h2]
      · rw [if_neg h2]
        apply ih
        obtain ⟨c, hc, hm⟩ := h
        rcases List.mem_cons.mp hc with rfl | hr
        · exfalso
          rcases hm with hm | hm
          · simp only [group_node.both, Bool.and_eq_true, decide_eq_true_eq] at hm
            exact h1 hm
          · simp only [group_node.both_empty, Bool.and_eq_true, decide_eq_true_eq] at hm
            exact h2 hm
        · exact ⟨c, hr, hm⟩

theorem hpmicro_dt_node_to_map_count_error :
    ∀ (children : List group_node) (nmaps ngroups : Nat) (ret : Int),
      hpmicro_dt_node_to_map_count children nmaps ngroups = Except.error ret → ret = -EINVAL := by
  intro children
  induction children with
  | nil => intro _ _ ret h; simp [hpmicro_dt_node_to_map_count] at h
  | cons child rest ih =>
    intro nmaps ngroups ret h
    unfold hpmicro_dt_node_to_map_count at h
    split at h
    · exact (Except.error.inj h).symm
    · split at h
      · exact (Except.error.inj h).symm
      · exact ih _ _ ret h

theorem hpmicro_dt_node_to_map_add_error (child : group_node) (pins pinmux : List Nat)
    (st : dt_pass_state) (ret : Int)
    (h : hpmicro_dt_node_to_map_add child pins pinmux st = Except.error ret) : ret ≠ 0 := by
  unfold hpmicro_dt_node_to_map_add at h
  split at h
  · next hlt => rw [← Except.error.inj h]; omega
  · dsimp only at h
    split at h
    · next hne => rw [← Except.error.inj h]; exact hne
    · split at h <;> exact Except.noConfusion h

theorem hpmicro_dt_node_to_map_child_error (child : group_node) (st : dt_pass_state) (ret : Int)
    (h : hpmicro_dt_node_to_map_child child st = Except.error ret) : ret ≠ 0 := by
  unfold hpmicro_dt_node_to_map_child at h
  split at h
  · rw [← Except.error.inj h]; decide
  · dsimp only at h
    split at h
    · split at h
      · rw [← Except.error.inj h]; decide
      · split at h
        · rw [← Except.error.inj h]; decide
        · split at h
          · next hne => rw [← Except.error.inj h]; exact hne
          · exact hpmicro_dt_node_to_map_add_error _ _ _ _ _ h
    · split at h
      · split at h
        · rw [← Except.error.inj h]; decide
        · split at h
          · next hne => rw [← Except.error.inj h]; exact hne
          · exact hpmicro_dt_node_to_map_add_error _ _ _ _ _ h
      · rw [← Except.error.inj h]; decide

theorem hpmicro_dt_node_to_map_child_neither (child : group_node) (st : dt_pass_state)
    (hn : child.neither = true) :
    hpmicro_dt_node_to_map_child child st
      = Except.error (if child.grpname_ok = true then -EINVAL else -ENOMEM) := by
  simp only [group_node.neither, Bool.and_eq_true, decide_eq_true_eq] at hn
  have h1 : ¬ child.npinmux > 0 := by omega
  have h2 : ¬ child.npins > 0 := by omega
  unfold hpmicro_dt_node_to_map_child
  cases hg : child.grpname_ok
  · simp
  · simp [h1, h2]

theorem hpmicro_dt_node_to_map_fill_neither :
    ∀ (children : List group_node) (st : dt_pass_state),
      (∃ c ∈ children, c.neither = true) →
      ∃ ret, ret ≠ 0 ∧ hpmicro_dt_node_to_map_fill children st = Except.error ret := by
  intro children
  induction children with
  | nil => intro _ h; obtain ⟨c, hc, _⟩ := h; exact absurd hc (List.not_mem_nil c)
  | cons child rest ih =>
    intro st h
    unfold hpmicro_dt_node_to_map_fill
    cases hstep : hpmicro_dt_node_to_map_child child st with
    | error ret => exact ⟨ret, hpmicro_dt_node_to_map_child_error child st ret hstep, rfl⟩
    | ok st1 =>
      obtain ⟨c, hc, hm⟩ := h
      rcases List.mem_cons.mp hc with rfl | hr
      · rw [hpmicro_dt_node_to_map_child_neither c st hm] at hstep
        exact Except.noConfusion hstep
      · exact ih st1 ⟨c, hr, hm⟩

theorem hpmicro_dt_node_to_map_child_ok (child : group_node) (st : dt_pass_state)
    (hc : child.calls_succeed = true) (hn : child.neither = false) :
    ∃ st1, hpmicro_dt_node_to_map_child child st = Except.ok st1 := by
  simp only [group_node.calls_succeed, Bool.and_eq_true, decide_eq_true_eq] at hc
  obtain ⟨⟨⟨⟨⟨hg, hp⟩, hm⟩, hr⟩, ha⟩, hpr⟩ := hc
  have ha2 : ¬ child.add_group_ret < 0 := by omega
  have hadd : ∀ pins pinmux s, ∃ st1,
      hpmicro_dt_node_to_map_add child pins pinmux s = Except.ok st1 := by
    intro pins pinmux s
    unfold hpmicro_dt_node_to_map_add
    rw [if_neg ha2]
    simp only [hpr, ne_eq, not_true_eq_false, if_false]
    split <;> exact ⟨_, rfl⟩
  unfold hpmicro_dt_node_to_map_child
  by_cases h1 : child.npinmux > 0
  · obtain ⟨st1, h⟩ := hadd (child.pinmux.map hpmicro_pinmux_to_gpio) child.pinmux
      { st with ngroups := st.ngroups + 1, map_writes := st.map_writes ++ [st.nmaps],
                nmaps := st.nmaps + 1 }
    exact ⟨st1, by simp [hg, hp, hm, hr, h1, h]⟩
  · by_cases h2 : child.npins > 0
    · obtain ⟨st1, h⟩ := hadd child.pins [] { st with ngroups := st.ngroups + 1 }
      exact ⟨st1, by simp [hg, hp, hr, h1, h2, h]⟩
    · exfalso
      have : child.neither = true := by
        simp only [group_node.neither, Bool.and_eq_true, decide_eq_true_eq]
        omega
      rw [this] at hn
      exact Bool.noConfusion hn

theorem hpmicro_dt_node_to_map_fill_neither_ok :
    ∀ (children : List group_node) (st : dt_pass_state),
      (∃ c ∈ children, c.neither = true) → (∀ c ∈ children, c.calls_succeed = true) →
      hpmicro_dt_node_to_map_fill children st = Except.error (-EINVAL) := by
  intro children
  induction children with
  | nil => intro _ h _; obtain ⟨c, hc, _⟩ := h; exact absurd hc (List.not_mem_nil c)
  | cons child rest ih =>
    intro st h hall
    have hcs : child.calls_succeed = true := hall child (List.mem_cons_self child rest)
    unfold hpmicro_dt_node_to_map_fill
    cases hn : child.neither
    · obtain ⟨st1, hok⟩ := hpmicro_dt_node_to_map_child_ok child st hcs hn
      rw [hok]
      apply ih st1
      · obtain ⟨c, hc, hm⟩ := h
        rcases List.mem_cons.mp hc with rfl | hr
        · rw [hn] at hm; exact Bool.noConfusion hm
        · exact ⟨c, hr, hm⟩
      · exact fun c hc => hall c (List.mem_cons_of_mem child hc)
    · have hg : child.grpname_ok = true := by
        simp only [group_node.calls_succeed, Bool.and_eq_true] at hcs
        exact hcs.1.1.1.1.1
      rw [hpmicro_dt_node_to_map_child_neither child st hn, if_pos hg]


/-- When an allocation fails the error is that of the allocation: the only
child has neither property (both counts are the absent-property error), it
passes the counting pass, the allocation of the group-name table fails, and
the function returns `-ENOMEM`, again without a map. -/
theorem hpmicro_dt_node_to_map_alloc_failure :
    (group_node_of (-22) (-22)).neither = true ∧
    hpmicro_dt_node_to_map { pgnames_ok := false, map_ok := true, add_function_ret := 0 }
      [group_node_of (-22) (-22)] = (-ENOMEM, none) := by
  decide

/-- C17: when some available child has both a non-empty pinmux list and a
non-empty pins list, or has neither (each count zero or an absent-property
error), `hpmicro_dt_node_to_map` returns an error and hands no map array
back, whatever the allocations and the helper calls do. When the table
allocations and every helper call made for the children succeed, the error
is `-EINVAL`: either the counting pass rejects the child, or the second pass
reaches the child that has neither list. When the counting pass rejects a
child (both lists, or both counts exactly zero) the error is `-EINVAL`
before anything is allocated. -/
theorem hpmicro_dt_node_to_map_malformed (env : dt_env) (children : List group_node)
    (h : ∃ c ∈ children, c.both = true ∨ c.neither = true) :
    (hpmicro_dt_node_to_map env children).2 = none ∧
    (hpmicro_dt_node_to_map env children).1 ≠ 0 ∧
    ((∃ c ∈ children, c.both = true ∨ c.both_empty = true) →
      hpmicro_dt_node_to_map env children = (-EINVAL, none)) ∧
    (env.pgnames_ok = true → env.map_ok = true →
      (∀ c ∈ children, c.calls_succeed = true) →
      hpmicro_dt_node_to_map env children = (-EINVAL, none)) := by
  cases hc : hpmicro_dt_node_to_map_count children 0 0 with
  | error ret =>
    have hret : ret = -EINVAL := hpmicro_dt_node_to_map_count_error children 0 0 ret hc
    subst hret
    have hR : hpmicro_dt_node_to_map env children = (-EINVAL, none) := by
      simp only [hpmicro_dt_node_to_map, hc]
    rw [hR]
    exact ⟨rfl, by decide, fun _ => rfl, fun _ _ _ => rfl⟩
  | ok counts =>
    have hnorej : ¬ ∃ c ∈ children, c.both = true ∨ c.both_empty = true := by
      intro hrej
      rw [hpmicro_dt_node_to_map_count_rejects children 0 0 hrej] at hc
      exact Except.noConfusion hc
    have hneither : ∃ c ∈ children, c.neither = true := by
      obtain ⟨c, hcm, hm⟩ := h
      rcases hm with hm | hm
      · exact absurd ⟨c, hcm, Or.inl hm⟩ hnorej
      · exact ⟨c, hcm, hm⟩
    obtain ⟨ret, hne, hfill⟩ := hpmicro_dt_node_to_map_fill_neither children
      { nmaps := 0, ngroups := 0, map_writes := [], groups := [] } hneither
    refine ⟨?_, ?_, fun hrej => absurd hrej hnorej, ?_⟩
    · simp only [hpmicro_dt_node_to_map, hc, hfill]
      cases env.pgnames_ok <;> cases env.map_ok <;> rfl
    · simp only [hpmicro_dt_node_to_map, hc, hfill]
      have hmem : (-ENOMEM : Int) ≠ 0 := by decide
      cases env.pgnames_ok <;> cases env.map_ok <;> first | exact hne | exact hmem
    · intro hp hm hall
      have hf := hpmicro_dt_node_to_map_fill_neither_ok children
        { nmaps := 0, ngroups := 0, map_writes := [], groups := [] } hneither hall
      simp only [hpmicro_dt_node_to_map, hc, hp, hm, hf]
      rfl

/-- C17 on a node whose only child has neither property, with every allocation
and call succeeding: the result is `-EINVAL` and no map. -/
theorem hpmicro_dt_node_to_map_malformed_witness :
    hpmicro_dt_node_to_map { pgnames_ok := true, map_ok := true, add_function_ret := 0 }
      [group_node_of (-22) (-22)] = (-EINVAL, none) :=
  (hpmicro_dt_node_to_map_malformed { pgnames_ok := true, map_ok := true, add_function_ret := 0 }
    [group_node_of (-22) (-22)] (by decide)).2.2.2 rfl rfl (by decide)


/-! ## Enumeration of the ports -/

theorem hpm_gpio_probe_loop_port_index (status0 : Int) :
    ∀ (children : List port_node) (ports : List probed_port),
      (∀ p ∈ ports, p.port_index < HPM_MAX_PORTS) →
      ∀ p ∈ (hpm_gpio_probe_loop status0 children ports).2, p.port_index < HPM_MAX_PORTS := by
  intro children
  induction children with
  | nil => intro ports h; exact h
  | cons child rest ih =>
    intro ports h
    have hext : ∀ idx, ¬ idx ≥ HPM_MAX_PORTS → ∀ port : probed_port, port.port_index = idx →
        ∀ p ∈ ports ++ [port], p.port_index < HPM_MAX_PORTS := by
      intro idx hidx port hp p hmem
      rcases List.mem_append.mp hmem with hm | hm
      · exact h p hm
      · rw [List.mem_singleton.mp hm, hp]; exact Nat.lt_of_not_ge hidx
    unfold hpm_gpio_probe_loop
    split
    · exact ih ports h
    · next idx _ =>
      split
      · exact ih ports h
      · next hidx =>
        dsimp only
        split
        · exact h
        · split
          · exact h
          · split
            · split
              · exact hext idx hidx _ rfl
              · exact ih _ (hext idx hidx _ rfl)
            · exact ih _ (hext idx hidx _ rfl)

/-- The part of the port invariant that holds: every port `hpm_gpio_probe`
sets up has a port index below 8. -/
theorem hpm_gpio_probe_port_index (gpio_ok chip_ok : Bool) (n_ports : Nat) (status0 : Int)
    (children : List port_node) :
    ∀ p ∈ (hpm_gpio_probe gpio_ok chip_ok n_ports status0 children).2,
      p.port_index < HPM_MAX_PORTS := by
  unfold hpm_gpio_probe
  split
  · intro p hp; exact absurd hp (List.not_mem_nil p)
  · split
    · intro p hp; exact absurd hp (List.not_mem_nil p)
    · exact hpm_gpio_probe_loop_port_index status0 children [] (fun p hp =>
        absurd hp (List.not_mem_nil p))

/-- C18, what the code does: for a child with a port index `idx < 8` and an
`ngpios` property `n`, the second test compares `idx`, not `n`, with 32, so
`hpm_gpio_probe` never replaces `n` by 32 and sets the port up with
`chip->ngpio` holding `n` converted to `u16`, that is `n % 65536`. For every
`n` with `32 < n < 65536` the port therefore has `n` lines, more than 32. -/
theorem hpm_gpio_probe_ngpio_unchecked (n_ports idx n : Nat) (status0 : Int) (h : idx < 8) :
    hpm_gpio_probe true true n_ports status0
        [{ reg := some idx, ngpios := some n, new_dev_ok := true, port_data_ok := true,
           irq := 0 }]
      = (0, [{ port_index := idx, base := idx * 0x10, ngpio := n % 65536, irq_num := 0 }]) ∧
    (32 < n → n < 65536 →
      hpm_gpio_probe true true n_ports status0
          [{ reg := some idx, ngpios := some n, new_dev_ok := true, port_data_ok := true,
             irq := 0 }]
        = (0, [{ port_index := idx, base := idx * 0x10, ngpio := n, irq_num := 0 }]) ∧
      ∃ p ∈ (hpm_gpio_probe true true n_ports status0
          [{ reg := some idx, ngpios := some n, new_dev_ok := true, port_data_ok := true,
             irq := 0 }]).2, ¬ p.ngpio ≤ 32) := by
  have h1 : ¬ idx ≥ HPM_MAX_PORTS := by unfold HPM_MAX_PORTS; omega
  have h2 : ¬ idx ≥ HPM_MAX_PORT_PINX := by unfold HPM_MAX_PORT_PINX; omega
  have hp : hpm_gpio_probe true true n_ports status0
        [{ reg := some idx, ngpios := some n, new_dev_ok := true, port_data_ok := true,
           irq := 0 }]
      = (0, [{ port_index := idx, base := idx * 0x10, ngpio := n % 65536, irq_num := 0 }]) := by
    simp [hpm_gpio_probe, hpm_gpio_probe_loop, h1, h2, u16]
  refine ⟨hp, ?_⟩
  intro hlo hhi
  rw [hp, Nat.mod_eq_of_lt hhi]
  exact ⟨rfl, _, List.mem_singleton.mpr rfl, by simpa using hlo⟩

/-- C18 at the failing input: the child has `reg = 0` and `ngpios = 64`, and
the port is set up with 64 lines. -/
theorem hpm_gpio_probe_ngpio_unchecked_witness :
    hpm_gpio_probe true true 1 0
        [{ reg := some 0, ngpios := some 64, new_dev_ok := true, port_data_ok := true,
           irq := 0 }]
      = (0, [{ port_index := 0, base := 0, ngpio := 64, irq_num := 0 }]) :=
  (hpm_gpio_probe_ngpio_unchecked 1 0 64 0 (by decide)).1

/-! ## Direction and bulk output -/

/-- C19, what the code does: for a line `offset < 32`, `hpm_gpio_input` stores
exactly the single bit `2 ^ offset` to the direction-clear register and
`hpm_gpio_dir_out` exactly `2 ^ offset` to the direction-set register;
`hpm_gpio_dir_out` returns 0, but `hpm_gpio_input` returns the mask it
stored, converted to `int`, which is never 0. -/
theorem hpm_gpio_input_returns_mask (offset : Nat) (value : Int) (port : hpm_gpio_port)
    (h : offset < 32) :
    (hpm_gpio_input offset port).2.log
      = port.log ++ [Event.wr HPM_DIR_CLR_OFFSET (2 ^ offset)] ∧
    (hpm_gpio_dir_out offset value port).2.log
      = port.log ++ [Event.wr HPM_DIR_OUT_OFFSET (2 ^ offset)] ∧
    (hpm_gpio_dir_out offset value port).1 = 0 ∧
    (hpm_gpio_input offset port).1 = (if offset = 31 then -2147483648 else 2 ^ offset) ∧
    (hpm_gpio_input offset port).1 ≠ 0 := by
  have hb : u32 (1 <<< offset) = 2 ^ offset := u32_one_shiftLeft h
  have hlt : (2 : Nat) ^ offset < 2 ^ 32 := Nat.pow_lt_pow_right (by decide) h
  have hret : (hpm_gpio_input offset port).1 = to_int (u32 (1 <<< offset)) := rfl
  have hval : to_int (u32 (1 <<< offset)) = (if offset = 31 then -2147483648 else 2 ^ offset) := by
    interval_cases offset <;> decide
  refine ⟨?_, ?_, rfl, ?_, ?_⟩
  · simp [hpm_gpio_input, store32, hb]
  · simp [hpm_gpio_dir_out, store32, hb, u32_of_lt hlt]
  · rw [hret, hval]
  · rw [hret, hval]
    clear hret hval hb hlt
    interval_cases offset <;> decide

/-- C19 at the failing input: `hpm_gpio_input` on line 3 returns 8. -/
theorem hpm_gpio_input_returns_mask_witness :
    (hpm_gpio_input 3 (port_of 0 0 0 0 0 32)).1 = 8 :=
  (hpm_gpio_input_returns_mask 3 0 (port_of 0 0 0 0 0 32) (by decide)).2.2.2.1

/-- C20: for every 32-bit `mask` and every `bits`, `hpm_gpio_set_multiple`
performs exactly one register store, of the value `bits AND mask`, to the set
register, and none to the clear register; with a set store ORing into the
output latch, a line inside `mask` whose bit in `bits` is 0 keeps its output
value, a line outside `mask` keeps its output value, and no other register
changes. -/
theorem hpm_gpio_set_multiple_spec (mask bits : Nat) (port : hpm_gpio_port)
    (hmask : mask < 2 ^ 32) :
    (hpm_gpio_set_multiple mask bits port).log
      = port.log ++ [Event.wr HPM_SET_OFFSET (bits &&& mask)] ∧
    stores_to HPM_CLR_OFFSET ((hpm_gpio_set_multiple mask bits port).log.drop port.log.length)
      = [] ∧
    (hpm_gpio_set_multiple mask bits port).hw
      = { port.hw with dout := port.hw.dout ||| (bits &&& mask) } ∧
    (∀ i, mask.testBit i = true → bits.testBit i = false →
      (hpm_gpio_set_multiple mask bits port).hw.dout.testBit i = port.hw.dout.testBit i) ∧
    (∀ i, mask.testBit i = false →
      (hpm_gpio_set_multiple mask bits port).hw.dout.testBit i = port.hw.dout.testBit i) := by
  have hlt : bits &&& mask < 2 ^ 32 := Nat.and_lt_two_pow bits hmask
  have hlog : (hpm_gpio_set_multiple mask bits port).log
      = port.log ++ [Event.wr HPM_SET_OFFSET (bits &&& mask)] := by
    simp [hpm_gpio_set_multiple, store32, u32_of_lt hlt]
  have hhw : (hpm_gpio_set_multiple mask bits port).hw
      = { port.hw with dout := port.hw.dout ||| (bits &&& mask) } := by
    simp [hpm_gpio_set_multiple, store32, u32_of_lt hlt, u32_u32, PortRegs.store, HPM_SET_OFFSET,
      HPM_DO_OFFSET]
  refine ⟨hlog, ?_, hhw, ?_, ?_⟩
  · rw [hlog, List.drop_left]
    simp [stores_to, HPM_SET_OFFSET, HPM_CLR_OFFSET]
  · intro i hm hb
    rw [hhw]
    show (port.hw.dout ||| (bits &&& mask)).testBit i = _
    rw [Nat.testBit_or, Nat.testBit_and, hb]
    simp
  · intro i hm
    rw [hhw]
    show (port.hw.dout ||| (bits &&& mask)).testBit i = _
    rw [Nat.testBit_or, Nat.testBit_and, hm]
    simp

/-- C20 with `mask = 0x0F` and `bits = 0x35` on a port whose output latch
holds `0xC0`: the one store is `0x05` to the set register and the latch
becomes `0xC5`. -/
theorem hpm_gpio_set_multiple_spec_witness :
    (hpm_gpio_set_multiple 0x0F 0x35 (port_of 0 0xC0 0 0 0 32)).log = [Event.wr 0x104 0x05] ∧
    (hpm_gpio_set_multiple 0x0F 0x35 (port_of 0 0xC0 0 0 0 32)).hw.dout = 0xC5 :=
  ⟨(hpm_gpio_set_multiple_spec 0x0F 0x35 (port_of 0 0xC0 0 0 0 32) (by decide)).1.trans
      (by decide),
   (congrArg PortRegs.dout
      (hpm_gpio_set_multiple_spec 0x0F 0x35 (port_of 0 0xC0 0 0 0 32) (by decide)).2.2.1).trans
      (by decide)⟩


/-! ## Frame of a single pad-configuration entry -/

theorem hpmicro_padctl_get_lt (sfp : hpmicro_pinctrl) (pin : Nat) :
    hpmicro_padctl_get sfp pin < 2 ^ 32 := u32_lt _

theorem testBit_rmw_frame (x m w i : Nat) (hx : x < 2 ^ 32) (hm : m.testBit i = false)
    (hw : w.testBit i = false) :
    ((x &&& not32 m) ||| u32 w).testBit i = x.testBit i := by
  rw [testBit_rmw, hm, hw]
  by_cases hi : i < 32
  · simp [hi]
  · simp [hi, testBit_eq_false_of_lt hx (Nat.le_of_not_lt hi)]

theorem testBit_shifted_arg (v h off i : Nat) (hoff : off ≤ h + 1) (hv : v < 2 ^ (h + 1 - off))
    (hM : (GENMASK h off).testBit i = false) :
    (u32 (u32 v <<< off)).testBit i = false := by
  rw [testBit_GENMASK _ _ _ hoff] at hM
  have hout : ¬ (off ≤ i ∧ i ≤ h) := by simpa using hM
  rw [testBit_u32, Nat.testBit_shiftLeft, testBit_u32]
  by_cases h1 : off ≤ i
  · have h2 : h + 1 - off ≤ i - off := by omega
    simp [testBit_eq_false_of_lt hv h2]
  · simp [h1]

theorem hpmicro_padctl_rmw_regs (pin mask value : Nat) (sfp : hpmicro_pinctrl) (a : Nat)
    (ha : a ≠ ioc_addr HPM_IOC_PAD_OFFSET pin) :
    (hpmicro_padctl_rmw pin mask value sfp).regs a = sfp.regs a := by
  simp [hpmicro_padctl_rmw, ioc_store, ioc_load, raw_spin_lock_irqsave,
    raw_spin_unlock_irqrestore, ha]

theorem pad_addr_of_lt {p : Nat} (h : p < 2 ^ 29) :
    ioc_addr HPM_IOC_PAD_OFFSET p = 4 + 8 * p := by
  unfold ioc_addr HPM_IOC_PAD_OFFSET u32
  exact Nat.mod_eq_of_lt (by omega)

theorem testBit_or_eq_false {x y i : Nat} (h : (x ||| y).testBit i = false) :
    x.testBit i = false ∧ y.testBit i = false := by
  rw [Nat.testBit_or] at h
  cases hx : x.testBit i <;> cases hy : y.testBit i <;> simp [hx, hy] at h ⊢

/-- C15 as amended: for each of the nine supported parameters, every initial
pad register value and every argument that fits the parameter's field (any
argument for the five parameters that do not use it),
`hpmicro_pinconf_set(pin, [(P, v)])` changes no bit of the pin's pad register
outside the bit range that belongs to the parameter, and changes no register
at any other offset, hence no other pin's pad register. -/
theorem hpmicro_pinconf_set_frame (sfp : hpmicro_pinctrl) (pin : Nat) (P : pin_config_param)
    (v : Nat) (hP : P.supported = true) (hv : arg_fits P v = true) :
    (∀ i, (pad_field P).testBit i = false →
      (hpmicro_padctl_get (hpmicro_pinconf_set pin [{ param := P, arg := v }] sfp).2 pin).testBit i
        = (hpmicro_padctl_get sfp pin).testBit i) ∧
    (∀ a, a ≠ ioc_addr HPM_IOC_PAD_OFFSET pin →
      (hpmicro_pinconf_set pin [{ param := P, arg := v }] sfp).2.regs a = sfp.regs a) ∧
    (∀ q, q < 2 ^ 29 → pin < 2 ^ 29 → q ≠ pin →
      hpmicro_padctl_get (hpmicro_pinconf_set pin [{ param := P, arg := v }] sfp).2 q
        = hpmicro_padctl_get sfp q) := by
  have hx := hpmicro_padctl_get_lt sfp pin
  have hregs : ∀ a, a ≠ ioc_addr HPM_IOC_PAD_OFFSET pin →
      (hpmicro_pinconf_set pin [{ param := P, arg := v }] sfp).2.regs a = sfp.regs a := by
    intro a ha
    cases P <;>
      first
      | exact Bool.noConfusion hP
      | simp only [hpmicro_pinconf_set, hpmicro_padctl_rmw_regs _ _ _ _ a ha]
  refine ⟨?_, hregs, ?_⟩
  · intro i hi
    cases P with
    | PIN_CONFIG_OTHER code => exact Bool.noConfusion hP
    | PIN_CONFIG_BIAS_DISABLE =>
      have hm := (testBit_or_eq_false hi).1
      simp only [hpmicro_pinconf_set, hpmicro_padctl_rmw_get]
      exact testBit_rmw_frame _ _ _ i hx hm (Nat.zero_testBit i)
    | PIN_CONFIG_BIAS_PULL_DOWN =>
      have hm := testBit_or_eq_false hi
      simp only [hpmicro_pinconf_set, hpmicro_padctl_rmw_get]
      rw [testBit_rmw_frame _ _ _ i
        (Nat.or_lt_two_pow (Nat.and_lt_two_pow _ (not32_lt _)) (u32_lt _)) hm.1 hm.1]
      exact testBit_rmw_frame _ _ _ i hx hm.2 (Nat.zero_testBit i)
    | PIN_CONFIG_BIAS_PULL_UP =>
      have hm := testBit_or_eq_false hi
      simp only [hpmicro_pinconf_set, hpmicro_padctl_rmw_get]
      rw [testBit_rmw_frame _ _ _ i
        (Nat.or_lt_two_pow (Nat.and_lt_two_pow _ (not32_lt _)) (u32_lt _)) hm.1 hm.1]
      exact testBit_rmw_frame _ _ _ i hx hm.2 hm.2
    | PIN_CONFIG_DRIVE_OPEN_DRAIN =>
      simp only [hpmicro_pinconf_set, hpmicro_padctl_rmw_get]
      exact testBit_rmw_frame _ _ _ i hx hi hi
    | PIN_CONFIG_INPUT_SCHMITT_ENABLE =>
      simp only [hpmicro_pinconf_set, hpmicro_padctl_rmw_get]
      exact testBit_rmw_frame _ _ _ i hx hi hi
    | PIN_CONFIG_OUTPUT_IMPEDANCE_OHMS =>
      have hv7 : v < 2 ^ (2 + 1 - 0) := by
        have : v ≤ 7 := by simpa [arg_fits] using hv
        show v < 8; omega
      simp only [hpmicro_pinconf_set, hpmicro_padctl_rmw_get]
      exact testBit_rmw_frame _ _ _ i hx hi (testBit_shifted_arg v 2 0 i (by decide) hv7 hi)
    | PIN_CONFIG_SLEW_RATE =>
      have hv3 : v < 2 ^ (5 + 1 - 4) := by
        have : v ≤ 3 := by simpa [arg_fits] using hv
        show v < 4; omega
      simp only [hpmicro_pinconf_set, hpmicro_padctl_rmw_get]
      exact testBit_rmw_frame _ _ _ i hx hi (testBit_shifted_arg v 5 4 i (by decide) hv3 hi)
    | PIN_CONFIG_HPMICRO_INTER_RESISTANCE_STRENGTH =>
      have hv3 : v < 2 ^ (21 + 1 - 20) := by
        have : v ≤ 3 := by simpa [arg_fits] using hv
        show v < 4; omega
      simp only [hpmicro_pinconf_set, hpmicro_padctl_rmw_get]
      exact testBit_rmw_frame _ _ _ i hx hi (testBit_shifted_arg v 21 20 i (by decide) hv3 hi)
    | PIN_CONFIG_HPMICRO_INTER_KEEPER_CAP =>
      have hv1 : v < 2 ^ (16 + 1 - 16) := by
        have : v ≤ 1 := by simpa [arg_fits] using hv
        show v < 2; omega
      have hk : PAD_KE_MASK = GENMASK 16 16 := by decide
      have hi2 : (GENMASK 16 16).testBit i = false := by rw [← hk]; exact hi
      simp only [hpmicro_pinconf_set, hpmicro_padctl_rmw_get]
      exact testBit_rmw_frame _ _ _ i hx hi (testBit_shifted_arg v 16 16 i (by decide) hv1 hi2)
  · intro q hq hpin hne
    unfold hpmicro_padctl_get
    rw [hregs]
    rw [pad_addr_of_lt hq, pad_addr_of_lt hpin]
    omega

/-- C15 as amended, for drive strength 5 on pin 7 of a controller whose
registers hold `0xFFFFFFFF`: bit 8 (open drain) of the pad register of pin 7
is still set, and the pad register of pin 8 still holds `0xFFFFFFFF`. -/
theorem hpmicro_pinconf_set_frame_witness :
    (hpmicro_padctl_get
      (hpmicro_pinconf_set 7
        [{ param := pin_config_param.PIN_CONFIG_OUTPUT_IMPEDANCE_OHMS, arg := 5 }]
        (pinctrl_of 0xFFFFFFFF)).2 7).testBit 8 = true ∧
    hpmicro_padctl_get
      (hpmicro_pinconf_set 7
        [{ param := pin_config_param.PIN_CONFIG_OUTPUT_IMPEDANCE_OHMS, arg := 5 }]
        (pinctrl_of 0xFFFFFFFF)).2 8 = 0xFFFFFFFF :=
  ⟨((hpmicro_pinconf_set_frame (pinctrl_of 0xFFFFFFFF) 7
      pin_config_param.PIN_CONFIG_OUTPUT_IMPEDANCE_OHMS 5 rfl rfl).1 8 (by decide)).trans
      (by decide),
   ((hpmicro_pinconf_set_frame (pinctrl_of 0xFFFFFFFF) 7
      pin_config_param.PIN_CONFIG_OUTPUT_IMPEDANCE_OHMS 5 rfl rfl).2.2 8 (by decide) (by decide)
      (by decide)).trans (by decide)⟩


/-! ## Applying a mux group twice -/

theorem hpmicro_set_mux_eq_foldl (groups : List group_desc) (fsel gsel : Nat)
    (group : group_desc) (sfp : hpmicro_pinctrl) (hg : groups.get? gsel = some group)
    (hlen : group.data.length = group.pins.length) :
    hpmicro_set_mux groups fsel gsel sfp
      = some (0, List.foldl (fun s v => hpmicro_set_mux_body v s) sfp group.data) := by
  have hloop := hpmicro_set_mux_loop_eq_foldl group.data group.pins.length 0 sfp
    (by rw [Nat.zero_add, hlen])
  rw [List.drop_zero] at hloop
  simp only [hpmicro_set_mux, hg, hloop]

/-- A register that some entry of the list names holds, after the loop, a value
that does not depend on the state the loop started from. -/
theorem hpmicro_set_mux_foldl_named (a : Nat) :
    ∀ (l : List Nat) (s t : hpmicro_pinctrl),
      (∃ w ∈ l, ioc_addr HPM_IOC_FUNC_OFFSET (hpmicro_pinmux_to_gpio w) = a) →
      (List.foldl (fun s v => hpmicro_set_mux_body v s) s l).regs a
        = (List.foldl (fun s v => hpmicro_set_mux_body v s) t l).regs a := by
  intro l
  induction l with
  | nil => intro s t h; obtain ⟨w, hw, _⟩ := h; exact absurd hw (List.not_mem_nil w)
  | cons w l ih =>
    intro s t h
    rw [List.foldl_cons, List.foldl_cons]
    by_cases hl : ∃ x ∈ l, ioc_addr HPM_IOC_FUNC_OFFSET (hpmicro_pinmux_to_gpio x) = a
    · exact ih _ _ hl
    · have hfr : ∀ x ∈ l, ioc_addr HPM_IOC_FUNC_OFFSET (hpmicro_pinmux_to_gpio x) ≠ a :=
        fun x hx hxa => hl ⟨x, hx, hxa⟩
      have hw : ioc_addr HPM_IOC_FUNC_OFFSET (hpmicro_pinmux_to_gpio w) = a := by
        obtain ⟨x, hx, hxa⟩ := h
        rcases List.mem_cons.mp hx with rfl | hx2
        · exact hxa
        · exact absurd hxa (hfr x hx2)
      rw [hpmicro_set_mux_foldl_frame a l _ hfr, hpmicro_set_mux_foldl_frame a l _ hfr,
        hpmicro_set_mux_body_regs, hpmicro_set_mux_body_regs, if_pos hw.symm, if_pos hw.symm]

/-- C21: for every initial register state and every group of the table whose
`pinmux` data has one entry per pin, `hpmicro_set_mux` applied a second time
succeeds like the first and leaves every register of the controller, hence
every mux register, with the contents it had after the first application. -/
theorem hpmicro_set_mux_idempotent (groups : List group_desc) (fsel gsel : Nat)
    (group : group_desc) (sfp : hpmicro_pinctrl) (hg : groups.get? gsel = some group)
    (hlen : group.data.length = group.pins.length) :
    ∃ sfp1 sfp2, hpmicro_set_mux groups fsel gsel sfp = some (0, sfp1) ∧
      hpmicro_set_mux groups fsel gsel sfp1 = some (0, sfp2) ∧
      (∀ a, sfp2.regs a = sfp1.regs a) ∧
      (∀ p, hpmicro_func_get sfp2 p = hpmicro_func_get sfp1 p) := by
  have hregs : ∀ a,
      (List.foldl (fun s v => hpmicro_set_mux_body v s)
        (List.foldl (fun s v => hpmicro_set_mux_body v s) sfp group.data) group.data).regs a
      = (List.foldl (fun s v => hpmicro_set_mux_body v s) sfp group.data).regs a := by
    intro a
    by_cases hn : ∃ w ∈ group.data, ioc_addr HPM_IOC_FUNC_OFFSET (hpmicro_pinmux_to_gpio w) = a
    · exact hpmicro_set_mux_foldl_named a group.data _ _ hn
    · exact hpmicro_set_mux_foldl_frame a group.data _ (fun x hx hxa => hn ⟨x, hx, hxa⟩)
  refine ⟨_, _, hpmicro_set_mux_eq_foldl groups fsel gsel group sfp hg hlen,
    hpmicro_set_mux_eq_foldl groups fsel gsel group _ hg hlen, hregs, ?_⟩
  intro p
  unfold hpmicro_func_get
  rw [hregs]

/-- C21 on the group with pins `[4, 5, 4]` and function codes `[2, 3, 7]`: both
applications succeed and the mux registers of pins 4 and 5 hold after the
second what they held after the first. -/
theorem hpmicro_set_mux_idempotent_witness :
    ∃ sfp1 sfp2,
      hpmicro_set_mux
        [{ pins := [4, 5, 4], data := [ALTSELECT 4 2, ALTSELECT 5 3, ALTSELECT 4 7] }] 0 0
        (pinctrl_of 0) = some (0, sfp1) ∧
      hpmicro_set_mux
        [{ pins := [4, 5, 4], data := [ALTSELECT 4 2, ALTSELECT 5 3, ALTSELECT 4 7] }] 0 0
        sfp1 = some (0, sfp2) ∧
      hpmicro_func_get sfp2 4 = hpmicro_func_get sfp1 4 ∧
      hpmicro_func_get sfp2 5 = hpmicro_func_get sfp1 5 := by
  obtain ⟨sfp1, sfp2, h1, h2, _, hf⟩ := hpmicro_set_mux_idempotent
    [{ pins := [4, 5, 4], data := [ALTSELECT 4 2, ALTSELECT 5 3, ALTSELECT 4 7] }] 0 0
    { pins := [4, 5, 4], data := [ALTSELECT 4 2, ALTSELECT 5 3, ALTSELECT 4 7] }
    (pinctrl_of 0) rfl rfl
  exact ⟨sfp1, sfp2, h1, h2, hf 4, hf 5⟩


/-! ## Reading a line -/

theorem hpm_gpio_get_value (offset : Nat) (port : hpm_gpio_port) (h : offset < 32) :
    (hpm_gpio_get offset port).1 = if port.hw.di.testBit offset = true then 1 else 0 := by
  have hb : u32 (1 <<< offset) = 2 ^ offset := u32_one_shiftLeft h
  have hl : (load32 HPM_DI_OFFSET port).1 = u32 port.hw.di := by
    simp [load32, PortRegs.load, HPM_DI_OFFSET]
  have hz : (u32 port.hw.di &&& 2 ^ offset = 0) ↔ port.hw.di.testBit offset = false := by
    rw [and_two_pow_eq_zero_iff, testBit_u32]
    simp [h]
  show (if (load32 HPM_DI_OFFSET port).1 &&& u32 (1 <<< offset) = 0 then (0 : Int) else 1) = _
  rw [hl, hb]
  cases hd : port.hw.di.testBit offset
  · rw [if_pos (hz.mpr hd)]; rfl
  · have : ¬ u32 port.hw.di &&& 2 ^ offset = 0 := fun h0 => by
      rw [hz.mp h0] at hd; exact Bool.noConfusion hd
    rw [if_neg this]; rfl

theorem input_mirrors_output_driven (port : hpm_gpio_port) (offset : Nat)
    (hoe : port.hw.oe.testBit offset = true) :
    (input_mirrors_output port).hw.di.testBit offset = port.hw.dout.testBit offset := by
  show ((port.hw.di &&& not32 port.hw.oe) ||| (port.hw.dout &&& port.hw.oe)).testBit offset = _
  rw [Nat.testBit_or, Nat.testBit_and, Nat.testBit_and, testBit_not32, hoe]
  simp

/-- C22: for every line `offset` in 0..31, 31 included, and every value of the
input register, `hpm_gpio_get` returns exactly 1 when the bit `offset` of
the input register is set and exactly 0 otherwise; it loads the input
register once and changes no register. Hence, on a bank whose input register
mirrors the output latch on output lines, once the line is made an output,
`write(line, 1)` gives `read(line) = 1` and a following `write(line, 0)`
gives `read(line) = 0`. -/
theorem hpm_gpio_get_spec (offset : Nat) (value : Int) (port : hpm_gpio_port)
    (h : offset < 32) :
    (hpm_gpio_get offset port).1 = (if port.hw.di.testBit offset = true then 1 else 0) ∧
    (hpm_gpio_get offset port).2.log = port.log ++ [Event.rd HPM_DI_OFFSET] ∧
    (hpm_gpio_get offset port).2.hw = port.hw ∧
    (hpm_gpio_get offset
      (input_mirrors_output
        (hpm_gpio_set offset 1 (hpm_gpio_dir_out offset value port).2))).1 = 1 ∧
    (hpm_gpio_get offset
      (input_mirrors_output
        (hpm_gpio_set offset 0
          (input_mirrors_output
            (hpm_gpio_set offset 1 (hpm_gpio_dir_out offset value port).2))))).1 = 0 := by
  have hb : u32 (1 <<< offset) = 2 ^ offset := u32_one_shiftLeft h
  have hlt : (2 : Nat) ^ offset < 2 ^ 32 := Nat.pow_lt_pow_right (by decide) h
  have hset1 : ∀ q : hpm_gpio_port, (hpm_gpio_set offset 1 q).hw
      = { q.hw with dout := q.hw.dout ||| 2 ^ offset } := by
    intro q
    simp [hpm_gpio_set, store32, hb, u32_of_lt hlt, PortRegs.store, HPM_SET_OFFSET,
      HPM_DO_OFFSET]
  have hset0 : ∀ q : hpm_gpio_port, (hpm_gpio_set offset 0 q).hw
      = { q.hw with dout := q.hw.dout &&& not32 (2 ^ offset) } := by
    intro q
    simp [hpm_gpio_set, store32, hb, u32_of_lt hlt, PortRegs.store, HPM_SET_OFFSET,
      HPM_CLR_OFFSET, HPM_DO_OFFSET]
  have hdir : (hpm_gpio_dir_out offset value port).2.hw
      = { port.hw with oe := port.hw.oe ||| 2 ^ offset } := by
    simp [hpm_gpio_dir_out, store32, hb, u32_of_lt hlt, PortRegs.store, HPM_DIR_OUT_OFFSET,
      HPM_DO_OFFSET, HPM_SET_OFFSET, HPM_CLR_OFFSET, HPM_TOGGLE_OFFSET]
  have hoe1 : (hpm_gpio_set offset 1 (hpm_gpio_dir_out offset value port).2).hw.oe.testBit offset
      = true := by
    rw [hset1, hdir]
    show (port.hw.oe ||| 2 ^ offset).testBit offset = true
    rw [testBit_or_two_pow]; simp
  have hoe0 : (hpm_gpio_set offset 0 (input_mirrors_output
      (hpm_gpio_set offset 1 (hpm_gpio_dir_out offset value port).2))).hw.oe.testBit offset
      = true := by
    rw [hset0]
    exact hoe1
  refine ⟨hpm_gpio_get_value offset port h, rfl, rfl, ?_, ?_⟩
  · rw [hpm_gpio_get_value _ _ h, input_mirrors_output_driven _ _ hoe1, hset1]
    have : (((hpm_gpio_dir_out offset value port).2.hw.dout) ||| 2 ^ offset).testBit offset
        = true := by
      rw [testBit_or_two_pow]; simp
    rw [if_pos this]
  · rw [hpm_gpio_get_value _ _ h, input_mirrors_output_driven _ _ hoe0, hset0]
    have : ((input_mirrors_output (hpm_gpio_set offset 1
        (hpm_gpio_dir_out offset value port).2)).hw.dout &&& not32 (2 ^ offset)).testBit offset
        = false := by
      rw [testBit_and_not32_two_pow _ _ _ h]; simp
    rw [this]
    rfl

/-- C22 on line 31 of a port whose input register holds `0x80000000`: the
result is exactly 1. -/
theorem hpm_gpio_get_spec_witness :
    (hpm_gpio_get 31 (port_of 0x80000000 0 0 0 0 32)).1 = 1 :=
  (hpm_gpio_get_spec 31 0 (port_of 0x80000000 0 0 0 0 32) (by decide)).1.trans (by decide)


/-! ## Order of the accesses for one serviced line -/

theorem hpm_toggle_trigger_log_exact (offs : Nat) (port : hpm_gpio_port) (h : offs < 32) :
    (hpm_toggle_trigger offs port).log = port.log ++
      [Event.rd HPM_INT_POLARITY_VAL,
       Event.wr HPM_INIT_TYPE_LEVEL_SET_OFFSET (2 ^ offs),
       Event.wr (if port.hw.pl.testBit offs = true then HPM_INT_POLARITY_CLR
                 else HPM_INT_POLARITY_SET) (2 ^ offs)] := by
  have hb : u32 (1 <<< offs) = 2 ^ offs := u32_one_shiftLeft h
  have hload : (load32 HPM_INT_POLARITY_VAL port).1 = u32 port.hw.pl := by
    simp [load32, PortRegs.load, HPM_INT_POLARITY_VAL, HPM_DI_OFFSET, HPM_DO_OFFSET,
      HPM_IF_OFFSET]
  have hcond : ((load32 HPM_INT_POLARITY_VAL port).1 &&& u32 (1 <<< offs) ≠ 0)
      ↔ port.hw.pl.testBit offs = true := by
    rw [hload, hb, Ne, and_two_pow_eq_zero_iff, testBit_u32]
    simp [h]
  dsimp only [hpm_toggle_trigger]
  by_cases hp : port.hw.pl.testBit offs = true
  · rw [if_pos (hcond.mpr hp), if_pos hp]
    simp [store32, load32, hb]
  · rw [if_neg (fun hc => hp (hcond.mp hc)), if_neg hp]
    simp [store32, load32, hb]

/-- C23: in `hpm_do_irq` the lines are serviced one after the other, each by the
loop body, and for a serviced line `i < 32` the body's accesses are, in this
order: the call of the line's handler, one store of exactly the single bit
`2 ^ i` to the pending register and, if and only if the line's trigger kind
masked with the sense mask is edge_both, the polarity toggle of line `i`
(load of the polarity register, store of `2 ^ i` to the type-set register,
store of `2 ^ i` to the polarity-clear or polarity-set register). For a line
of any other kind the body performs the first two accesses only, so no
polarity or type register is written. -/
theorem hpm_do_irq_body_sequence (core : irq_core) (i : Nat) (port : hpm_gpio_port)
    (h : i < 32) :
    (hpm_do_irq core port).2
      = List.foldl (fun p i => hpm_do_irq_body core i p) (load32 HPM_IF_OFFSET port).2
          ((List.range port.ngpio).filter (fun i => (u32 port.hw.ifl).testBit i)) ∧
    (core.irq_get_trigger_type (core.irq_find_mapping i) &&& IRQ_TYPE_SENSE_MASK
        = IRQ_TYPE_EDGE_BOTH →
      (hpm_do_irq_body core i port).log = port.log ++
        [Event.handle (core.irq_find_mapping i),
         Event.wr HPM_IF_OFFSET (2 ^ i),
         Event.rd HPM_INT_POLARITY_VAL,
         Event.wr HPM_INIT_TYPE_LEVEL_SET_OFFSET (2 ^ i),
         Event.wr (if port.hw.pl.testBit i = true then HPM_INT_POLARITY_CLR
                   else HPM_INT_POLARITY_SET) (2 ^ i)]) ∧
    (core.irq_get_trigger_type (core.irq_find_mapping i) &&& IRQ_TYPE_SENSE_MASK
        ≠ IRQ_TYPE_EDGE_BOTH →
      (hpm_do_irq_body core i port).log = port.log ++
        [Event.handle (core.irq_find_mapping i), Event.wr HPM_IF_OFFSET (2 ^ i)] ∧
      (hpm_do_irq_body core i port).hw.pl = port.hw.pl ∧
      (hpm_do_irq_body core i port).hw.tp = port.hw.tp) := by
  have hb : u32 (1 <<< i) = 2 ^ i := u32_one_shiftLeft h
  refine ⟨hpm_do_irq_eq_foldl core port, ?_, ?_⟩
  · intro hk
    have hpl : (store32 HPM_IF_OFFSET (1 <<< i)
        (generic_handle_irq (core.irq_find_mapping i) port)).hw.pl = port.hw.pl := by
      simp [store32, generic_handle_irq, PortRegs.store, HPM_IF_OFFSET, HPM_DO_OFFSET,
        HPM_SET_OFFSET, HPM_CLR_OFFSET, HPM_TOGGLE_OFFSET, HPM_DIR_OUT_OFFSET,
        HPM_DIR_CLR_OFFSET]
    dsimp only [hpm_do_irq_body]
    rw [if_pos hk, hpm_toggle_trigger_log_exact _ _ h, hpl]
    simp [store32, generic_handle_irq, hb]
  · intro hk
    dsimp only [hpm_do_irq_body]
    rw [if_neg hk]
    refine ⟨?_, ?_, ?_⟩
    · simp [store32, generic_handle_irq, hb]
    · simp [store32, generic_handle_irq, PortRegs.store, HPM_IF_OFFSET, HPM_DO_OFFSET,
        HPM_SET_OFFSET, HPM_CLR_OFFSET, HPM_TOGGLE_OFFSET, HPM_DIR_OUT_OFFSET,
        HPM_DIR_CLR_OFFSET]
    · simp [store32, generic_handle_irq, PortRegs.store, HPM_IF_OFFSET, HPM_DO_OFFSET,
        HPM_SET_OFFSET, HPM_CLR_OFFSET, HPM_TOGGLE_OFFSET, HPM_DIR_OUT_OFFSET,
        HPM_DIR_CLR_OFFSET]

/-- C23 for line 2 of a port with clear registers, once with the kind edge_both
and once with the kind edge_rising. -/
theorem hpm_do_irq_body_sequence_witness :
    (hpm_do_irq_body (core_of 64 IRQ_TYPE_EDGE_BOTH) 2 (port_of 0 0 4 0 0 32)).log
      = [Event.handle 66, Event.wr 0x300 4, Event.rd 0x500, Event.wr 0x604 4,
         Event.wr 0x504 4] ∧
    (hpm_do_irq_body (core_of 64 IRQ_TYPE_EDGE_RISING) 2 (port_of 0 0 4 0 0 32)).log
      = [Event.handle 66, Event.wr 0x300 4] :=
  ⟨((hpm_do_irq_body_sequence (core_of 64 IRQ_TYPE_EDGE_BOTH) 2 (port_of 0 0 4 0 0 32)
      (by decide)).2.1 (by decide)).trans (by decide),
   ((hpm_do_irq_body_sequence (core_of 64 IRQ_TYPE_EDGE_RISING) 2 (port_of 0 0 4 0 0 32)
      (by decide)).2.2 (by decide)).1.trans (by decide)⟩


/-! ## The polarity toggle -/

theorem hpm_toggle_trigger_pl (offs : Nat) (port : hpm_gpio_port) (h : offs < 32)
    (hp : port.hw.pl < 2 ^ 32) :
    (hpm_toggle_trigger offs port).hw.pl = port.hw.pl ^^^ 2 ^ offs := by
  rw [hpm_toggle_trigger_hw offs port h]
  show (if port.hw.pl.testBit offs = true then port.hw.pl &&& not32 (2 ^ offs)
        else port.hw.pl ||| 2 ^ offs) = _
  apply Nat.eq_of_testBit_eq
  intro j
  rw [Nat.testBit_xor, Nat.testBit_two_pow]
  by_cases hb : port.hw.pl.testBit offs = true
  · rw [if_pos hb, Nat.testBit_and, testBit_not32, Nat.testBit_two_pow]
    by_cases e : offs = j
    · subst e; simp [hb]
    · by_cases hj : j < 32
      · simp [e, hj]
      · simp [e, hj, testBit_eq_false_of_lt hp (Nat.le_of_not_lt hj)]
  · have hb2 : port.hw.pl.testBit offs = false := by simpa using hb
    rw [if_neg hb, Nat.testBit_or, Nat.testBit_two_pow]
    by_cases e : offs = j
    · subst e; simp [hb2]
    · simp [e]

/-- C24: for every 32-bit polarity register value and every line `offs` in
0..31, `hpm_toggle_trigger` leaves the polarity register equal to the old
value XOR `2 ^ offs`: the line's own polarity bit is flipped and every other
polarity bit is unchanged; the line's type bit is set to edge and no other
type bit changes; no other register changes; and two consecutive toggles
restore the original polarity register. -/
theorem hpm_toggle_trigger_spec (offs : Nat) (port : hpm_gpio_port) (h : offs < 32)
    (hp : port.hw.pl < 2 ^ 32) :
    (hpm_toggle_trigger offs port).hw.pl = port.hw.pl ^^^ 2 ^ offs ∧
    (hpm_toggle_trigger offs port).hw.pl.testBit offs = (!port.hw.pl.testBit offs) ∧
    (∀ j, j ≠ offs →
      (hpm_toggle_trigger offs port).hw.pl.testBit j = port.hw.pl.testBit j) ∧
    (hpm_toggle_trigger offs port).hw.tp.testBit offs = true ∧
    (∀ j, j ≠ offs →
      (hpm_toggle_trigger offs port).hw.tp.testBit j = port.hw.tp.testBit j) ∧
    (hpm_toggle_trigger offs port).hw
      = { port.hw with pl := port.hw.pl ^^^ 2 ^ offs, tp := port.hw.tp ||| 2 ^ offs } ∧
    (hpm_toggle_trigger offs (hpm_toggle_trigger offs port)).hw.pl = port.hw.pl := by
  have hpl := hpm_toggle_trigger_pl offs port h hp
  have hlt : (2 : Nat) ^ offs < 2 ^ 32 := Nat.pow_lt_pow_right (by decide) h
  have htp : (hpm_toggle_trigger offs port).hw.tp = port.hw.tp ||| 2 ^ offs := by
    rw [hpm_toggle_trigger_hw offs port h]
  refine ⟨hpl, ?_, ?_, ?_, ?_, ?_, ?_⟩
  · rw [hpl, Nat.testBit_xor, Nat.testBit_two_pow]; simp
  · intro j hj
    have : ¬ offs = j := fun e => hj e.symm
    rw [hpl, Nat.testBit_xor, Nat.testBit_two_pow]; simp [this]
  · rw [htp, testBit_or_two_pow]; simp
  · intro j hj
    have : ¬ offs = j := fun e => hj e.symm
    rw [htp, testBit_or_two_pow]; simp [this]
  · have hhw := hpm_toggle_trigger_hw offs port h
    rw [hhw] at hpl
    rw [hhw]
    have hpl2 : (if port.hw.pl.testBit offs = true then port.hw.pl &&& not32 (2 ^ offs)
        else port.hw.pl ||| 2 ^ offs) = port.hw.pl ^^^ 2 ^ offs := hpl
    rw [hpl2]
  · have hp2 : (hpm_toggle_trigger offs port).hw.pl < 2 ^ 32 := by
      rw [hpl]; exact Nat.xor_lt_two_pow hp hlt
    rw [hpm_toggle_trigger_pl offs _ h hp2, hpl, Nat.xor_assoc, Nat.xor_self, Nat.xor_zero]

/-- C24 on line 4 of a port whose polarity register holds `0x13`: the register
becomes `0x03`, and `0x13` again after a second toggle. -/
theorem hpm_toggle_trigger_spec_witness :
    (hpm_toggle_trigger 4 (port_of 0 0 0 0x13 0 32)).hw.pl = 0x03 ∧
    (hpm_toggle_trigger 4 (hpm_toggle_trigger 4 (port_of 0 0 0 0x13 0 32))).hw.pl = 0x13 :=
  ⟨(hpm_toggle_trigger_spec 4 (port_of 0 0 0 0x13 0 32) (by decide) (by decide)).1.trans
      (by decide),
   (hpm_toggle_trigger_spec 4 (port_of 0 0 0 0x13 0 32) (by decide) (by decide)).2.2.2.2.2.2⟩


/-! ## End of interrupt -/

theorem hpmicro_set_mux_body_log (v : Nat) (sfp : hpmicro_pinctrl) :
    (hpmicro_set_mux_body v sfp).log = sfp.log ++
      [IocEvent.lock,
       IocEvent.wr (ioc_addr HPM_IOC_FUNC_OFFSET (hpmicro_pinmux_to_gpio v))
         (hpmicro_pinmux_to_func v),
       IocEvent.unlock] := by
  have hf : u32 (hpmicro_pinmux_to_func v) = hpmicro_pinmux_to_func v :=
    u32_of_lt (Nat.lt_trans (hpmicro_pinmux_to_func_lt v) (by decide))
  simp [hpmicro_set_mux_body, hpmicro_func_set, ioc_store, raw_spin_lock_irqsave,
    raw_spin_unlock_irqrestore, hf]

theorem hpmicro_set_mux_foldl_log :
    ∀ (l : List Nat) (sfp : hpmicro_pinctrl),
      (List.foldl (fun s v => hpmicro_set_mux_body v s) sfp l).log = sfp.log ++
        l.flatMap (fun v =>
          [IocEvent.lock,
           IocEvent.wr (ioc_addr HPM_IOC_FUNC_OFFSET (hpmicro_pinmux_to_gpio v))
             (hpmicro_pinmux_to_func v),
           IocEvent.unlock]) := by
  intro l
  induction l with
  | nil => intro sfp; simp
  | cons v l ih =>
    intro sfp
    rw [List.foldl_cons, ih, hpmicro_set_mux_body_log, List.flatMap_cons, List.append_assoc]

/-- C26, the claim fails: on the group with pins `[4, 5]` and function codes
`[2, 3]` the lock is released after the mux write of pin 4 and taken again
before the mux write of pin 5. -/
theorem hpmicro_set_mux_lock_counterexample :
    (hpmicro_set_mux [{ pins := [4, 5], data := [ALTSELECT 4 2, ALTSELECT 5 3] }] 0 0
      (pinctrl_of 0)).map (fun r => r.2.log)
      = some [IocEvent.lock, IocEvent.wr 32 2, IocEvent.unlock,
              IocEvent.lock, IocEvent.wr 40 3, IocEvent.unlock] := by
  decide

/-- C26 as amended: `hpmicro_set_mux` takes and releases the lock around each
single mux write. For a group of the table whose data is `v_0 .. v_(n-1)` the
events are, for each entry in order, the lock, the store of the entry's
function code to the mux register of the entry's pin, and the unlock; so
the lock is taken before the first mux write and released after the last,
and it is also released and taken again between two consecutive mux writes. -/
theorem hpmicro_set_mux_lock (groups : List group_desc) (fsel gsel : Nat)
    (group : group_desc) (sfp : hpmicro_pinctrl) (hg : groups.get? gsel = some group)
    (hlen : group.data.length = group.pins.length) :
    ∃ sfp1, hpmicro_set_mux groups fsel gsel sfp = some (0, sfp1) ∧
      sfp1.log = sfp.log ++
        group.data.flatMap (fun v =>
          [IocEvent.lock,
           IocEvent.wr (ioc_addr HPM_IOC_FUNC_OFFSET (hpmicro_pinmux_to_gpio v))
             (hpmicro_pinmux_to_func v),
           IocEvent.unlock]) :=
  ⟨_, hpmicro_set_mux_eq_foldl groups fsel gsel group sfp hg hlen,
    hpmicro_set_mux_foldl_log group.data sfp⟩

/-- C26 as amended, on the group with the single pin 4 and function code 2. -/
theorem hpmicro_set_mux_lock_witness :
    ∃ sfp1, hpmicro_set_mux [{ pins := [4], data := [ALTSELECT 4 2] }] 0 0 (pinctrl_of 0)
        = some (0, sfp1) ∧
      sfp1.log = [IocEvent.lock, IocEvent.wr 32 2, IocEvent.unlock] := by
  obtain ⟨sfp1, h, hlog⟩ := hpmicro_set_mux_lock [{ pins := [4], data := [ALTSELECT 4 2] }] 0 0
    { pins := [4], data := [ALTSELECT 4 2] } (pinctrl_of 0) rfl rfl
  exact ⟨sfp1, h, hlog.trans (by decide)⟩


/-! ## Read-back of the bias modes -/

/-- C27, what the code does: after
`hpmicro_pinconf_set(pin, [(pull-up, v), (bias-disable, w)])` the pad register
has the pull-up bit set and the bias-enable bit clear. The pull-up query of
`hpmicro_pinconf_get` tests the pull-up bit alone, so it returns 0 (enabled),
and the bias-disable query returns 0 (enabled) as well: two bias modes
report enabled on the same pad value. The pull-down query does not assign
`enabled` on that value and returns whatever the uninitialised variable
`e2` decides. -/
theorem hpmicro_pinconf_bias_readback_overlap (sfp : hpmicro_pinctrl) (pin v w a0 a1 a2 : Nat)
    (e0 e1 e2 : Bool) :
    hpmicro_pinconf_get
        (hpmicro_pinconf_set pin
          [{ param := pin_config_param.PIN_CONFIG_BIAS_PULL_UP, arg := v },
           { param := pin_config_param.PIN_CONFIG_BIAS_DISABLE, arg := w }] sfp).2 pin
        { param := pin_config_param.PIN_CONFIG_BIAS_DISABLE, arg := a0 } e0
      = (0, { param := pin_config_param.PIN_CONFIG_BIAS_DISABLE, arg := 0 }) ∧
    hpmicro_pinconf_get
        (hpmicro_pinconf_set pin
          [{ param := pin_config_param.PIN_CONFIG_BIAS_PULL_UP, arg := v },
           { param := pin_config_param.PIN_CONFIG_BIAS_DISABLE, arg := w }] sfp).2 pin
        { param := pin_config_param.PIN_CONFIG_BIAS_PULL_UP, arg := a1 } e1
      = (0, { param := pin_config_param.PIN_CONFIG_BIAS_PULL_UP, arg := 1 }) ∧
    hpmicro_pinconf_get
        (hpmicro_pinconf_set pin
          [{ param := pin_config_param.PIN_CONFIG_BIAS_PULL_UP, arg := v },
           { param := pin_config_param.PIN_CONFIG_BIAS_DISABLE, arg := w }] sfp).2 pin
        { param := pin_config_param.PIN_CONFIG_BIAS_PULL_DOWN, arg := a2 } e2
      = (if e2 = true then 0 else -EINVAL,
          { param := pin_config_param.PIN_CONFIG_BIAS_PULL_DOWN, arg := 1 }) := by
  have hbe : to_bool (((((((hpmicro_padctl_get sfp pin &&& not32 (BIT 18)) ||| u32 (BIT 18))
      &&& not32 (BIT 17)) ||| u32 (BIT 17)) &&& not32 (BIT 17)) ||| u32 0) &&& BIT 17)
      = false := by
    rw [to_bool_and_BIT _ 17 (by decide), testBit_rmw, testBit_BIT 17 17 (by decide)]
    simp
  have hpu : to_bool (((((((hpmicro_padctl_get sfp pin &&& not32 (BIT 18)) ||| u32 (BIT 18))
      &&& not32 (BIT 17)) ||| u32 (BIT 17)) &&& not32 (BIT 17)) ||| u32 0) &&& BIT 18)
      = true := by
    rw [to_bool_and_BIT _ 18 (by decide), testBit_rmw, testBit_BIT 17 18 (by decide),
      testBit_rmw_BIT_other _ 17 18 (by decide) (by decide) (by decide),
      testBit_rmw_BIT_self _ 18 (by decide)]
    simp
  refine ⟨?_, ?_, ?_⟩
  · simp only [hpmicro_pinconf_set, hpmicro_pinconf_get, hpmicro_padctl_rmw_get,
      PAD_BIAS_PULL_UP, PAD_BIAS_ENABLE, hbe]
    simp
    rfl
  · simp only [hpmicro_pinconf_set, hpmicro_pinconf_get, hpmicro_padctl_rmw_get,
      PAD_BIAS_PULL_UP, PAD_BIAS_ENABLE, hpu]
    simp
    rfl
  · simp only [hpmicro_pinconf_set, hpmicro_pinconf_get, hpmicro_padctl_rmw_get,
      PAD_BIAS_PULL_UP, PAD_BIAS_ENABLE, hbe, hpu]
    simp
    rfl

/-- C27 at the failing input: pull-up with argument 1, then bias-disable with
argument 0, are set on pin 7 of a controller whose registers hold 0; the
bias-disable query and the pull-up query both return 0, that is enabled. -/
theorem hpmicro_pinconf_bias_readback_overlap_witness :
    (hpmicro_pinconf_get
        (hpmicro_pinconf_set 7
          [{ param := pin_config_param.PIN_CONFIG_BIAS_PULL_UP, arg := 1 },
           { param := pin_config_param.PIN_CONFIG_BIAS_DISABLE, arg := 0 }] (pinctrl_of 0)).2 7
        { param := pin_config_param.PIN_CONFIG_BIAS_DISABLE, arg := 0 } false).1 = 0 ∧
    (hpmicro_pinconf_get
        (hpmicro_pinconf_set 7
          [{ param := pin_config_param.PIN_CONFIG_BIAS_PULL_UP, arg := 1 },
           { param := pin_config_param.PIN_CONFIG_BIAS_DISABLE, arg := 0 }] (pinctrl_of 0)).2 7
        { param := pin_config_param.PIN_CONFIG_BIAS_PULL_UP, arg := 0 } false).1 = 0 :=
  ⟨congrArg Prod.fst
      (hpmicro_pinconf_bias_readback_overlap (pinctrl_of 0) 7 1 0 0 0 0 false false false).1,
    congrArg Prod.fst
      (hpmicro_pinconf_bias_readback_overlap (pinctrl_of 0) 7 1 0 0 0 0 false false false).2.1⟩

/-! ## Direction out and the output latch -/

/-- C28: `hpm_gpio_dir_out` ignores its value argument. For a line
`offset < 32` and any two requested values the result is the same; the only
register access is one store of `2 ^ offset` to the direction-set register;
nothing is stored to the output set register or the output clear register;
the output latch keeps its value, the only register that changes being the
output enable, which gains the bit of the line; and the return value is 0. -/
theorem hpm_gpio_dir_out_ignores_value (offset : Nat) (v1 v2 : Int) (port : hpm_gpio_port)
    (h : offset < 32) :
    hpm_gpio_dir_out offset v1 port = hpm_gpio_dir_out offset v2 port ∧
    (hpm_gpio_dir_out offset v1 port).2.log
      = port.log ++ [Event.wr HPM_DIR_OUT_OFFSET (2 ^ offset)] ∧
    stores_to HPM_SET_OFFSET ((hpm_gpio_dir_out offset v1 port).2.log.drop port.log.length)
      = [] ∧
    stores_to HPM_CLR_OFFSET ((hpm_gpio_dir_out offset v1 port).2.log.drop port.log.length)
      = [] ∧
    (hpm_gpio_dir_out offset v1 port).2.hw.dout = port.hw.dout ∧
    (hpm_gpio_dir_out offset v1 port).2.hw
      = { port.hw with oe := port.hw.oe ||| 2 ^ offset } ∧
    (hpm_gpio_dir_out offset v1 port).1 = 0 := by
  have hb : u32 (1 <<< offset) = 2 ^ offset := u32_one_shiftLeft h
  have hlt : (2 : Nat) ^ offset < 2 ^ 32 := Nat.pow_lt_pow_right (by decide) h
  have hlog : (hpm_gpio_dir_out offset v1 port).2.log
      = port.log ++ [Event.wr HPM_DIR_OUT_OFFSET (2 ^ offset)] := by
    simp [hpm_gpio_dir_out, store32, hb, u32_of_lt hlt]
  have hhw : (hpm_gpio_dir_out offset v1 port).2.hw
      = { port.hw with oe := port.hw.oe ||| 2 ^ offset } := by
    simp [hpm_gpio_dir_out, store32, PortRegs.store, hb, u32_of_lt hlt, HPM_DIR_OUT_OFFSET,
      HPM_DO_OFFSET, HPM_SET_OFFSET, HPM_CLR_OFFSET, HPM_TOGGLE_OFFSET]
  refine ⟨rfl, hlog, ?_, ?_, ?_, hhw, rfl⟩
  · rw [hlog, List.drop_left]
    simp [stores_to, HPM_DIR_OUT_OFFSET, HPM_SET_OFFSET]
  · rw [hlog, List.drop_left]
    simp [stores_to, HPM_DIR_OUT_OFFSET, HPM_CLR_OFFSET]
  · rw [hhw]

/-- C28 on line 5 of a port whose output latch holds `0x20`: the requested
values 0 and 1 give the same result, and the latch still holds `0x20`. -/
theorem hpm_gpio_dir_out_ignores_value_witness :
    hpm_gpio_dir_out 5 0 (port_of 0 0x20 0 0 0 32)
      = hpm_gpio_dir_out 5 1 (port_of 0 0x20 0 0 0 32) ∧
    (hpm_gpio_dir_out 5 0 (port_of 0 0x20 0 0 0 32)).2.hw.dout = 0x20 :=
  ⟨(hpm_gpio_dir_out_ignores_value 5 0 1 (port_of 0 0x20 0 0 0 32) (by decide)).1,
    (hpm_gpio_dir_out_ignores_value 5 0 1 (port_of 0 0x20 0 0 0 32)
      (by decide)).2.2.2.2.1⟩

/-! ## The index into the chip table -/

/-- C30, what the code does: `hpm_gpio_probe` allocates `gpio->chip` with
`n_ports` entries but accepts a child by comparing its port index `idx` with
the constant 8 only. A child with `idx < 8` is therefore set up, its chip
stored at index `idx`, for every value of `n_ports`: also when
`n_ports ≤ idx`, where the store lies outside the table. -/
theorem hpm_gpio_probe_chip_index_unchecked (n_ports idx : Nat) (status0 : Int) (h : idx < 8) :
    hpm_gpio_probe true true n_ports status0
        [{ reg := some idx, ngpios := none, new_dev_ok := true, port_data_ok := true,
           irq := 0 }]
      = (0, [{ port_index := idx, base := idx * 0x10, ngpio := 32, irq_num := 0 }]) ∧
    (n_ports ≤ idx →
      ∃ p ∈ (hpm_gpio_probe true true n_ports status0
          [{ reg := some idx, ngpios := none, new_dev_ok := true, port_data_ok := true,
             irq := 0 }]).2, ¬ p.port_index < n_ports) := by
  have h1 : ¬ idx ≥ HPM_MAX_PORTS := by unfold HPM_MAX_PORTS; omega
  have hp : hpm_gpio_probe true true n_ports status0
        [{ reg := some idx, ngpios := none, new_dev_ok := true, port_data_ok := true,
           irq := 0 }]
      = (0, [{ port_index := idx, base := idx * 0x10, ngpio := 32, irq_num := 0 }]) := by
    simp [hpm_gpio_probe, hpm_gpio_probe_loop, h1, u16]
  refine ⟨hp, ?_⟩
  intro hn
  rw [hp]
  exact ⟨_, List.mem_singleton.mpr rfl, by simpa using hn⟩

/-- C30 at the failing input: `n-ports` is 2 and the child has `reg = 5`; the
port is set up with its chip stored at index 5 of a table of 2 entries. -/
theorem hpm_gpio_probe_chip_index_unchecked_witness :
    hpm_gpio_probe true true 2 0
        [{ reg := some 5, ngpios := none, new_dev_ok := true, port_data_ok := true,
           irq := 0 }]
      = (0, [{ port_index := 5, base := 0x50, ngpio := 32, irq_num := 0 }]) :=
  (hpm_gpio_probe_chip_index_unchecked 2 5 0 (by decide)).1


/-! ## Bounds of the map array -/

theorem hpmicro_dt_node_to_map_count_sum :
    ∀ (children : List group_node) (n g alloc g1 : Nat),
      hpmicro_dt_node_to_map_count children n g = Except.ok (alloc, g1) →
      alloc = n + (children.map group_node.map_entries).sum := by
  intro children
  induction children with
  | nil =>
    intro n g alloc g1 h
    simp only [hpmicro_dt_node_to_map_count, Except.ok.injEq, Prod.mk.injEq] at h
    simp [h.1]
  | cons child rest ih =>
    intro n g alloc g1 h
    unfold hpmicro_dt_node_to_map_count at h
    split at h
    · exact Except.noConfusion h
    · split at h
      · exact Except.noConfusion h
      · have := ih _ _ _ _ h
        rw [this, List.map_cons, List.sum_cons]
        unfold group_node.map_entries
        split <;> omega

theorem hpmicro_dt_node_to_map_add_ok (child : group_node) (pins pinmux : List Nat)
    (st st1 : dt_pass_state)
    (h : hpmicro_dt_node_to_map_add child pins pinmux st = Except.ok st1) :
    st1.nmaps ≤ st.nmaps + 1 ∧
      st1.map_writes = st.map_writes ++ hpmicro_dt_node_to_map_add_writes child st := by
  unfold hpmicro_dt_node_to_map_add at h
  unfold hpmicro_dt_node_to_map_add_writes
  split at h
  · exact Except.noConfusion h
  · next hlt =>
    rw [if_neg hlt]
    dsimp only at h
    split at h
    · exact Except.noConfusion h
    · split at h
      · rw [← Except.ok.inj h]
        exact ⟨Nat.le_succ _, rfl⟩
      · rw [← Except.ok.inj h]
        exact ⟨Nat.le_refl _, rfl⟩

theorem hpmicro_dt_node_to_map_add_writes_lt (child : group_node) (st : dt_pass_state)
    (n : Nat) (h : st.nmaps < n) :
    ∀ i ∈ hpmicro_dt_node_to_map_add_writes child st, i < n := by
  intro i hi
  unfold hpmicro_dt_node_to_map_add_writes at hi
  split at hi
  · exact absurd hi (List.not_mem_nil i)
  · rw [List.mem_singleton.mp hi]
    exact h

theorem hpmicro_dt_node_to_map_child_writes_lt (child : group_node) (st : dt_pass_state)
    (n : Nat) (h : st.nmaps ≤ n) :
    ∀ i ∈ hpmicro_dt_node_to_map_child_writes child st, i < n + child.map_entries := by
  intro i hi
  unfold hpmicro_dt_node_to_map_child_writes at hi
  unfold group_node.map_entries
  split at hi
  · exact absurd hi (List.not_mem_nil i)
  · split at hi
    · next hmux =>
      rw [if_pos hmux]
      split at hi
      · exact absurd hi (List.not_mem_nil i)
      · split at hi
        · exact absurd hi (List.not_mem_nil i)
        · split at hi
          · exact absurd hi (List.not_mem_nil i)
          · rcases List.mem_cons.mp hi with rfl | hr
            · omega
            · exact hpmicro_dt_node_to_map_add_writes_lt child _ _
                (show st.nmaps + 1 < n + 2 by omega) i hr
    · next hmux =>
      rw [if_neg hmux]
      split at hi
      · split at hi
        · exact absurd hi (List.not_mem_nil i)
        · split at hi
          · exact absurd hi (List.not_mem_nil i)
          · exact hpmicro_dt_node_to_map_add_writes_lt child _ _
              (show st.nmaps < n + 1 by omega) i hi
      · exact absurd hi (List.not_mem_nil i)

theorem hpmicro_dt_node_to_map_child_ok_writes (child : group_node) (st st1 : dt_pass_state)
    (h : hpmicro_dt_node_to_map_child child st = Except.ok st1) :
    st1.nmaps ≤ st.nmaps + child.map_entries ∧
      st1.map_writes = st.map_writes ++ hpmicro_dt_node_to_map_child_writes child st := by
  unfold hpmicro_dt_node_to_map_child at h
  unfold hpmicro_dt_node_to_map_child_writes
  unfold group_node.map_entries
  split at h
  · exact Except.noConfusion h
  · next hgrp =>
    rw [if_neg hgrp]
    dsimp only at h
    split at h
    · next hmux =>
      rw [if_pos hmux, if_pos hmux]
      split at h
      · exact Except.noConfusion h
      · next hpa =>
        rw [if_neg hpa]
        split at h
        · exact Except.noConfusion h
        · next hma =>
          rw [if_neg hma]
          split at h
          · exact Except.noConfusion h
          · next hrd =>
            rw [if_neg hrd]
            obtain ⟨h1, h2⟩ := hpmicro_dt_node_to_map_add_ok _ _ _ _ _ h
            refine ⟨?_, ?_⟩
            · simp only at h1
              omega
            · rw [h2]
              simp [hpmicro_dt_node_to_map_add_writes]
    · next hmux =>
      rw [if_neg hmux, if_neg hmux]
      split at h
      · next hpins =>
        rw [if_pos hpins]
        split at h
        · exact Except.noConfusion h
        · next hpa =>
          rw [if_neg hpa]
          split at h
          · exact Except.noConfusion h
          · next hrd =>
            rw [if_neg hrd]
            obtain ⟨h1, h2⟩ := hpmicro_dt_node_to_map_add_ok _ _ _ _ _ h
            refine ⟨?_, ?_⟩
            · simp only at h1
              omega
            · rw [h2]
              simp [hpmicro_dt_node_to_map_add_writes]
      · exact Except.noConfusion h

theorem hpmicro_dt_node_to_map_writes_bound :
    ∀ (children : List group_node) (n g alloc g1 : Nat) (st : dt_pass_state),
      hpmicro_dt_node_to_map_count children n g = Except.ok (alloc, g1) →
      st.nmaps ≤ n →
      (∀ i ∈ hpmicro_dt_node_to_map_writes children st, i < alloc) ∧
      (∀ st1, hpmicro_dt_node_to_map_fill children st = Except.ok st1 →
        st1.nmaps ≤ alloc ∧
        st1.map_writes = st.map_writes ++ hpmicro_dt_node_to_map_writes children st) := by
  intro children
  induction children with
  | nil =>
    intro n g alloc g1 st h hle
    simp only [hpmicro_dt_node_to_map_count, Except.ok.injEq, Prod.mk.injEq] at h
    refine ⟨fun i hi => absurd hi (List.not_mem_nil i), ?_⟩
    intro st1 hf
    simp only [hpmicro_dt_node_to_map_fill, Except.ok.injEq] at hf
    rw [← hf, ← h.1]
    exact ⟨hle, by simp [hpmicro_dt_node_to_map_writes]⟩
  | cons child rest ih =>
    intro n g alloc g1 st h hle
    have hsum := hpmicro_dt_node_to_map_count_sum _ _ _ _ _ h
    rw [List.map_cons, List.sum_cons] at hsum
    have hrest : hpmicro_dt_node_to_map_count rest (n + child.map_entries) (g + 1)
        = Except.ok (alloc, g1) := by
      unfold hpmicro_dt_node_to_map_count at h
      split at h
      · exact Except.noConfusion h
      · split at h
        · exact Except.noConfusion h
        · unfold group_node.map_entries
          split
          · next hm => rw [if_pos hm] at h; exact h
          · next hm => rw [if_neg hm] at h; exact h
    have hcw := hpmicro_dt_node_to_map_child_writes_lt child st n hle
    refine ⟨?_, ?_⟩
    · intro i hi
      unfold hpmicro_dt_node_to_map_writes at hi
      rcases List.mem_append.mp hi with hc | hr
      · have := hcw i hc
        omega
      · cases hch : hpmicro_dt_node_to_map_child child st with
        | error e =>
          rw [hch] at hr
          exact absurd hr (List.not_mem_nil i)
        | ok st2 =>
          rw [hch] at hr
          have hst2 := (hpmicro_dt_node_to_map_child_ok_writes child st st2 hch).1
          exact (ih _ _ _ _ st2 hrest (by omega)).1 i hr
    · intro st1 hf
      unfold hpmicro_dt_node_to_map_fill at hf
      unfold hpmicro_dt_node_to_map_writes
      cases hch : hpmicro_dt_node_to_map_child child st with
      | error e =>
        rw [hch] at hf
        exact Except.noConfusion hf
      | ok st2 =>
        rw [hch] at hf
        obtain ⟨hst2, hw2⟩ := hpmicro_dt_node_to_map_child_ok_writes child st st2 hch
        obtain ⟨hb, hw⟩ := (ih _ _ _ _ st2 hrest (by omega)).2 st1 hf
        refine ⟨hb, ?_⟩
        rw [hw, hw2, List.append_assoc]


/-- C29: when the first pass of `hpmicro_dt_node_to_map` accepts the children,
the two passes reading the same pinmux and pins counts, it allocates `alloc`
entries, 2 per child with a pinmux list and 1 per other child. Every index
of `map` the second pass accesses, up to and including a child at which it
leaves with an error, is below `alloc`; when the second pass completes, the
indices it has recorded are exactly those and its `nmaps` is at most
`alloc`; and when the function returns 0 the map count handed back is at
most `alloc`. -/
theorem hpmicro_dt_node_to_map_in_bounds (env : dt_env) (children : List group_node)
    (alloc ngroups : Nat)
    (hcount : hpmicro_dt_node_to_map_count children 0 0 = Except.ok (alloc, ngroups)) :
    alloc = (children.map group_node.map_entries).sum ∧
    (∀ i ∈ hpmicro_dt_node_to_map_writes children
        { nmaps := 0, ngroups := 0, map_writes := [], groups := [] }, i < alloc) ∧
    (∀ st, hpmicro_dt_node_to_map_fill children
        { nmaps := 0, ngroups := 0, map_writes := [], groups := [] } = Except.ok st →
      st.nmaps ≤ alloc ∧
      st.map_writes = hpmicro_dt_node_to_map_writes children
        { nmaps := 0, ngroups := 0, map_writes := [], groups := [] }) ∧
    (∀ st, hpmicro_dt_node_to_map env children = (0, some st) →
      st.nmaps ≤ alloc ∧ ∀ i ∈ st.map_writes, i < alloc) := by
  have hb := hpmicro_dt_node_to_map_writes_bound children 0 0 alloc ngroups
    { nmaps := 0, ngroups := 0, map_writes := [], groups := [] } hcount (Nat.le_refl 0)
  have hfill : ∀ st, hpmicro_dt_node_to_map_fill children
        { nmaps := 0, ngroups := 0, map_writes := [], groups := [] } = Except.ok st →
      st.nmaps ≤ alloc ∧
      st.map_writes = hpmicro_dt_node_to_map_writes children
        { nmaps := 0, ngroups := 0, map_writes := [], groups := [] } := by
    intro st hf
    have := hb.2 st hf
    exact ⟨this.1, by rw [this.2]; rfl⟩
  refine ⟨?_, hb.1, hfill, ?_⟩
  · rw [hpmicro_dt_node_to_map_count_sum _ _ _ _ _ hcount, Nat.zero_add]
  · intro st h
    unfold hpmicro_dt_node_to_map at h
    rw [hcount] at h
    dsimp only at h
    split at h
    · exact absurd (congrArg Prod.snd h) (by simp)
    · split at h
      · exact absurd (congrArg Prod.snd h) (by simp)
      · split at h
        · exact absurd (congrArg Prod.snd h) (by simp)
        · next st1 hf =>
          split at h
          · exact absurd (congrArg Prod.snd h) (by simp)
          · have hst : st1 = st := Option.some.inj (congrArg Prod.snd h)
            subst hst
            obtain ⟨h1, h2⟩ := hfill st1 hf
            refine ⟨h1, ?_⟩
            rw [h2]
            exact hb.1

/-- C29 on a node with two children, the first with a pinmux list of two
cells and a configuration, the second with a pins list of one cell and no
configuration: the first pass allocates 3 entries and the second pass
accesses the indices 0, 1 and 2. -/
theorem hpmicro_dt_node_to_map_in_bounds_witness :
    hpmicro_dt_node_to_map_count
        [{ npinmux := 2, npins := -22, pinmux := [ALTSELECT 4 2, ALTSELECT 5 3], pins := [],
           grpname_ok := true, pins_alloc_ok := true, pinmux_alloc_ok := true, read_ret := 0,
           add_group_ret := 0, parse_ret := 0, num_configs := 1 },
         { npinmux := -22, npins := 1, pinmux := [], pins := [7],
           grpname_ok := true, pins_alloc_ok := true, pinmux_alloc_ok := true, read_ret := 0,
           add_group_ret := 0, parse_ret := 0, num_configs := 0 }] 0 0 = Except.ok (3, 2) ∧
    hpmicro_dt_node_to_map_writes
        [{ npinmux := 2, npins := -22, pinmux := [ALTSELECT 4 2, ALTSELECT 5 3], pins := [],
           grpname_ok := true, pins_alloc_ok := true, pinmux_alloc_ok := true, read_ret := 0,
           add_group_ret := 0, parse_ret := 0, num_configs := 1 },
         { npinmux := -22, npins := 1, pinmux := [], pins := [7],
           grpname_ok := true, pins_alloc_ok := true, pinmux_alloc_ok := true, read_ret := 0,
           add_group_ret := 0, parse_ret := 0, num_configs := 0 }]
        { nmaps := 0, ngroups := 0, map_writes := [], groups := [] } = [0, 1, 2] ∧
    ∀ i ∈ hpmicro_dt_node_to_map_writes
        [{ npinmux := 2, npins := -22, pinmux := [ALTSELECT 4 2, ALTSELECT 5 3], pins := [],
           grpname_ok := true, pins_alloc_ok := true, pinmux_alloc_ok := true, read_ret := 0,
           add_group_ret := 0, parse_ret := 0, num_configs := 1 },
         { npinmux := -22, npins := 1, pinmux := [], pins := [7],
           grpname_ok := true, pins_alloc_ok := true, pinmux_alloc_ok := true, read_ret := 0,
           add_group_ret := 0, parse_ret := 0, num_configs := 0 }]
        { nmaps := 0, ngroups := 0, map_writes := [], groups := [] }, i < 3 :=
  ⟨by rfl, by decide,
    (hpmicro_dt_node_to_map_in_bounds { pgnames_ok := true, map_ok := true, add_function_ret := 0 }
        [{ npinmux := 2, npins := -22, pinmux := [ALTSELECT 4 2, ALTSELECT 5 3], pins := [],
           grpname_ok := true, pins_alloc_ok := true, pinmux_alloc_ok := true, read_ret := 0,
           add_group_ret := 0, parse_ret := 0, num_configs := 1 },
         { npinmux := -22, npins := 1, pinmux := [], pins := [7],
           grpname_ok := true, pins_alloc_ok := true, pinmux_alloc_ok := true, read_ret := 0,
           add_group_ret := 0, parse_ret := 0, num_configs := 0 }] 3 2 (by rfl)).2.1⟩


/-! ## The pin table -/

set_option maxRecDepth 100000 in
theorem hpmicro_pins_length : hpmicro_pins.length = 288 := by decide

set_option maxRecDepth 100000 in
theorem hpmicro_pins_numbers :
    hpmicro_pins.map (fun d => d.number) = List.range 288 := by
  decide

set_option maxRecDepth 100000 in
theorem hpmicro_pins_names :
    hpmicro_pins.map (fun d => d.name)
      = (List.range 288).map (fun k => if k = 11 then "PA1" else spec_pin_name k) := by
  decide

/-- C31, what the code does: `hpmicro_pins` has 288 entries and for every
`k < 288` the entry `k` has the pin number `k`; its name is the one the
naming scheme gives (`P`, the port letter for `k / 32`, `k % 32` in decimal)
for every `k` but 11, where the table has `PA1`, the name of entry 1, in
place of `PA11`. So the 288 names are not pairwise distinct. -/
theorem hpmicro_pins_entry (k : Nat) (h : k < 288) :
    hpmicro_pins.length = 288 ∧
    hpmicro_pins[k]?.map (fun d => d.number) = some k ∧
    hpmicro_pins[k]?.map (fun d => d.name)
      = some (if k = 11 then "PA1" else spec_pin_name k) ∧
    (k ≠ 11 → hpmicro_pins[k]?.map (fun d => d.name) = some (spec_pin_name k)) ∧
    spec_pin_name 11 ≠ "PA1" ∧
    hpmicro_pins[11]?.map (fun d => d.name) = hpmicro_pins[1]?.map (fun d => d.name) ∧
    ¬ (hpmicro_pins.map (fun d => d.name)).Nodup := by
  have hname : ∀ j, j < 288 → hpmicro_pins[j]?.map (fun d => d.name)
      = some (if j = 11 then "PA1" else spec_pin_name j) := by
    intro j hj
    rw [← List.getElem?_map, hpmicro_pins_names, List.getElem?_map, List.getElem?_range hj]
    rfl
  have hdup : hpmicro_pins[11]?.map (fun d => d.name)
      = hpmicro_pins[1]?.map (fun d => d.name) := by
    rw [hname 11 (by decide), hname 1 (by decide)]
    rfl
  refine ⟨hpmicro_pins_length, ?_, hname k h, ?_, by decide, hdup, ?_⟩
  · rw [← List.getElem?_map, hpmicro_pins_numbers, List.getElem?_range h]
  · intro hk
    rw [hname k h, if_neg hk]
  · intro hnd
    have hne := List.nodup_iff_getElem?_ne_getElem?.mp hnd 1 11 (by decide)
      (by rw [List.length_map, hpmicro_pins_length]; decide)
    rw [List.getElem?_map, List.getElem?_map] at hne
    exact hne hdup.symm

/-- C31 at the failing input: entry 11 of the table has the number 11 and the
name `PA1`, where the naming scheme gives `PA11`; entry 1 has the name `PA1`
too. -/
theorem hpmicro_pins_entry_witness :
    hpmicro_pins[11]?.map (fun d => d.number) = some 11 ∧
    hpmicro_pins[11]?.map (fun d => d.name) = some "PA1" ∧
    spec_pin_name 11 = "PA11" ∧
    hpmicro_pins[1]?.map (fun d => d.name) = some "PA1" :=
  ⟨(hpmicro_pins_entry 11 (by decide)).2.1, (hpmicro_pins_entry 11 (by decide)).2.2.1,
    by decide, (hpmicro_pins_entry 1 (by decide)).2.2.1⟩

end HPMicro
